import Mathlib

/-!
# Dual-mode storage of the AI image generator (`src/js/storage.js`)

A shallow embedding of `StorageManager`.

* The IndexedDB object stores (`images`, `folders`, `syncQueue`), the Firestore
  collections and the Firebase Storage bucket are lists of records in key order.
* Every asynchronous request (an IndexedDB request, a Firebase call, a payload
  conversion) is one atomic step. Whether it rejects is decided by an oracle of the
  environment `Env`, so a statement about all environments covers every pattern of
  local and remote failures.
* A method that can throw returns an `Except` together with the state reached when
  it returned or threw; `try`/`catch` is a case distinction on that result.
* A promise that never settles is the result `none` of an `Option`:
  `saveImageLocally` with a blob places its `put` in the reader's handler, after the
  transaction has stopped being active, so that call and the `saveImage` awaiting it
  never return.
* The state carries the history of the run (`log`). The program never reads it; it
  numbers the oracle calls and records which queue entries were replayed, in which
  order and with which outcome.
-/

namespace StorageManager

/-! ## Data model -/

/-- The two values of `syncStatus`. -/
inductive SyncStatus
  | pending
  | synced
  deriving DecidableEq, Repr

/-- A `Blob`/`File`: its `size`, its MIME `type` and an identifier of its bytes. -/
structure Blob where
  size : Nat
  type : String
  content : Nat
  deriving DecidableEq, Repr

/-- The `metadata` object of an image record. `compressed` and `originalSize` are
absent (`none`) unless the payload was compressed. -/
structure Metadata where
  size : Nat
  type : String
  width : Nat
  height : Nat
  model : String
  compressed : Option Bool
  originalSize : Option Nat
  deriving DecidableEq, Repr

/-- An image record as built by `saveImage`. `imageData` is the data URL that the
reader's handler in `saveImageLocally` assigns (represented by the blob it encodes),
`cloudUrl` is set after an upload, and `storagePath` only exists on the Firestore
copy. -/
structure ImageRecord where
  id : String
  userId : String
  folderId : Option String
  originalPrompt : String
  style : String
  createdAt : Nat
  updatedAt : Nat
  tags : List String
  metadata : Metadata
  syncStatus : SyncStatus
  cloudUrl : Option String
  imageData : Option Blob
  storagePath : Option String
  deriving DecidableEq, Repr

/-- A folder record as built by `createFolder`. -/
structure FolderRecord where
  id : String
  name : String
  userId : String
  icon : String
  color : String
  createdAt : Nat
  updatedAt : Nat
  imageCount : Nat
  syncStatus : SyncStatus
  deriving DecidableEq, Repr

/-- The `action` and `data` of a sync item, as the four call sites of
`addToSyncQueue` build them (`'upload'` with an image record, `'delete'` and
`'deleteFolder'` with an `id`/`userId` pair, `'createFolder'` with a folder record).
No call site produces another action, so the `default` branch of `processSyncItem`
has no counterpart here. -/
inductive SyncData
  | upload (record : ImageRecord)
  | delete (id : String) (userId : String)
  | createFolder (folder : FolderRecord)
  | deleteFolder (id : String) (userId : String)
  deriving DecidableEq, Repr

/-- The `action` string of a sync item. -/
def SyncData.action : SyncData → String
  | .upload _ => "upload"
  | .delete _ _ => "delete"
  | .createFolder _ => "createFolder"
  | .deleteFolder _ _ => "deleteFolder"

/-- A record of the `syncQueue` object store (`keyPath: 'id'`, `autoIncrement`). -/
structure SyncItem where
  id : Nat
  data : SyncData
  timestamp : Nat
  retries : Nat
  maxRetries : Nat
  deriving DecidableEq, Repr

/-- The argument `imageData` of `saveImage`; a missing property is `none`. -/
structure ImageInput where
  prompt : Option String
  style : Option String
  file : Option Blob
  width : Option Nat
  height : Option Nat
  model : Option String
  deriving DecidableEq, Repr

/-! ## Requests, environment and state -/

/-- The asynchronous requests whose outcome the environment decides: requests on the
IndexedDB stores, the two payload conversions, and the Firebase calls. -/
inductive Op
  | imagesPut (id : String)
  | imagesDelete (id : String)
  | imagesGetAll (userId : String)
  | imagesOpenCursor (userId : String)
  | foldersPut (id : String)
  | foldersDelete (id : String)
  | foldersGetAll (userId : String)
  | queueAdd
  | queueGetAll
  | queuePut (id : Nat)
  | queueDelete (id : Nat)
  | readAsDataURL
  | fetchDataURL
  | storagePut (path : String)
  | storageGetDownloadURL (path : String)
  | storageDelete (path : String)
  | imageDocSet (id : String)
  | imageDocGet (id : String)
  | imageDocDelete (id : String)
  | imagesQuery (userId : String)
  | folderDocSet (id : String)
  | folderDocDelete (id : String)
  | foldersQuery (userId : String)
  deriving DecidableEq, Repr

/-- Requests on the Local Record Store (the IndexedDB object stores). -/
def Op.isLocalStore : Op → Bool
  | .imagesPut _ | .imagesDelete _ | .imagesGetAll _ | .imagesOpenCursor _ => true
  | .foldersPut _ | .foldersDelete _ | .foldersGetAll _ => true
  | .queueAdd | .queueGetAll | .queuePut _ | .queueDelete _ => true
  | _ => false

/-- Requests on the Remote Mirror (Firebase Storage and Firestore). -/
def Op.isRemote : Op → Bool
  | .storagePut _ | .storageGetDownloadURL _ | .storageDelete _ => true
  | .imageDocSet _ | .imageDocGet _ | .imageDocDelete _ | .imagesQuery _ => true
  | .folderDocSet _ | .folderDocDelete _ | .foldersQuery _ => true
  | _ => false

/-- History of a run, oldest event first. It is never read by the program; the
oracles of `Env` are indexed by its length, and the properties about the order of
replays are stated on it. -/
inductive Event
  | io (op : Op) (failed : Bool)
  | read
  | replay (entry : Nat) (ok : Bool)
  deriving DecidableEq, Repr

/-- What the program cannot decide itself. Every oracle is indexed by the number of
events that happened before the call. -/
structure Env where
  /-- Whether the request rejects. -/
  fails : Nat → Op → Bool
  /-- The value of `Date.now()`, in milliseconds. -/
  now : Nat → Nat
  /-- The value of `Math.random().toString(36).substr(2, 9)`. -/
  random : Nat → String
  /-- The URL `getDownloadURL()` resolves to for a path. -/
  downloadURL : Nat → String → String
  /-- The blob `canvas.toBlob` passes to its callback (`none` for `null`). -/
  compressed : Nat → Blob → Option Blob

/-- A JavaScript exception raised inside `StorageManager`. -/
inductive Err
  | rejected (op : Op)
  | typeError
  deriving DecidableEq, Repr

/-- The state of a `StorageManager` together with the stores it talks to. -/
structure State where
  /-- IndexedDB store `images`, in key order. -/
  images : List ImageRecord
  /-- IndexedDB store `folders`, in key order. -/
  folders : List FolderRecord
  /-- IndexedDB store `syncQueue`, in key order. -/
  queue : List SyncItem
  /-- Key generator of the `syncQueue` store. -/
  queueKey : Nat
  /-- The field `this.isOnlineMode`. -/
  isOnlineMode : Bool
  /-- Whether `this.firestore` is non-null. -/
  firestore : Bool
  /-- Whether `this.firebaseStorage` is non-null. -/
  firebaseStorage : Bool
  /-- The array `this.syncQueue`. -/
  syncQueue : List SyncItem
  /-- Firestore collection `images`. -/
  cloudImages : List ImageRecord
  /-- Firestore collection `folders`. -/
  cloudFolders : List FolderRecord
  /-- Firebase Storage objects, by path. -/
  cloudFiles : List (String × Blob)
  /-- History of the run. -/
  log : List Event
  deriving DecidableEq, Repr

/-- The state right after `new StorageManager()` on a fresh database and an empty
remote project; `configured` is `CONFIG.ConfigUtils.isFirebaseConfigured()`. -/
def State.init (configured : Bool) : State :=
  { images := [], folders := [], queue := [], queueKey := 1,
    isOnlineMode := false, firestore := configured, firebaseStorage := configured,
    syncQueue := [], cloudImages := [], cloudFolders := [], cloudFiles := [], log := [] }

/-! ## Keyed stores -/

/-- The order of the keys of an object store. -/
class KeyOrd (κ : Type) where
  /-- Whether the first key comes before the second. -/
  lt : κ → κ → Bool

/-- Numeric keys are in numeric order. -/
instance : KeyOrd Nat := ⟨fun a b => decide (a < b)⟩

/-- String keys are compared character by character, which is the order IndexedDB
uses for the ASCII ids that `generateImageId` and `generateFolderId` produce. -/
instance : KeyOrd String := ⟨fun a b => decide (a.data < b.data)⟩

/-- The request `store.put(r)` on a store kept in key order: overwrite the record
with the same key, or insert at the key's position. -/
def storePut {α κ : Type} [DecidableEq κ] [KeyOrd κ] (key : α → κ) (r : α) : List α → List α
  | [] => [r]
  | x :: xs =>
    if KeyOrd.lt (key r) (key x) then r :: x :: xs
    else if key r = key x then r :: xs
    else x :: storePut key r xs

/-- The request `store.delete(k)`: succeeds whether or not the key is present. -/
def storeDelete {α κ : Type} [DecidableEq κ] (key : α → κ) (k : κ) (xs : List α) : List α :=
  xs.filter (fun x => decide (key x ≠ k))

/-- The request `store.get(k)`. -/
def storeGet {α κ : Type} [DecidableEq κ] (key : α → κ) (k : κ) (xs : List α) : Option α :=
  xs.find? (fun x => decide (key x = k))

/-- Whether the request `op` issued in state `s` rejects. -/
def State.fails (env : Env) (s : State) (op : Op) : Bool :=
  env.fails s.log.length op

/-- The state after the outcome of request `op` has been observed. -/
def State.did (env : Env) (s : State) (op : Op) : State :=
  { s with log := s.log ++ [Event.io op (s.fails env op)] }

/-- The state after a read of the clock or of another oracle. -/
def State.tick (s : State) : State :=
  { s with log := s.log ++ [Event.read] }

/-! ## Utilities -/

/-- The operator `x || d` on an optional string: the default replaces `undefined`
and the empty string. -/
def strOr (x : Option String) (d : String) : String :=
  match x with
  | some v => if v = "" then d else v
  | none => d

/-- The operator `x || d` on an optional number: the default replaces `undefined`
and `0`. -/
def numOr (x : Option Nat) (d : Nat) : Nat :=
  match x with
  | some v => if v = 0 then d else v
  | none => d

/-- The characters matched by `\w`. -/
def isWordChar (c : Char) : Bool :=
  c.isAlphanum || c == '_'

/-- The method `toLowerCase` on one character, exact on every character whose image
contains a `\w` character: the ASCII capitals, U+0130 and the Kelvin sign U+212A.
Every other character is left as it is; its image holds no `\w` character, so
`extractTags` treats both the same way. -/
def toLowerCase (c : Char) : List Char :=
  if c = Char.ofNat 0x130 then ['i', Char.ofNat 0x307]
  else if c = Char.ofNat 0x212A then ['k']
  else [c.toLower]

/-- The array `commonWords` of `extractTags`. -/
def commonWords : List String :=
  ["the", "and", "with", "for", "una", "con", "del", "que", "por"]

/-- The method `extractTags`. After the `replace`, a character is either a `\w`
character or white space, so the pieces of `split(/\s+/)` longer than 2 are the
maximal runs of `\w` characters longer than 2. -/
def extractTags (prompt : String) : List String :=
  let lowered := prompt.data.flatMap toLowerCase
  let pieces := (lowered.splitOnP (fun c => !isWordChar c)).map String.mk
  let words := pieces.filter (fun word => decide (word.length > 2))
  (words.filter (fun word => !commonWords.contains word)).take 10

/-- The method `generateImageId`. -/
def generateImageId (env : Env) (s : State) : String × State :=
  ("img_" ++ toString (env.now s.log.length) ++ "_" ++ env.random s.log.length, s.tick)

/-- The method `generateFolderId`. -/
def generateFolderId (env : Env) (s : State) : String × State :=
  ("folder_" ++ toString (env.now s.log.length) ++ "_" ++ env.random s.log.length, s.tick)

/-! ## Local Record Store -/

/-- The method `updateImageLocally`. -/
def updateImageLocally (env : Env) (imageRecord : ImageRecord) (s : State) :
    Except Err ImageRecord × State :=
  if s.fails env (Op.imagesPut imageRecord.id) then
    (.error (.rejected (Op.imagesPut imageRecord.id)), s.did env (Op.imagesPut imageRecord.id))
  else
    (.ok imageRecord,
      { s.did env (Op.imagesPut imageRecord.id) with
        images := storePut ImageRecord.id imageRecord s.images })

/-- The method `saveImageLocally`. The result is `none` when the promise it returns
never settles. The transaction on the `images` store is opened first. Without a blob
the record is put at once, as in `updateImageLocally`. With a blob the put is placed in
the `onload` handler of the file reader, which runs after the transaction has stopped
being active: `store.put` throws inside the handler, nothing is stored, and neither
`resolve` nor `reject` is called. Only a failing reader rejects the promise. -/
def saveImageLocally (env : Env) (imageRecord : ImageRecord) (imageBlob : Option Blob)
    (s : State) : Option (Except Err ImageRecord) × State :=
  match imageBlob with
  | some _ =>
    if s.fails env Op.readAsDataURL then
      (some (.error (.rejected Op.readAsDataURL)), s.did env Op.readAsDataURL)
    else
      (none, s.did env Op.readAsDataURL)
  | none =>
    match updateImageLocally env imageRecord s with
    | (res, s1) => (some res, s1)

/-- The method `deleteImageLocally`. -/
def deleteImageLocally (env : Env) (imageId : String) (s : State) : Except Err Unit × State :=
  if s.fails env (Op.imagesDelete imageId) then
    (.error (.rejected (Op.imagesDelete imageId)), s.did env (Op.imagesDelete imageId))
  else
    (.ok (),
      { s.did env (Op.imagesDelete imageId) with
        images := storeDelete ImageRecord.id imageId s.images })

/-- The method `saveFolderLocally`. -/
def saveFolderLocally (env : Env) (folderData : FolderRecord) (s : State) :
    Except Err FolderRecord × State :=
  if s.fails env (Op.foldersPut folderData.id) then
    (.error (.rejected (Op.foldersPut folderData.id)), s.did env (Op.foldersPut folderData.id))
  else
    (.ok folderData,
      { s.did env (Op.foldersPut folderData.id) with
        folders := storePut FolderRecord.id folderData s.folders })

/-- The method `updateFolderLocally`. -/
def updateFolderLocally (env : Env) (folderData : FolderRecord) (s : State) :
    Except Err FolderRecord × State :=
  saveFolderLocally env folderData s

/-- The method `deleteFolderLocally`. -/
def deleteFolderLocally (env : Env) (folderId : String) (s : State) : Except Err Unit × State :=
  if s.fails env (Op.foldersDelete folderId) then
    (.error (.rejected (Op.foldersDelete folderId)), s.did env (Op.foldersDelete folderId))
  else
    (.ok (),
      { s.did env (Op.foldersDelete folderId) with
        folders := storeDelete FolderRecord.id folderId s.folders })

/-! ## Remote Mirror -/

/-- The storage path of an image. -/
def storagePathOf (imageRecord : ImageRecord) : String :=
  "images/" ++ imageRecord.userId ++ "/" ++ imageRecord.id ++ ".jpg"

/-- The method `saveImageToCloud`. Dereferencing a null `firebaseStorage` or
`firestore` raises a `TypeError`, and so does `put` without a blob. -/
def saveImageToCloud (env : Env) (imageRecord : ImageRecord) (imageBlob : Option Blob)
    (s : State) : Except Err String × State :=
  let fileName := storagePathOf imageRecord
  if !s.firebaseStorage then (.error .typeError, s)
  else
    match imageBlob with
    | none => (.error .typeError, s)
    | some b =>
      if s.fails env (Op.storagePut fileName) then
        (.error (.rejected (Op.storagePut fileName)), s.did env (Op.storagePut fileName))
      else
        let s1 := { s.did env (Op.storagePut fileName) with
                    cloudFiles := storePut Prod.fst (fileName, b) s.cloudFiles }
        if s1.fails env (Op.storageGetDownloadURL fileName) then
          (.error (.rejected (Op.storageGetDownloadURL fileName)),
            s1.did env (Op.storageGetDownloadURL fileName))
        else
          let downloadURL := env.downloadURL s1.log.length fileName
          let s2 := s1.did env (Op.storageGetDownloadURL fileName)
          if !s2.firestore then (.error .typeError, s2)
          else if s2.fails env (Op.imageDocSet imageRecord.id) then
            (.error (.rejected (Op.imageDocSet imageRecord.id)),
              s2.did env (Op.imageDocSet imageRecord.id))
          else
            (.ok downloadURL,
              { s2.did env (Op.imageDocSet imageRecord.id) with
                cloudImages := storePut ImageRecord.id
                  { imageRecord with
                    imageData := none, cloudUrl := some downloadURL,
                    storagePath := some fileName }
                  s2.cloudImages })

/-- The last statement of `deleteImageFromCloud`: delete the Firestore document. -/
def deleteImageDoc (env : Env) (imageId : String) (s : State) : Except Err Unit × State :=
  if s.fails env (Op.imageDocDelete imageId) then
    (.error (.rejected (Op.imageDocDelete imageId)), s.did env (Op.imageDocDelete imageId))
  else
    (.ok (),
      { s.did env (Op.imageDocDelete imageId) with
        cloudImages := storeDelete ImageRecord.id imageId s.cloudImages })

/-- The method `deleteImageFromCloud`. An empty `storagePath` is falsy. -/
def deleteImageFromCloud (env : Env) (imageId : String) (s : State) : Except Err Unit × State :=
  if !s.firestore then (.error .typeError, s)
  else if s.fails env (Op.imageDocGet imageId) then
    (.error (.rejected (Op.imageDocGet imageId)), s.did env (Op.imageDocGet imageId))
  else
    let s1 := s.did env (Op.imageDocGet imageId)
    match storeGet ImageRecord.id imageId s1.cloudImages with
    | none => (.ok (), s1)
    | some doc =>
      match doc.storagePath with
      | none => deleteImageDoc env imageId s1
      | some path =>
        if path = "" then deleteImageDoc env imageId s1
        else if !s1.firebaseStorage then (.error .typeError, s1)
        else if s1.fails env (Op.storageDelete path) then
          (.error (.rejected (Op.storageDelete path)), s1.did env (Op.storageDelete path))
        else
          deleteImageDoc env imageId
            { s1.did env (Op.storageDelete path) with
              cloudFiles := storeDelete Prod.fst path s1.cloudFiles }

/-- The method `saveFolderToCloud`. -/
def saveFolderToCloud (env : Env) (folderData : FolderRecord) (s : State) :
    Except Err Unit × State :=
  if !s.firestore then (.error .typeError, s)
  else if s.fails env (Op.folderDocSet folderData.id) then
    (.error (.rejected (Op.folderDocSet folderData.id)), s.did env (Op.folderDocSet folderData.id))
  else
    (.ok (),
      { s.did env (Op.folderDocSet folderData.id) with
        cloudFolders := storePut FolderRecord.id folderData s.cloudFolders })

/-- The method `deleteFolderFromCloud`. -/
def deleteFolderFromCloud (env : Env) (folderId : String) (s : State) :
    Except Err Unit × State :=
  if !s.firestore then (.error .typeError, s)
  else if s.fails env (Op.folderDocDelete folderId) then
    (.error (.rejected (Op.folderDocDelete folderId)), s.did env (Op.folderDocDelete folderId))
  else
    (.ok (),
      { s.did env (Op.folderDocDelete folderId) with
        cloudFolders := storeDelete FolderRecord.id folderId s.cloudFolders })

/-! ## Sync queue -/

/-- The method `addToSyncQueue`. The key of the new item comes from the key
generator of the store, which is above every key in use, so the item is last in key
order. -/
def addToSyncQueue (env : Env) (data : SyncData) (s : State) : Except Err Unit × State :=
  let syncItem : SyncItem :=
    { id := s.queueKey, data := data, timestamp := env.now s.log.length,
      retries := 0, maxRetries := 3 }
  let s1 := s.tick
  if s1.fails env Op.queueAdd then
    (.error (.rejected Op.queueAdd), s1.did env Op.queueAdd)
  else
    (.ok (),
      { s1.did env Op.queueAdd with
        queue := s1.queue ++ [syncItem], queueKey := s1.queueKey + 1 })

/-- The method `getSyncQueue`. -/
def getSyncQueue (env : Env) (s : State) : Except Err (List SyncItem) × State :=
  if s.fails env Op.queueGetAll then
    (.error (.rejected Op.queueGetAll), s.did env Op.queueGetAll)
  else
    (.ok s.queue, s.did env Op.queueGetAll)

/-- The method `updateSyncItem`. -/
def updateSyncItem (env : Env) (item : SyncItem) (s : State) : Except Err Unit × State :=
  if s.fails env (Op.queuePut item.id) then
    (.error (.rejected (Op.queuePut item.id)), s.did env (Op.queuePut item.id))
  else
    (.ok (),
      { s.did env (Op.queuePut item.id) with queue := storePut SyncItem.id item s.queue })

/-- The method `removeSyncItem`. -/
def removeSyncItem (env : Env) (itemId : Nat) (s : State) : Except Err Unit × State :=
  if s.fails env (Op.queueDelete itemId) then
    (.error (.rejected (Op.queueDelete itemId)), s.did env (Op.queueDelete itemId))
  else
    (.ok (),
      { s.did env (Op.queueDelete itemId) with queue := storeDelete SyncItem.id itemId s.queue })

/-- The method `processSyncItem`. The item is returned as well, because the
`'upload'` and `'createFolder'` cases assign to `item.data` and the caller goes on
with the same object. -/
def processSyncItem (env : Env) (item : SyncItem) (s : State) :
    Except Err Unit × SyncItem × State :=
  match item.data with
  | .upload record =>
    match record.imageData with
    | none => (.ok (), item, s)
    | some blob =>
      if s.fails env Op.fetchDataURL then
        (.error (.rejected Op.fetchDataURL), item, s.did env Op.fetchDataURL)
      else
        match saveImageToCloud env record (some blob) (s.did env Op.fetchDataURL) with
        | (.error e, s1) => (.error e, item, s1)
        | (.ok cloudUrl, s1) =>
          let record1 := { record with cloudUrl := some cloudUrl, syncStatus := .synced }
          let item1 := { item with data := .upload record1 }
          match updateImageLocally env record1 s1 with
          | (.error e, s2) => (.error e, item1, s2)
          | (.ok _, s2) => (.ok (), item1, s2)
  | .delete id _ =>
    match deleteImageFromCloud env id s with
    | (r, s1) => (r, item, s1)
  | .createFolder folder =>
    match saveFolderToCloud env folder s with
    | (.error e, s1) => (.error e, item, s1)
    | (.ok _, s1) =>
      let folder1 := { folder with syncStatus := .synced }
      let item1 := { item with data := .createFolder folder1 }
      match updateFolderLocally env folder1 s1 with
      | (.error e, s2) => (.error e, item1, s2)
      | (.ok _, s2) => (.ok (), item1, s2)
  | .deleteFolder id _ =>
    match deleteFolderFromCloud env id s with
    | (r, s1) => (r, item, s1)

/-- The `catch` block of the loop body of `processSyncQueue`: count the retry, then
drop the item at `maxRetries` or store the counted item. An error is a rejection of
the queue request, which leaves the `for` loop. -/
def retryOrDrop (env : Env) (item : SyncItem) (s : State) : Except Err Unit × State :=
  let item1 := { item with retries := item.retries + 1 }
  if item1.retries ≥ item1.maxRetries then removeSyncItem env item1.id s
  else updateSyncItem env item1 s

/-- One iteration of the `for` loop of `processSyncQueue`. The outcome of
`processSyncItem` is written to the history. -/
def processSyncStep (env : Env) (item : SyncItem) (s : State) : Except Err Unit × State :=
  match processSyncItem env item s with
  | (.ok _, item1, s1) =>
    match removeSyncItem env item1.id { s1 with log := s1.log ++ [Event.replay item.id true] } with
    | (.ok _, s2) => (.ok (), s2)
    | (.error _, s2) => retryOrDrop env item1 s2
  | (.error _, item1, s1) =>
    retryOrDrop env item1 { s1 with log := s1.log ++ [Event.replay item.id false] }

/-- The `for` loop of `processSyncQueue` over the items read at the start. -/
def processSyncItems (env : Env) : List SyncItem → State → Except Err Unit × State
  | [], s => (.ok (), s)
  | item :: rest, s =>
    match processSyncStep env item s with
    | (.ok _, s1) => processSyncItems env rest s1
    | (.error e, s1) => (.error e, s1)

/-- The method `processSyncQueue`. Errors are logged to the console, not raised. -/
def processSyncQueue (env : Env) (s : State) : State :=
  if !s.isOnlineMode || !s.firestore then s
  else
    match getSyncQueue env s with
    | (.error _, s1) => s1
    | (.ok syncItems, s1) => (processSyncItems env syncItems s1).2

/-- The method `setMode`. The call of `processSyncQueue` is not awaited; here it runs
to completion. -/
def setMode (env : Env) (isOnline : Bool) (s : State) : State :=
  let s1 := { s with isOnlineMode := isOnline }
  if isOnline && decide (s1.syncQueue.length > 0) then processSyncQueue env s1 else s1

/-! ## Storage coordinator -/

/-- The method `compressImage`, as far as `saveImage` observes it: the blob passed to
the `toBlob` callback. -/
def compressImage (env : Env) (file : Blob) (s : State) : Option Blob × State :=
  (env.compressed s.log.length file, s.tick)

/-- The record `imageRecord` that `saveImage` builds before compression. -/
def newImageRecord (imageId : String) (timestamp : Nat) (imageData : ImageInput)
    (userId : String) (folderId : Option String) (isOnlineMode : Bool) : ImageRecord :=
  { id := imageId
    userId := userId
    folderId := folderId
    originalPrompt := strOr imageData.prompt ""
    style := strOr imageData.style "realistic"
    createdAt := timestamp
    updatedAt := timestamp
    tags := extractTags (strOr imageData.prompt "")
    metadata :=
      { size := match imageData.file with
          | some file => file.size
          | none => 0
        type := match imageData.file with
          | some file => file.type
          | none => "image/jpeg"
        width := numOr imageData.width 512
        height := numOr imageData.height 512
        model := strOr imageData.model "unknown"
        compressed := none
        originalSize := none }
    syncStatus := if isOnlineMode then .synced else .pending
    cloudUrl := none
    imageData := none
    storagePath := none }

/-- The part of `saveImage` after the local write: write-through when online with a
storage handle, enqueue when offline, nothing otherwise. An error is one that
reaches the outer `catch`. -/
def saveImageRemote (env : Env) (imageRecord : ImageRecord) (imageBlob : Option Blob)
    (s : State) : Except Err Unit × State :=
  if s.isOnlineMode && s.firebaseStorage then
    match saveImageToCloud env imageRecord imageBlob s with
    | (.ok cloudUrl, s1) =>
      let imageRecord1 := { imageRecord with cloudUrl := some cloudUrl, syncStatus := .synced }
      match updateImageLocally env imageRecord1 s1 with
      | (.ok _, s2) => (.ok (), s2)
      | (.error _, s2) => addToSyncQueue env (.upload imageRecord1) s2
    | (.error _, s1) => addToSyncQueue env (.upload imageRecord) s1
  else if !s.isOnlineMode then addToSyncQueue env (.upload imageRecord) s
  else (.ok (), s)

/-- The method `saveImage`: `some (.ok imageId)` for the success object,
`some (.error code)` with the `error` code of the object thrown, and `none` when the
call never returns because it awaits a `saveImageLocally` that never settles. -/
def saveImage (env : Env) (imageData : ImageInput) (userId : String)
    (folderId : Option String) (s : State) : Option (Except String String) × State :=
  let (imageId, s1) := generateImageId env s
  let timestamp := env.now s1.log.length
  let s2 := s1.tick
  let imageRecord := newImageRecord imageId timestamp imageData userId folderId s2.isOnlineMode
  let prepared : Option (ImageRecord × Option Blob) × State :=
    match imageData.file with
    | none => (some (imageRecord, none), s2)
    | some file =>
      if file.size > 1024 * 1024 then
        match compressImage env file s2 with
        | (none, s3) => (none, s3)
        | (some blob, s3) =>
          (some ({ imageRecord with
                   metadata := { imageRecord.metadata with
                                 compressed := some true, originalSize := some file.size,
                                 size := blob.size } },
                 some blob), s3)
      else (some (imageRecord, some file), s2)
  match prepared with
  | (none, s3) => (some (.error "storage/save-failed"), s3)
  | (some (imageRecord1, imageBlob), s3) =>
    match saveImageLocally env imageRecord1 imageBlob s3 with
    | (none, s4) => (none, s4)
    | (some (.error _), s4) => (some (.error "storage/save-failed"), s4)
    | (some (.ok imageRecord2), s4) =>
      match saveImageRemote env imageRecord2 imageBlob s4 with
      | (.ok _, s5) => (some (.ok imageId), s5)
      | (.error _, s5) => (some (.error "storage/save-failed"), s5)

/-- The method `deleteImage`: `.ok ()` for the success object, `.error` with the
`error` code of the object thrown. -/
def deleteImage (env : Env) (imageId : String) (userId : String) (s : State) :
    Except String Unit × State :=
  match deleteImageLocally env imageId s with
  | (.error _, s1) => (.error "storage/delete-failed", s1)
  | (.ok _, s1) =>
    let enqueued : Except Err Unit × State :=
      if s1.isOnlineMode && s1.firestore then
        match deleteImageFromCloud env imageId s1 with
        | (.ok _, s2) => (.ok (), s2)
        | (.error _, s2) => addToSyncQueue env (.delete imageId userId) s2
      else addToSyncQueue env (.delete imageId userId) s1
    match enqueued with
    | (.ok _, s3) => (.ok (), s3)
    | (.error _, s3) => (.error "storage/delete-failed", s3)

/-- The part of `saveImage` before the local write: the id, and the record and blob
that are passed to `saveImageLocally` (`none` when dereferencing the compressed blob
raises a `TypeError`). -/
def prepareImage (env : Env) (imageData : ImageInput) (userId : String)
    (folderId : Option String) (s : State) :
    String × Option (ImageRecord × Option Blob) × State :=
  let (imageId, s1) := generateImageId env s
  let timestamp := env.now s1.log.length
  let s2 := s1.tick
  let imageRecord := newImageRecord imageId timestamp imageData userId folderId s2.isOnlineMode
  match imageData.file with
  | none => (imageId, some (imageRecord, none), s2)
  | some file =>
    if file.size > 1024 * 1024 then
      match compressImage env file s2 with
      | (none, s3) => (imageId, none, s3)
      | (some blob, s3) =>
        (imageId,
          some ({ imageRecord with
                  metadata := { imageRecord.metadata with
                                compressed := some true, originalSize := some file.size,
                                size := blob.size } },
                some blob), s3)
    else (imageId, some (imageRecord, some file), s2)

/-! ## Listing images -/

/-- The object that `getImagesLocally` and `getImagesFromCloud` resolve with. -/
structure ImagePage where
  images : List ImageRecord
  total : Nat
  hasMore : Bool
  deriving DecidableEq, Repr

/-- The order asked for by the comparator
`(a, b) => new Date(b.createdAt) - new Date(a.createdAt)`: the result is not positive,
so `a` may stay before `b`. -/
def newerFirst (a b : ImageRecord) : Prop :=
  a.createdAt ≥ b.createdAt

instance : DecidableRel newerFirst :=
  fun a b => inferInstanceAs (Decidable (a.createdAt ≥ b.createdAt))

/-- The method `getImagesLocally`. The index `userId` returns the records of the user
in key order; `Array.prototype.sort` is stable. -/
def getImagesLocally (env : Env) (userId : String) (folderId : Option String)
    (limit offset : Nat) (s : State) : Except Err ImagePage × State :=
  if s.fails env (Op.imagesGetAll userId) then
    (.error (.rejected (Op.imagesGetAll userId)), s.did env (Op.imagesGetAll userId))
  else
    let images := s.images.filter (fun img => decide (img.userId = userId))
    let images1 :=
      match folderId with
      | none => images
      | some f => images.filter (fun img => decide (img.folderId = some f))
    let images2 := images1.insertionSort newerFirst
    let paginatedImages := (images2.drop offset).take limit
    (.ok { images := paginatedImages, total := images2.length,
           hasMore := decide (offset + limit < images2.length) },
      s.did env (Op.imagesGetAll userId))

/-- The method `getImagesFromCloud`. Dereferencing a null `firestore` raises a
`TypeError`, and `limit(0)` throws before anything is sent. Firestore orders documents
with equal `createdAt` by document id, descending like the last `orderBy`. The
parameter `offset` is not used. -/
def getImagesFromCloud (env : Env) (userId : String) (folderId : Option String)
    (limit _offset : Nat) (s : State) : Except Err ImagePage × State :=
  if !s.firestore then (.error .typeError, s)
  else if limit = 0 then (.error (.rejected (Op.imagesQuery userId)), s)
  else if s.fails env (Op.imagesQuery userId) then
    (.error (.rejected (Op.imagesQuery userId)), s.did env (Op.imagesQuery userId))
  else
    let docs := s.cloudImages.reverse.filter (fun doc => decide (doc.userId = userId))
    let docs1 :=
      match folderId with
      | none => docs
      | some f => docs.filter (fun doc => decide (doc.folderId = some f))
    let images := (docs1.insertionSort newerFirst).take limit
    (.ok { images := images, total := images.length,
           hasMore := decide (images.length = limit) },
      s.did env (Op.imagesQuery userId))

/-- The method `getImages`: the Remote Mirror answers when the manager is online with
a Firestore handle; whatever is thrown, the `catch` block asks the local store. -/
def getImages (env : Env) (userId : String) (folderId : Option String)
    (limit offset : Nat) (s : State) : Except Err ImagePage × State :=
  let first :=
    if s.isOnlineMode && s.firestore then getImagesFromCloud env userId folderId limit offset s
    else getImagesLocally env userId folderId limit offset s
  match first with
  | (.ok page, s1) => (.ok page, s1)
  | (.error _, s1) => getImagesLocally env userId folderId limit offset s1

/-! ## Folders -/

/-- The method `createFolder`: `.ok folderData` for the success object, `.error` with
the `error` code of the object thrown. `none` for `icon` or `color` selects the
default value of the parameter. -/
def createFolder (env : Env) (name userId : String) (icon color : Option String)
    (s : State) : Except String FolderRecord × State :=
  let (folderId, s1) := generateFolderId env s
  let timestamp := env.now s1.log.length
  let s2 := s1.tick
  let folderData : FolderRecord :=
    { id := folderId, name := name, userId := userId
      icon := icon.getD "📁", color := color.getD "#6366f1"
      createdAt := timestamp, updatedAt := timestamp, imageCount := 0
      syncStatus := if s2.isOnlineMode then .synced else .pending }
  match saveFolderLocally env folderData s2 with
  | (.error _, s3) => (.error "storage/folder-create-failed", s3)
  | (.ok _, s3) =>
    let mirrored : Except Err FolderRecord × State :=
      if s3.isOnlineMode && s3.firestore then
        match saveFolderToCloud env folderData s3 with
        | (.ok _, s4) =>
          let folderData1 := { folderData with syncStatus := .synced }
          match updateFolderLocally env folderData1 s4 with
          | (.ok _, s5) => (.ok folderData1, s5)
          | (.error _, s5) =>
            match addToSyncQueue env (.createFolder folderData1) s5 with
            | (.ok _, s6) => (.ok folderData1, s6)
            | (.error e, s6) => (.error e, s6)
        | (.error _, s4) =>
          match addToSyncQueue env (.createFolder folderData) s4 with
          | (.ok _, s5) => (.ok folderData, s5)
          | (.error e, s5) => (.error e, s5)
      else
        match addToSyncQueue env (.createFolder folderData) s3 with
        | (.ok _, s4) => (.ok folderData, s4)
        | (.error e, s4) => (.error e, s4)
    match mirrored with
    | (.ok folder, s4) => (.ok folder, s4)
    | (.error _, s4) => (.error "storage/folder-create-failed", s4)

/-- What `deleteFolder` throws: the `error` code is the same in both cases, the
`message` is that of the cause. -/
inductive FolderDeleteError
  /-- The `Error` thrown when the folder has an image. -/
  | notEmpty
  /-- An exception of one of the calls. -/
  | failed (cause : Err)
  deriving DecidableEq, Repr

/-- The field `error` of the object thrown by `deleteFolder`. -/
def FolderDeleteError.error (_ : FolderDeleteError) : String :=
  "storage/folder-delete-failed"

/-- The method `deleteFolder`. -/
def deleteFolder (env : Env) (folderId userId : String) (s : State) :
    Except FolderDeleteError Unit × State :=
  match getImages env userId (some folderId) 1 0 s with
  | (.error e, s1) => (.error (.failed e), s1)
  | (.ok images, s1) =>
    if images.images.length > 0 then (.error .notEmpty, s1)
    else
      match deleteFolderLocally env folderId s1 with
      | (.error e, s2) => (.error (.failed e), s2)
      | (.ok _, s2) =>
        let enqueued : Except Err Unit × State :=
          if s2.isOnlineMode && s2.firestore then
            match deleteFolderFromCloud env folderId s2 with
            | (.ok _, s3) => (.ok (), s3)
            | (.error _, s3) => addToSyncQueue env (.deleteFolder folderId userId) s3
          else addToSyncQueue env (.deleteFolder folderId userId) s2
        match enqueued with
        | (.ok _, s3) => (.ok (), s3)
        | (.error e, s3) => (.error (.failed e), s3)

/-! ## Maintenance -/

/-- Whether `image.cloudUrl` is truthy: present and not the empty string. -/
def hasCloudUrl (image : ImageRecord) : Bool :=
  match image.cloudUrl with
  | some url => decide (url ≠ "")
  | none => false

/-- The cursor loop of `cleanupStorage` over the `images` store in key order, with the
count so far; the result is the store after the loop and the final count. The cursor
of the index visits the records of `userId` only; `cursor.delete()` removes the
record the cursor is on. -/
def cleanupCursor (userId : String) (cutoffDate : Int) :
    List ImageRecord → Nat → List ImageRecord × Nat
  | [], deletedCount => ([], deletedCount)
  | image :: rest, deletedCount =>
    if image.userId = userId then
      if decide ((image.createdAt : Int) < cutoffDate) && !hasCloudUrl image then
        cleanupCursor userId cutoffDate rest (deletedCount + 1)
      else
        ((image :: (cleanupCursor userId cutoffDate rest deletedCount).1),
          (cleanupCursor userId cutoffDate rest deletedCount).2)
    else
      ((image :: (cleanupCursor userId cutoffDate rest deletedCount).1),
        (cleanupCursor userId cutoffDate rest deletedCount).2)

/-- The method `cleanupStorage`: `.ok deletedCount` for the success object. The loop
runs in one transaction, so a rejected cursor request leaves the store as it was.
The promise is returned without `await`, so a rejection is not wrapped by the
`catch` block. -/
def cleanupStorage (env : Env) (userId : String) (maxAge : Nat) (s : State) :
    Except Err Nat × State :=
  let cutoffDate : Int := (env.now s.log.length : Int) - (maxAge : Int)
  let s1 := s.tick
  if s1.fails env (Op.imagesOpenCursor userId) then
    (.error (.rejected (Op.imagesOpenCursor userId)), s1.did env (Op.imagesOpenCursor userId))
  else
    (.ok (cleanupCursor userId cutoffDate s1.images 0).2,
      { s1.did env (Op.imagesOpenCursor userId) with
        images := (cleanupCursor userId cutoffDate s1.images 0).1 })

/-- The dimensions at which `compressImage` redraws an image of the given width and
height, in exact arithmetic (`maxSize` is 1024). -/
def resizeDimensions (width height : ℚ) : ℚ × ℚ :=
  let maxSize : ℚ := 1024
  if width > height ∧ width > maxSize then (maxSize, (height * maxSize) / width)
  else if height > maxSize then ((width * maxSize) / height, maxSize)
  else (width, height)

/-! ## Sample environments and inputs -/

/-- An environment in which no request rejects. -/
def quietEnv : Env :=
  { fails := fun _ _ => false
    now := fun n => 1000 + n
    random := fun _ => "k3x"
    downloadURL := fun _ path => "https://cdn/" ++ path
    compressed := fun _ b => some b }

/-- An environment in which every request on the Remote Mirror rejects. -/
def remoteDownEnv : Env :=
  { quietEnv with fails := fun _ op => op.isRemote }

/-- An image with a small binary payload. -/
def sampleInput : ImageInput :=
  { prompt := some "a red fox", style := none
    file := some { size := 10, type := "image/png", content := 7 }
    width := none, height := none, model := none }

/-- An image without a binary payload. -/
def bareInput : ImageInput :=
  { prompt := some "a red fox", style := none, file := none
    width := none, height := none, model := none }

/-- A fresh manager with Firebase configured, switched to online mode. -/
def onlineState : State :=
  { State.init true with isOnlineMode := true }

/-- A fresh manager without Firebase, switched to online mode. -/
def onlineUnconfigured : State :=
  { State.init false with isOnlineMode := true }

/-- An image record with a payload, of user `u1`, in folder `F`, not yet uploaded. -/
def sampleRecord : ImageRecord :=
  { id := "img1", userId := "u1", folderId := some "F", originalPrompt := "a red fox"
    style := "realistic", createdAt := 10, updatedAt := 10, tags := ["red", "fox"]
    metadata := { size := 10, type := "image/png", width := 512, height := 512
                  model := "unknown", compressed := none, originalSize := none }
    syncStatus := .pending, cloudUrl := none
    imageData := some { size := 10, type := "image/png", content := 7 }
    storagePath := none }

/-- The folder `F` of user `u1`, created offline. -/
def sampleFolder : FolderRecord :=
  { id := "F", name := "Foxes", userId := "u1", icon := "dir", color := "#6366f1"
    createdAt := 5, updatedAt := 5, imageCount := 0, syncStatus := .pending }

/-- An online manager whose queue holds the creation of folder `F` and then the
upload of an image in `F`. -/
def folderThenUpload : State :=
  { onlineState with
    images := [sampleRecord], folders := [sampleFolder]
    queue := [{ id := 1, data := .createFolder sampleFolder, timestamp := 6,
                retries := 0, maxRetries := 3 },
              { id := 2, data := .upload sampleRecord, timestamp := 11,
                retries := 0, maxRetries := 3 }]
    queueKey := 3 }

/-- An online manager whose queue holds an upload, a delete and the creation of a
folder that has already failed twice. -/
def queuedState : State :=
  { onlineState with
    images := [sampleRecord]
    queue := [{ id := 1, data := .upload sampleRecord, timestamp := 11,
                retries := 0, maxRetries := 3 },
              { id := 2, data := .delete "old" "u1", timestamp := 12,
                retries := 0, maxRetries := 3 },
              { id := 3, data := .createFolder sampleFolder, timestamp := 13,
                retries := 2, maxRetries := 3 }]
    queueKey := 4 }

/-- An environment in which the upload of `img1` and the write of folder `F` always
reject, and nothing else does. -/
def flakyEnv : Env :=
  { quietEnv with
    fails := fun _ op => op == Op.storagePut "images/u1/img1.jpg" || op == Op.folderDocSet "F" }

/-- As `flakyEnv`, and the request that stores the retry count of item 1 rejects as
well. -/
def brokenQueueEnv : Env :=
  { quietEnv with
    fails := fun _ op => op == Op.storagePut "images/u1/img1.jpg" || op == Op.queuePut 1 }

/-- An environment in which only the request that writes image `img_1000_k3x` to
the local store rejects. -/
def localPutDownEnv : Env :=
  { quietEnv with fails := fun _ op => op == Op.imagesPut "img_1000_k3x" }

/-- An environment in which `canvas.toBlob` passes `null` to its callback and no
request rejects. -/
def noCompressEnv : Env :=
  { quietEnv with compressed := fun _ _ => none }

/-- An image whose payload is above the compression threshold of 1 MiB. -/
def bigInput : ImageInput :=
  { prompt := some "a red fox", style := none
    file := some { size := 2000000, type := "image/png", content := 7 }
    width := none, height := none, model := none }

/-- An environment in which no request rejects and the download URL of a path
carries a token that changes from call to call. -/
def tokenEnv : Env :=
  { quietEnv with
    downloadURL := fun n path => "https://cdn/" ++ path ++ "?token=" ++ toString n }

/-- An environment in which only the request that deletes folder `F` from the local
store rejects. -/
def folderDeleteDownEnv : Env :=
  { quietEnv with fails := fun _ op => op == Op.foldersDelete "F" }

/-- An environment in which only the request that deletes image `img1` from the
local store rejects. -/
def imageDeleteDownEnv : Env :=
  { quietEnv with fails := fun _ op => op == Op.imagesDelete "img1" }

/-- A fresh manager with Firebase configured after an offline `saveImage` of
`bareInput` and an offline `deleteImage` of the image saved. -/
def savedThenDeleted : State :=
  (deleteImage quietEnv "img_1000_k3x" "u1"
    (saveImage quietEnv bareInput "u1" none (State.init true)).2).2

/-- A fresh manager with Firebase configured after an offline `createFolder` and an
offline `deleteFolder` of the folder created. -/
def createdThenDeleted : State :=
  (deleteFolder quietEnv "folder_1000_k3x" "u1"
    (createFolder quietEnv "Foxes" "u1" none none (State.init true)).2).2

/-- A fresh manager with Firebase configured after an offline `createFolder`, an
offline `saveImage` of `bareInput` into the folder created, and `setMode(true)`. -/
def folderWithLocalImage : State :=
  setMode quietEnv true
    (saveImage quietEnv bareInput "u1" (some "folder_1000_k3x")
      (createFolder quietEnv "Foxes" "u1" none none (State.init true)).2).2

/-- An online manager whose persisted queue holds the upload of image `img1`, with
its payload, followed by the deletion of `img1`; the local store no longer holds the
image. -/
def uploadThenDelete : State :=
  { onlineState with
    queue := [{ id := 1, data := .upload sampleRecord, timestamp := 11,
                retries := 0, maxRetries := 3 },
              { id := 2, data := .delete "img1" "u1", timestamp := 12,
                retries := 0, maxRetries := 3 }]
    queueKey := 3 }

/-- An offline manager whose local store holds the folder `F` and no image. -/
def emptyFolderState : State :=
  { State.init true with folders := [sampleFolder] }

/-- An online manager whose local store holds the image `img1`, not yet uploaded. -/
def pendingImageState : State :=
  { onlineState with images := [sampleRecord] }

/-- The persisted `upload` entry of the image `img1`. -/
def uploadItem : SyncItem :=
  { id := 1, data := .upload sampleRecord, timestamp := 11, retries := 0, maxRetries := 3 }

/-- An offline manager whose local store holds three images of user `u1`: `img1`
(created at 10, in folder `F`), `img2` (created at 30, in no folder) and `img3`
(created at 20, in folder `F`). -/
def galleryState : State :=
  { State.init true with
    images := [sampleRecord,
               { sampleRecord with id := "img2", createdAt := 30, folderId := none },
               { sampleRecord with id := "img3", createdAt := 20 }] }

/-- An offline manager whose local store holds four images: `old1` of user `u1`
(created at 100, not uploaded), `old2` of `u1` (created at 100, uploaded), `new1` of
`u1` (created at 900, not uploaded) and `old3` of user `u2` (created at 100, not
uploaded). -/
def cleanupState : State :=
  { State.init true with
    images := [{ sampleRecord with id := "new1", createdAt := 900 },
               { sampleRecord with id := "old1", createdAt := 100 },
               { sampleRecord with id := "old2", createdAt := 100,
                                   cloudUrl := some "https://cdn/images/u1/old2.jpg" },
               { sampleRecord with id := "old3", createdAt := 100, userId := "u2" }] }

/-! ## Relations between states used by the statements -/

/-- The state `t` has the mode and the Firebase handles of `s`. -/
def State.sameConfig (s t : State) : Prop :=
  t.isOnlineMode = s.isOnlineMode ∧ t.firestore = s.firestore
    ∧ t.firebaseStorage = s.firebaseStorage ∧ t.syncQueue = s.syncQueue

/-- The state `t` has the sync queue store of `s`. -/
def State.sameQueue (s t : State) : Prop :=
  t.queue = s.queue ∧ t.queueKey = s.queueKey

/-- The state `t` has the Remote Mirror of `s`. -/
def State.sameCloud (s t : State) : Prop :=
  t.cloudImages = s.cloudImages ∧ t.cloudFolders = s.cloudFolders ∧ t.cloudFiles = s.cloudFiles

/-- The sync items replayed in a history, oldest first, each with its outcome. -/
def replays : List Event → List (Nat × Bool)
  | [] => []
  | Event.replay entry ok :: rest => (entry, ok) :: replays rest
  | _ :: rest => replays rest

/-- The state `t` has the mode, the handles, the sync queue store and the replay
history of `s`. -/
def State.sameCtl (s t : State) : Prop :=
  s.sameConfig t ∧ s.sameQueue t ∧ replays t.log = replays s.log

/-- Every request on the Local Record Store succeeds. -/
def Env.localStoreOk (env : Env) : Prop :=
  ∀ n op, op.isLocalStore = true → env.fails n op = false

/-- No request rejects. -/
def Env.allOk (env : Env) : Prop :=
  ∀ n op, env.fails n op = false

/-- Every request on the Remote Mirror succeeds. -/
def Env.remoteOk (env : Env) : Prop :=
  ∀ n op, op.isRemote = true → env.fails n op = false

/-- The sync queue store is well formed: keys are in strictly ascending order and
below the key generator, as IndexedDB guarantees for an `autoIncrement` store. -/
def State.WF (s : State) : Prop :=
  (s.queue.map SyncItem.id).Pairwise (fun a b => a < b) ∧ ∀ x ∈ s.queue, x.id < s.queueKey

/-- A sync item after one more failed replay. -/
def retried (item : SyncItem) : SyncItem :=
  { item with retries := item.retries + 1 }

/-- What a drain pass leaves of an item, in the words of the specification: an item
whose replay succeeded is removed; an item whose replay failed is dropped when its
incremented `retries` reaches `maxRetries` and is otherwise kept with the incremented
count. -/
def keptAfter (item : SyncItem) (ok : Bool) : Option SyncItem :=
  if ok then none
  else if item.retries + 1 ≥ item.maxRetries then none
  else some (retried item)

/-- The state `t` has the image and folder records of `s`, local and remote. -/
def State.sameStores (s t : State) : Prop :=
  t.images = s.images ∧ t.folders = s.folders ∧ s.sameCloud t

/-- The image a sync item is about, if it is about one. -/
def SyncData.imageId : SyncData → Option String
  | .upload record => some record.id
  | .delete id _ => some id
  | .createFolder _ => none
  | .deleteFolder _ _ => none

/-- The remote copy `c` and the local copy `l` of an image agree on id, owner,
folder, prompt, style, tags and timestamps. -/
def copiesAgree (c l : ImageRecord) : Prop :=
  c.id = l.id ∧ c.userId = l.userId ∧ c.folderId = l.folderId
    ∧ c.originalPrompt = l.originalPrompt ∧ c.style = l.style ∧ c.tags = l.tags
    ∧ c.createdAt = l.createdAt ∧ c.updatedAt = l.updatedAt

/-- Both stores hold a copy of image `k`, and the copies agree. -/
def State.mirrored (s : State) (k : String) : Prop :=
  ∃ c l, storeGet ImageRecord.id k s.cloudImages = some c
    ∧ storeGet ImageRecord.id k s.images = some l ∧ copiesAgree c l

/-- The state `t` has the copies of image `k` that `s` has, local and remote. -/
def State.sameImage (k : String) (s t : State) : Prop :=
  storeGet ImageRecord.id k t.images = storeGet ImageRecord.id k s.images
    ∧ storeGet ImageRecord.id k t.cloudImages = storeGet ImageRecord.id k s.cloudImages

/-- The image records of a user among `records`, restricted to those of a folder when
`folderId` is given. -/
def imagesOf (userId : String) (folderId : Option String) (records : List ImageRecord) :
    List ImageRecord :=
  records.filter (fun r => decide (r.userId = userId ∧ (folderId = none ∨ r.folderId = folderId)))

/-- The store that answers the image query of `deleteFolder`: the Firestore
collection when the manager is online with a Firestore handle and the query is
answered, the local store otherwise. -/
def checkedStore (env : Env) (userId : String) (s : State) : List ImageRecord :=
  if (s.isOnlineMode && s.firestore) && !s.fails env (Op.imagesQuery userId) then s.cloudImages
  else s.images

/-- Every id of a local image or folder record of `s` is the id of a local record
of `t`. -/
def State.keepsRecords (s t : State) : Prop :=
  (∀ k, k ∈ s.images.map ImageRecord.id → k ∈ t.images.map ImageRecord.id)
    ∧ ∀ k, k ∈ s.folders.map FolderRecord.id → k ∈ t.folders.map FolderRecord.id

/-- The key words of a prompt: the words of the lower-cased prompt that are longer
than two characters and are not common words, in the order and with the repetitions
of the prompt. -/
def keywords (prompt : String) : List String :=
  ((((prompt.data.flatMap toLowerCase).splitOnP (fun c => !isWordChar c)).map String.mk).filter
    (fun word => decide (word.length > 2))).filter (fun word => !commonWords.contains word)

/-- The records that `cleanupStorage(userId, maxAge)` is to delete at time `now`:
those of `userId` created before `now - maxAge` that have no cloud URL. -/
def staleLocal (userId : String) (now maxAge : Nat) (image : ImageRecord) : Bool :=
  decide (image.userId = userId) && decide ((image.createdAt : Int) < (now : Int) - (maxAge : Int))
    && !hasCloudUrl image

/-- The states reachable from a manager with an empty sync queue store through
`addToSyncQueue`, `processSyncQueue` and changes of mode. -/
inductive Reachable (env : Env) : State → Prop
  | fresh (s : State) (h : s.queue = [] ∧ 1 ≤ s.queueKey) : Reachable env s
  | mode (isOnline : Bool) (s : State) (h : Reachable env s) :
      Reachable env { s with isOnlineMode := isOnline }
  | add (data : SyncData) (s : State) (h : Reachable env s) :
      Reachable env (addToSyncQueue env data s).2
  | drain (s : State) (h : Reachable env s) : Reachable env (processSyncQueue env s)

/-- Whether a sync item is an `upload` whose record carries `imageData`. -/
def SyncData.carriesPayload : SyncData → Bool
  | .upload record => record.imageData.isSome
  | _ => false

/-- No entry of the queue `q` is an `upload` whose record carries `imageData`. -/
def noPayload (q : List SyncItem) : Prop :=
  ∀ item ∈ q, item.data.carriesPayload = false

/-- The states a manager reaches from an empty sync queue store through its public
methods, each under any behaviour of the requests; a call that never returns leaves
the manager in the state it has reached. -/
inductive Run (env : Env) : State → Prop
  | fresh (s : State) (h : s.queue = []) : Run env s
  | setMode (isOnline : Bool) (s : State) (h : Run env s) : Run env (setMode env isOnline s)
  | saveImage (imageData : ImageInput) (userId : String) (folderId : Option String)
      (s : State) (h : Run env s) : Run env (saveImage env imageData userId folderId s).2
  | deleteImage (imageId userId : String) (s : State) (h : Run env s) :
      Run env (deleteImage env imageId userId s).2
  | getImages (userId : String) (folderId : Option String) (limit offset : Nat)
      (s : State) (h : Run env s) : Run env (getImages env userId folderId limit offset s).2
  | createFolder (name userId : String) (icon color : Option String) (s : State)
      (h : Run env s) : Run env (createFolder env name userId icon color s).2
  | deleteFolder (folderId userId : String) (s : State) (h : Run env s) :
      Run env (deleteFolder env folderId userId s).2
  | cleanupStorage (userId : String) (maxAge : Nat) (s : State) (h : Run env s) :
      Run env (cleanupStorage env userId maxAge s).2
  | processSyncQueue (s : State) (h : Run env s) : Run env (processSyncQueue env s)

end StorageManager

/-!
# Login attempts (`src/js/auth.js`)

The map `loginAttempts` of `AuthManager` and the two methods that use it. The time
`Date.now()` is an argument.
-/

namespace AuthManager

/-- The value of `SECURITY_CONFIG.auth.maxLoginAttempts`. -/
def maxLoginAttempts : Nat := 5

/-- The value of `SECURITY_CONFIG.auth.lockoutDuration`, in milliseconds. -/
def lockoutDuration : Int := 15 * 60 * 1000

/-- An entry of the map `loginAttempts`. -/
structure Attempts where
  count : Nat
  lastAttempt : Int
  deriving DecidableEq, Repr

/-- The map `this.loginAttempts`. -/
abbrev LoginAttempts := String → Option Attempts

/-- The expression `this.loginAttempts.get(identifier) || { count: 0, lastAttempt: 0 }`. -/
def attemptsOf (loginAttempts : LoginAttempts) (identifier : String) : Attempts :=
  (loginAttempts identifier).getD { count := 0, lastAttempt := 0 }

/-- The method `checkLoginAttempts` at time `now`: `.ok attempts` for the object
returned, `.error remainingTime` for the `Error` thrown, and the map afterwards.
Resetting the count assigns to the object held by the map when there is one. -/
def checkLoginAttempts (now : Int) (identifier : String) (loginAttempts : LoginAttempts) :
    Except Int Attempts × LoginAttempts :=
  let attempts := attemptsOf loginAttempts identifier
  let reset : Bool := decide (now - attempts.lastAttempt > lockoutDuration)
  let attempts1 : Attempts := if reset then { attempts with count := 0 } else attempts
  let loginAttempts1 : LoginAttempts :=
    if reset && (loginAttempts identifier).isSome then
      fun k => if k = identifier then some attempts1 else loginAttempts k
    else loginAttempts
  if attempts1.count ≥ maxLoginAttempts then
    let remainingTime := lockoutDuration - (now - attempts1.lastAttempt)
    if remainingTime > 0 then (.error remainingTime, loginAttempts1)
    else (.ok attempts1, loginAttempts1)
  else (.ok attempts1, loginAttempts1)

/-- The method `recordLoginAttempt` at time `now`. -/
def recordLoginAttempt (now : Int) (identifier : String) (success : Bool)
    (loginAttempts : LoginAttempts) : LoginAttempts :=
  let attempts := attemptsOf loginAttempts identifier
  if success then fun k => if k = identifier then none else loginAttempts k
  else
    fun k =>
      if k = identifier then some { count := attempts.count + 1, lastAttempt := now }
      else loginAttempts k

/-- Failed attempts recorded one after the other at the given times, oldest first. -/
def recordFailures (times : List Int) (identifier : String) (loginAttempts : LoginAttempts) :
    LoginAttempts :=
  times.foldl (fun m now => recordLoginAttempt now identifier false m) loginAttempts

end AuthManager

namespace StorageManager

/-! ## Keyed stores: lemmas -/

theorem storeGet_cons {α κ : Type} [DecidableEq κ] (key : α → κ) (k : κ) (x : α)
    (xs : List α) :
    storeGet key k (x :: xs) = if key x = k then some x else storeGet key k xs := by
  by_cases h : key x = k <;> simp [storeGet, List.find?, h]

theorem storeDelete_cons {α κ : Type} [DecidableEq κ] (key : α → κ) (k : κ) (x : α)
    (xs : List α) :
    storeDelete key k (x :: xs)
      = if key x = k then storeDelete key k xs else x :: storeDelete key k xs := by
  by_cases h : key x = k <;> simp [storeDelete, List.filter, h]

theorem storeGet_storePut_self {α κ : Type} [DecidableEq κ] [KeyOrd κ] (key : α → κ)
    (r : α) (xs : List α) :
    storeGet key (key r) (storePut key r xs) = some r := by
  induction xs with
  | nil => simp [storePut, storeGet_cons]
  | cons x xs ih =>
    unfold storePut
    by_cases h1 : KeyOrd.lt (key r) (key x) = true
    · rw [if_pos h1, storeGet_cons, if_pos rfl]
    · rw [if_neg h1]
      by_cases h2 : key r = key x
      · rw [if_pos h2, storeGet_cons, if_pos rfl]
      · rw [if_neg h2, storeGet_cons, if_neg (fun h => h2 h.symm)]
        exact ih

theorem storeGet_storePut_ne {α κ : Type} [DecidableEq κ] [KeyOrd κ] (key : α → κ)
    (r : α) (k : κ) (xs : List α) (h : k ≠ key r) :
    storeGet key k (storePut key r xs) = storeGet key k xs := by
  have h0 : ¬ key r = k := fun h1 => h h1.symm
  induction xs with
  | nil => simp [storePut, storeGet_cons, h0, storeGet]
  | cons x xs ih =>
    unfold storePut
    by_cases h1 : KeyOrd.lt (key r) (key x) = true
    · rw [if_pos h1, storeGet_cons, if_neg h0]
    · rw [if_neg h1]
      by_cases h2 : key r = key x
      · rw [if_pos h2, storeGet_cons, if_neg h0, storeGet_cons, if_neg (fun h4 => h0 (h2.trans h4))]
      · rw [if_neg h2, storeGet_cons, storeGet_cons, ih]

theorem storeGet_storeDelete_self {α κ : Type} [DecidableEq κ] (key : α → κ) (k : κ)
    (xs : List α) :
    storeGet key k (storeDelete key k xs) = none := by
  simp [storeGet, storeDelete, List.find?_eq_none]

theorem storeGet_storeDelete_ne {α κ : Type} [DecidableEq κ] (key : α → κ) (k k' : κ)
    (xs : List α) (h : k' ≠ k) :
    storeGet key k' (storeDelete key k xs) = storeGet key k' xs := by
  induction xs with
  | nil => simp [storeGet, storeDelete]
  | cons x xs ih =>
    rw [storeDelete_cons, storeGet_cons]
    by_cases h1 : key x = k
    · rw [if_pos h1, if_neg (fun h3 => h (h3.symm.trans h1)), ih]
    · rw [if_neg h1, storeGet_cons, ih]

theorem storeGet_eq_none_iff {α κ : Type} [DecidableEq κ] (key : α → κ) (k : κ)
    (xs : List α) :
    storeGet key k xs = none ↔ ∀ x ∈ xs, key x ≠ k := by
  simp [storeGet, List.find?_eq_none]

theorem storeGet_some_key {α κ : Type} [DecidableEq κ] (key : α → κ) (k : κ) (xs : List α)
    (r : α) (h : storeGet key k xs = some r) : key r = k := by
  have := List.find?_some h
  simpa using this

/-! ## Frame lemmas -/

@[simp] theorem did_images (env : Env) (s : State) (op : Op) : (s.did env op).images = s.images := rfl

@[simp] theorem tick_images (s : State) : s.tick.images = s.images := rfl

@[simp] theorem did_folders (env : Env) (s : State) (op : Op) : (s.did env op).folders = s.folders := rfl

@[simp] theorem tick_folders (s : State) : s.tick.folders = s.folders := rfl

@[simp] theorem did_queue (env : Env) (s : State) (op : Op) : (s.did env op).queue = s.queue := rfl

@[simp] theorem tick_queue (s : State) : s.tick.queue = s.queue := rfl

@[simp] theorem did_queueKey (env : Env) (s : State) (op : Op) : (s.did env op).queueKey = s.queueKey := rfl

@[simp] theorem tick_queueKey (s : State) : s.tick.queueKey = s.queueKey := rfl

@[simp] theorem did_isOnlineMode (env : Env) (s : State) (op : Op) : (s.did env op).isOnlineMode = s.isOnlineMode := rfl

@[simp] theorem tick_isOnlineMode (s : State) : s.tick.isOnlineMode = s.isOnlineMode := rfl

@[simp] theorem did_firestore (env : Env) (s : State) (op : Op) : (s.did env op).firestore = s.firestore := rfl

@[simp] theorem tick_firestore (s : State) : s.tick.firestore = s.firestore := rfl

@[simp] theorem did_firebaseStorage (env : Env) (s : State) (op : Op) : (s.did env op).firebaseStorage = s.firebaseStorage := rfl

@[simp] theorem tick_firebaseStorage (s : State) : s.tick.firebaseStorage = s.firebaseStorage := rfl

@[simp] theorem did_syncQueue (env : Env) (s : State) (op : Op) : (s.did env op).syncQueue = s.syncQueue := rfl

@[simp] theorem tick_syncQueue (s : State) : s.tick.syncQueue = s.syncQueue := rfl

@[simp] theorem did_cloudImages (env : Env) (s : State) (op : Op) : (s.did env op).cloudImages = s.cloudImages := rfl

@[simp] theorem tick_cloudImages (s : State) : s.tick.cloudImages = s.cloudImages := rfl

@[simp] theorem did_cloudFolders (env : Env) (s : State) (op : Op) : (s.did env op).cloudFolders = s.cloudFolders := rfl

@[simp] theorem tick_cloudFolders (s : State) : s.tick.cloudFolders = s.cloudFolders := rfl

@[simp] theorem did_cloudFiles (env : Env) (s : State) (op : Op) : (s.did env op).cloudFiles = s.cloudFiles := rfl

@[simp] theorem tick_cloudFiles (s : State) : s.tick.cloudFiles = s.cloudFiles := rfl

@[simp] theorem did_log (env : Env) (s : State) (op : Op) :
    (s.did env op).log = s.log ++ [Event.io op (s.fails env op)] := rfl

@[simp] theorem tick_log (s : State) : s.tick.log = s.log ++ [Event.read] := rfl

theorem sameConfig_refl (s : State) : s.sameConfig s := ⟨rfl, rfl, rfl, rfl⟩

theorem sameConfig_trans {s t u : State} (h1 : s.sameConfig t) (h2 : t.sameConfig u) :
    s.sameConfig u :=
  ⟨h2.1.trans h1.1, h2.2.1.trans h1.2.1, h2.2.2.1.trans h1.2.2.1, h2.2.2.2.trans h1.2.2.2⟩

theorem sameQueue_refl (s : State) : s.sameQueue s := ⟨rfl, rfl⟩

theorem sameQueue_trans {s t u : State} (h1 : s.sameQueue t) (h2 : t.sameQueue u) :
    s.sameQueue u :=
  ⟨h2.1.trans h1.1, h2.2.trans h1.2⟩

theorem sameCloud_refl (s : State) : s.sameCloud s := ⟨rfl, rfl, rfl⟩

theorem sameCloud_trans {s t u : State} (h1 : s.sameCloud t) (h2 : t.sameCloud u) :
    s.sameCloud u :=
  ⟨h2.1.trans h1.1, h2.2.1.trans h1.2.1, h2.2.2.trans h1.2.2⟩

theorem updateImageLocally_frame (env : Env) (r : ImageRecord) (s : State) :
    s.sameConfig (updateImageLocally env r s).2 ∧ s.sameQueue (updateImageLocally env r s).2
      ∧ s.sameCloud (updateImageLocally env r s).2
      ∧ (updateImageLocally env r s).2.folders = s.folders := by
  unfold updateImageLocally
  split <;> simp [State.sameConfig, State.sameQueue, State.sameCloud]

theorem saveImageLocally_frame (env : Env) (r : ImageRecord) (b : Option Blob) (s : State) :
    s.sameConfig (saveImageLocally env r b s).2 ∧ s.sameQueue (saveImageLocally env r b s).2
      ∧ s.sameCloud (saveImageLocally env r b s).2
      ∧ (saveImageLocally env r b s).2.folders = s.folders := by
  unfold saveImageLocally
  cases b with
  | none => exact updateImageLocally_frame env r s
  | some b =>
    dsimp only
    split <;> simp [State.sameConfig, State.sameQueue, State.sameCloud]

theorem saveImageToCloud_frame (env : Env) (r : ImageRecord) (b : Option Blob) (s : State) :
    s.sameConfig (saveImageToCloud env r b s).2 ∧ s.sameQueue (saveImageToCloud env r b s).2
      ∧ (saveImageToCloud env r b s).2.images = s.images
      ∧ (saveImageToCloud env r b s).2.folders = s.folders
      ∧ (saveImageToCloud env r b s).2.cloudFolders = s.cloudFolders := by
  unfold saveImageToCloud
  cases b with
  | none => dsimp only; split <;> simp [State.sameConfig, State.sameQueue]
  | some b =>
    dsimp only
    split_ifs <;> simp [State.sameConfig, State.sameQueue]

theorem addToSyncQueue_frame (env : Env) (d : SyncData) (s : State) :
    s.sameConfig (addToSyncQueue env d s).2 ∧ s.sameCloud (addToSyncQueue env d s).2
      ∧ (addToSyncQueue env d s).2.images = s.images
      ∧ (addToSyncQueue env d s).2.folders = s.folders := by
  unfold addToSyncQueue
  dsimp only
  split <;> simp [State.sameConfig, State.sameCloud]

/-! ## Effect of the operations on the local image store -/

theorem updateImageLocally_images (env : Env) (r : ImageRecord) (s : State) :
    (updateImageLocally env r s).2.images
      = if s.fails env (Op.imagesPut r.id) then s.images
        else storePut ImageRecord.id r s.images := by
  unfold updateImageLocally
  split <;> simp [State.did]

theorem updateImageLocally_ok (env : Env) (r r' : ImageRecord) (s s' : State)
    (h : updateImageLocally env r s = (.ok r', s')) :
    r' = r ∧ s'.images = storePut ImageRecord.id r s.images := by
  unfold updateImageLocally at h
  split at h
  · simp at h
  · simp only [Prod.mk.injEq, Except.ok.injEq] at h
    obtain ⟨h1, h2⟩ := h
    subst h2
    exact ⟨h1.symm, rfl⟩

theorem saveImageToCloud_images (env : Env) (r : ImageRecord) (b : Option Blob) (s : State) :
    (saveImageToCloud env r b s).2.images = s.images := by
  unfold saveImageToCloud
  cases b with
  | none => simp only []; split <;> rfl
  | some b =>
    simp only []
    split
    · rfl
    · split
      · rfl
      · split
        · rfl
        · split
          · rfl
          · split <;> rfl

theorem addToSyncQueue_images (env : Env) (d : SyncData) (s : State) :
    (addToSyncQueue env d s).2.images = s.images := by
  unfold addToSyncQueue
  simp only []
  split <;> rfl

/-- The promise of `saveImageLocally` resolves only without a blob, and then the
record passed in is stored as it is. -/
theorem saveImageLocally_ok (env : Env) (r r' : ImageRecord) (b : Option Blob) (s s' : State)
    (h : saveImageLocally env r b s = (some (.ok r'), s')) :
    b = none ∧ r' = r ∧ storeGet ImageRecord.id r.id s'.images = some r' := by
  unfold saveImageLocally at h
  cases b with
  | none =>
    simp only [Prod.mk.injEq, Option.some.injEq] at h
    have h3 : updateImageLocally env r s = (.ok r', s') := Prod.ext h.1 h.2
    obtain ⟨h1, h2⟩ := updateImageLocally_ok env _ _ _ _ h3
    subst h1
    rw [h2]
    exact ⟨rfl, rfl, storeGet_storePut_self _ _ _⟩
  | some b =>
    simp only [] at h
    split at h <;> simp at h

/-- What a successful `saveImage` has done when it reaches the write-through step:
the record `rec` is stored locally under the new id, nothing else has changed, and
the rest of the call is `saveImageRemote`. -/
theorem saveImage_ok_inv (env : Env) (imageData : ImageInput) (userId : String)
    (folderId : Option String) (s s' : State) (imageId : String)
    (h : saveImage env imageData userId folderId s = (some (.ok imageId), s')) :
    ∃ (rec : ImageRecord) (blob : Option Blob) (s4 : State),
      rec.id = imageId ∧ rec.userId = userId ∧ rec.folderId = folderId
        ∧ rec.syncStatus = (if s.isOnlineMode then SyncStatus.synced else SyncStatus.pending)
        ∧ rec.cloudUrl = none ∧ rec.imageData = blob
        ∧ blob.isSome = imageData.file.isSome
        ∧ storeGet ImageRecord.id imageId s4.images = some rec
        ∧ s.sameConfig s4 ∧ s.sameQueue s4 ∧ s.sameCloud s4
        ∧ saveImageRemote env rec blob s4 = (.ok (), s') := by
  unfold saveImage at h
  simp only [generateImageId] at h
  split at h
  · simp at h
  · rename_i rec1 blob s3 hprep
    have hrec : rec1.id = "img_" ++ toString (env.now s.log.length) ++ "_"
          ++ env.random s.log.length ∧ rec1.userId = userId ∧ rec1.folderId = folderId
        ∧ rec1.syncStatus = (if s.isOnlineMode then SyncStatus.synced else SyncStatus.pending)
        ∧ rec1.cloudUrl = none ∧ rec1.imageData = none
        ∧ blob.isSome = imageData.file.isSome
        ∧ s.sameConfig s3 ∧ s.sameQueue s3 ∧ s.sameCloud s3 := by
      split at hprep
      · rename_i hfile
        simp only [Prod.mk.injEq, Option.some.injEq] at hprep
        obtain ⟨⟨h1, h2⟩, h3⟩ := hprep
        subst h1 h2 h3
        simp [newImageRecord, hfile, State.sameConfig, State.sameQueue, State.sameCloud]
      · rename_i file hfile
        split at hprep
        · unfold compressImage at hprep
          split at hprep
          · simp at hprep
          · rename_i heq
            simp only [Prod.mk.injEq, Option.some.injEq] at hprep heq
            obtain ⟨⟨h1, h2⟩, h3⟩ := hprep
            subst h1 h2 h3
            obtain ⟨-, h4⟩ := heq
            subst h4
            simp [newImageRecord, hfile, State.sameConfig, State.sameQueue, State.sameCloud]
        · simp only [Prod.mk.injEq, Option.some.injEq] at hprep
          obtain ⟨⟨h1, h2⟩, h3⟩ := hprep
          subst h1 h2 h3
          simp [newImageRecord, hfile, State.sameConfig, State.sameQueue, State.sameCloud]
    obtain ⟨hid, hu, hf, hst, hcu, hdat, hblob, hc3, hq3, hcl3⟩ := hrec
    split at h
    · simp at h
    · simp at h
    · rename_i rec2 s4 hloc
      obtain ⟨hb, h1, h2⟩ := saveImageLocally_ok env _ _ _ _ _ hloc
      subst hb
      have hfr := saveImageLocally_frame env rec1 none s3
      rw [hloc] at hfr
      obtain ⟨hc4, hq4, hcl4, -⟩ := hfr
      split at h
      · rename_i x s5 hrem
        simp only [Prod.mk.injEq, Option.some.injEq, Except.ok.injEq] at h
        obtain ⟨h5, h6⟩ := h
        subst h6
        rw [hid, h5] at h2
        rw [h5] at hid
        refine ⟨rec2, none, s4, ?_, ?_, ?_, ?_, ?_, ?_, hblob, h2, sameConfig_trans hc3 hc4,
          sameQueue_trans hq3 hq4, sameCloud_trans hcl3 hcl4, ?_⟩
        · rw [h1]; exact hid
        · rw [h1]; exact hu
        · rw [h1]; exact hf
        · rw [h1]; exact hst
        · rw [h1]; exact hcu
        · rw [h1]; exact hdat
        · cases x; exact hrem
      · simp at h

theorem saveImageRemote_images (env : Env) (r r0 : ImageRecord) (b : Option Blob) (s : State)
    (h : storeGet ImageRecord.id r.id s.images = some r0) :
    ∃ r1, storeGet ImageRecord.id r.id (saveImageRemote env r b s).2.images = some r1
      ∧ (r1 = r0 ∨ (s.isOnlineMode = true
            ∧ ∃ url, r1 = { r with cloudUrl := some url, syncStatus := SyncStatus.synced })) := by
  unfold saveImageRemote
  by_cases hon : (s.isOnlineMode && s.firebaseStorage) = true
  · rw [if_pos hon]
    have hon1 : s.isOnlineMode = true := by
      simp only [Bool.and_eq_true] at hon; exact hon.1
    have hc := saveImageToCloud_images env r b s
    generalize saveImageToCloud env r b s = p at hc ⊢
    obtain ⟨res, s1⟩ := p
    cases res with
    | error e =>
      dsimp only at hc ⊢
      rw [addToSyncQueue_images, hc]
      exact ⟨r0, h, Or.inl rfl⟩
    | ok url =>
      dsimp only at hc ⊢
      have h2 := updateImageLocally_images env
        { r with cloudUrl := some url, syncStatus := .synced } s1
      generalize updateImageLocally env
        { r with cloudUrl := some url, syncStatus := .synced } s1 = p at h2 ⊢
      obtain ⟨res2, s2⟩ := p
      have h3 : ∃ r1, storeGet ImageRecord.id r.id s2.images = some r1
          ∧ (r1 = r0 ∨ (s.isOnlineMode = true
            ∧ ∃ url, r1 = { r with cloudUrl := some url, syncStatus := SyncStatus.synced })) := by
        dsimp only at h2
        rw [h2]
        split
        · rw [hc]; exact ⟨r0, h, Or.inl rfl⟩
        · exact ⟨_, storeGet_storePut_self ImageRecord.id
            { r with cloudUrl := some url, syncStatus := .synced } _, Or.inr ⟨hon1, url, rfl⟩⟩
      cases res2 with
      | error e => dsimp only; rw [addToSyncQueue_images]; exact h3
      | ok x => exact h3
  · rw [if_neg hon]
    split
    · rw [addToSyncQueue_images]; exact ⟨r0, h, Or.inl rfl⟩
    · exact ⟨r0, h, Or.inl rfl⟩

/-- C1. Whenever `saveImage` returns success with `imageId`, the local `images` store
holds a record under that id whose `userId` and `folderId` are the arguments of the
call, in every mode and for every behaviour of the remote requests. -/
theorem saveImage_durable (env : Env) (imageData : ImageInput) (userId : String)
    (folderId : Option String) (s s' : State) (imageId : String)
    (h : saveImage env imageData userId folderId s = (some (.ok imageId), s')) :
    ∃ r, storeGet ImageRecord.id imageId s'.images = some r
      ∧ r.id = imageId ∧ r.userId = userId ∧ r.folderId = folderId := by
  obtain ⟨rec, blob, s4, hid, hu, hf, -, -, -, -, hget, -, -, -, hrem⟩ :=
    saveImage_ok_inv env imageData userId folderId s s' imageId h
  have hk := saveImageRemote_images env rec rec blob s4 (by rw [hid]; exact hget)
  rw [hrem, hid] at hk
  obtain ⟨r1, hr1, hr2⟩ := hk
  refine ⟨r1, hr1, storeGet_some_key _ _ _ _ hr1, ?_, ?_⟩
  · rcases hr2 with rfl | ⟨-, url, rfl⟩
    · exact hu
    · exact hu
  · rcases hr2 with rfl | ⟨-, url, rfl⟩
    · exact hf
    · exact hf

/-- Witness of C1: an offline save of an image without a binary payload on a fresh
manager. -/
theorem saveImage_durable_witness :
    saveImage quietEnv bareInput "u1" (some "f1") (State.init false)
        = (some (.ok "img_1000_k3x"),
            (saveImage quietEnv bareInput "u1" (some "f1") (State.init false)).2)
      ∧ ∃ r, storeGet ImageRecord.id "img_1000_k3x"
            (saveImage quietEnv bareInput "u1" (some "f1") (State.init false)).2.images = some r
          ∧ r.id = "img_1000_k3x" ∧ r.userId = "u1" ∧ r.folderId = some "f1" :=
  ⟨rfl, saveImage_durable quietEnv bareInput "u1" (some "f1") (State.init false) _ _ rfl⟩

/-- The stored status follows the mode of the manager, not the outcome of the
write-through. -/
theorem saveImage_syncStatus_of_mode (env : Env) (imageData : ImageInput) (userId : String)
    (folderId : Option String) (s s' : State) (imageId : String)
    (h : saveImage env imageData userId folderId s = (some (.ok imageId), s')) :
    ∃ r, storeGet ImageRecord.id imageId s'.images = some r
      ∧ r.syncStatus = (if s.isOnlineMode then SyncStatus.synced else SyncStatus.pending) := by
  obtain ⟨rec, blob, s4, hid, -, -, hst, -, -, -, hget, hcfg, -, -, hrem⟩ :=
    saveImage_ok_inv env imageData userId folderId s s' imageId h
  have hk := saveImageRemote_images env rec rec blob s4 (by rw [hid]; exact hget)
  rw [hrem, hid] at hk
  obtain ⟨r1, hr1, hr2⟩ := hk
  refine ⟨r1, hr1, ?_⟩
  rcases hr2 with rfl | ⟨hon, url, rfl⟩
  · exact hst
  · rw [hcfg.1] at hon
    simp [hon]

/-- C2, at the failing input: online with Firebase configured, an image without a
binary payload, every request accepted. The write-through fails (the upload throws
for want of a blob), the call returns success, the record stored locally is marked
`synced` although the Remote Mirror holds nothing, and the `upload` entry is
queued. -/
theorem saveImage_online_failure_keeps_synced :
    (saveImage quietEnv bareInput "u1" none onlineState).1 = some (.ok "img_1000_k3x")
      ∧ (saveImageToCloud quietEnv
            (newImageRecord "img_1000_k3x" 1001 bareInput "u1" none true) none
            (saveImageLocally quietEnv
              (newImageRecord "img_1000_k3x" 1001 bareInput "u1" none true) none
              onlineState.tick.tick).2).1 = .error Err.typeError
      ∧ (storeGet ImageRecord.id "img_1000_k3x"
          (saveImage quietEnv bareInput "u1" none onlineState).2.images).map
            ImageRecord.syncStatus = some SyncStatus.synced
      ∧ (saveImage quietEnv bareInput "u1" none onlineState).2.cloudImages = []
      ∧ (saveImage quietEnv bareInput "u1" none onlineState).2.cloudFiles = []
      ∧ (saveImage quietEnv bareInput "u1" none onlineState).2.queue.map
            (fun item => (item.data.action, item.retries)) = [("upload", 0)] := by
  refine ⟨rfl, rfl, rfl, rfl, rfl, rfl⟩

/-! ## The replay history -/

@[simp] theorem replays_append (a b : List Event) : replays (a ++ b) = replays a ++ replays b := by
  induction a with
  | nil => rfl
  | cons e a ih => cases e <;> simp [replays, ih]

@[simp] theorem replays_nil : replays [] = [] := rfl

@[simp] theorem replays_cons_io (a : List Event) (op : Op) (failed : Bool) :
    replays (Event.io op failed :: a) = replays a := rfl

@[simp] theorem replays_cons_read (a : List Event) : replays (Event.read :: a) = replays a := rfl

@[simp] theorem replays_cons_replay (a : List Event) (entry : Nat) (ok : Bool) :
    replays (Event.replay entry ok :: a) = (entry, ok) :: replays a := rfl

theorem sameCtl_refl (s : State) : s.sameCtl s :=
  ⟨sameConfig_refl s, sameQueue_refl s, rfl⟩

theorem sameCtl_trans {s t u : State} (h1 : s.sameCtl t) (h2 : t.sameCtl u) : s.sameCtl u :=
  ⟨sameConfig_trans h1.1 h2.1, sameQueue_trans h1.2.1 h2.2.1, h2.2.2.trans h1.2.2⟩

theorem sameCtl_did (env : Env) (s : State) (op : Op) : s.sameCtl (s.did env op) := by
  simp [State.sameCtl, State.sameConfig, State.sameQueue]

theorem updateImageLocally_ctl (env : Env) (r : ImageRecord) (s : State) :
    s.sameCtl (updateImageLocally env r s).2 := by
  unfold updateImageLocally
  split <;> simp [State.sameCtl, State.sameConfig, State.sameQueue]

theorem saveFolderLocally_ctl (env : Env) (f : FolderRecord) (s : State) :
    s.sameCtl (saveFolderLocally env f s).2 := by
  unfold saveFolderLocally
  split <;> simp [State.sameCtl, State.sameConfig, State.sameQueue]

theorem saveImageToCloud_ctl (env : Env) (r : ImageRecord) (b : Option Blob) (s : State) :
    s.sameCtl (saveImageToCloud env r b s).2 := by
  unfold saveImageToCloud
  cases b with
  | none => dsimp only; split <;> simp [State.sameCtl, State.sameConfig, State.sameQueue]
  | some b =>
    dsimp only
    split_ifs <;> simp [State.sameCtl, State.sameConfig, State.sameQueue]

theorem deleteImageDoc_ctl (env : Env) (imageId : String) (s : State) :
    s.sameCtl (deleteImageDoc env imageId s).2 := by
  unfold deleteImageDoc
  split <;> simp [State.sameCtl, State.sameConfig, State.sameQueue]

theorem deleteImageFromCloud_ctl (env : Env) (imageId : String) (s : State) :
    s.sameCtl (deleteImageFromCloud env imageId s).2 := by
  unfold deleteImageFromCloud
  dsimp only
  split
  · exact sameCtl_refl s
  · split
    · exact sameCtl_did env s _
    · split
      · exact sameCtl_did env s _
      · split
        · exact sameCtl_trans (sameCtl_did env s _) (deleteImageDoc_ctl env imageId _)
        · split
          · exact sameCtl_trans (sameCtl_did env s _) (deleteImageDoc_ctl env imageId _)
          · split
            · exact sameCtl_did env s _
            · split
              · exact sameCtl_trans (sameCtl_did env s _) (sameCtl_did env _ _)
              · refine sameCtl_trans (sameCtl_did env s (Op.imageDocGet imageId))
                  (sameCtl_trans ?_ (deleteImageDoc_ctl env imageId _))
                simp [State.sameCtl, State.sameConfig, State.sameQueue]

theorem saveFolderToCloud_ctl (env : Env) (f : FolderRecord) (s : State) :
    s.sameCtl (saveFolderToCloud env f s).2 := by
  unfold saveFolderToCloud
  split_ifs <;> simp [State.sameCtl, State.sameConfig, State.sameQueue]

theorem deleteFolderFromCloud_ctl (env : Env) (folderId : String) (s : State) :
    s.sameCtl (deleteFolderFromCloud env folderId s).2 := by
  unfold deleteFolderFromCloud
  split_ifs <;> simp [State.sameCtl, State.sameConfig, State.sameQueue]

theorem ctl_of_eq {α : Type} {f : Except Err α × State} {s : State} {res : Except Err α}
    {s' : State} (h : s.sameCtl f.2) (heq : f = (res, s')) : s.sameCtl s' := by
  rw [heq] at h; exact h

/-- A replay leaves the mode, the handles, the queue store and the replay history
alone, and changes nothing of the item but its `data`. -/
theorem processSyncItem_ctl (env : Env) (item : SyncItem) (s : State) :
    s.sameCtl (processSyncItem env item s).2.2
      ∧ (processSyncItem env item s).2.1.id = item.id
      ∧ (processSyncItem env item s).2.1.retries = item.retries
      ∧ (processSyncItem env item s).2.1.maxRetries = item.maxRetries := by
  unfold processSyncItem
  split
  · split
    · exact ⟨sameCtl_refl s, rfl, rfl, rfl⟩
    · split
      · exact ⟨sameCtl_did env s _, rfl, rfl, rfl⟩
      · split
        · rename_i heq
          exact ⟨sameCtl_trans (sameCtl_did env s _)
            (ctl_of_eq (saveImageToCloud_ctl env _ _ _) heq), rfl, rfl, rfl⟩
        · rename_i heq
          have h1 := sameCtl_trans (sameCtl_did env s _)
            (ctl_of_eq (saveImageToCloud_ctl env _ _ _) heq)
          dsimp only
          split
          · rename_i heq2
            exact ⟨sameCtl_trans h1 (ctl_of_eq (updateImageLocally_ctl env _ _) heq2), rfl, rfl, rfl⟩
          · rename_i heq2
            exact ⟨sameCtl_trans h1 (ctl_of_eq (updateImageLocally_ctl env _ _) heq2), rfl, rfl, rfl⟩
  · exact ⟨deleteImageFromCloud_ctl env _ s, rfl, rfl, rfl⟩
  · split
    · rename_i heq
      exact ⟨ctl_of_eq (saveFolderToCloud_ctl env _ _) heq, rfl, rfl, rfl⟩
    · rename_i heq
      have h1 := ctl_of_eq (saveFolderToCloud_ctl env _ _) heq
      dsimp only
      split
      · rename_i heq2
        exact ⟨sameCtl_trans h1 (ctl_of_eq (saveFolderLocally_ctl env _ _) heq2), rfl, rfl, rfl⟩
      · rename_i heq2
        exact ⟨sameCtl_trans h1 (ctl_of_eq (saveFolderLocally_ctl env _ _) heq2), rfl, rfl, rfl⟩
  · exact ⟨deleteFolderFromCloud_ctl env _ s, rfl, rfl, rfl⟩

/-! ## The queue store in key order -/

theorem storeDelete_of_forall_ne {α κ : Type} [DecidableEq κ] (key : α → κ) (k : κ)
    (xs : List α) (h : ∀ x ∈ xs, key x ≠ k) : storeDelete key k xs = xs := by
  unfold storeDelete
  rw [List.filter_eq_self]
  intro x hx
  simpa using h x hx

theorem storeDelete_append {α κ : Type} [DecidableEq κ] (key : α → κ) (k : κ)
    (xs ys : List α) :
    storeDelete key k (xs ++ ys) = storeDelete key k xs ++ storeDelete key k ys := by
  simp [storeDelete]

theorem storeDelete_mid (pre post : List SyncItem) (x : SyncItem)
    (h : ((pre ++ x :: post).map SyncItem.id).Pairwise (fun a b => a < b)) :
    storeDelete SyncItem.id x.id (pre ++ x :: post) = pre ++ post := by
  rw [List.map_append, List.map_cons, List.pairwise_append] at h
  obtain ⟨-, h2, h3⟩ := h
  rw [List.pairwise_cons] at h2
  rw [storeDelete_append, storeDelete_cons, if_pos rfl,
    storeDelete_of_forall_ne _ _ pre, storeDelete_of_forall_ne _ _ post]
  · intro y hy
    have := h2.1 y.id (List.mem_map_of_mem _ hy)
    omega
  · intro y hy
    have := h3 y.id (List.mem_map_of_mem _ hy) x.id (List.mem_cons_self _ _)
    omega

theorem storePut_mid (pre post : List SyncItem) (x y : SyncItem) (hxy : y.id = x.id)
    (h : ((pre ++ x :: post).map SyncItem.id).Pairwise (fun a b => a < b)) :
    storePut SyncItem.id y (pre ++ x :: post) = pre ++ y :: post := by
  induction pre with
  | nil =>
    simp only [List.nil_append]
    unfold storePut
    rw [if_neg (by simp [KeyOrd.lt, hxy]), if_pos hxy]
  | cons p pre ih =>
    rw [List.cons_append, List.map_cons, List.pairwise_cons] at h
    have hp : p.id < x.id := h.1 x.id (by simp)
    rw [List.cons_append]
    unfold storePut
    rw [if_neg (by simp [KeyOrd.lt]; omega), if_neg (by omega), ih h.2, List.cons_append]

theorem localStoreOk_fails (env : Env) (hok : env.localStoreOk) (s : State) (op : Op)
    (hop : op.isLocalStore = true) : s.fails env op = false :=
  hok _ op hop

theorem updateImageLocally_ne_error (env : Env) (hok : env.localStoreOk) {r : ImageRecord}
    {s s' : State} {e : Err} (h : updateImageLocally env r s = (.error e, s')) : False := by
  unfold updateImageLocally at h
  rw [if_neg (by rw [localStoreOk_fails env hok s (Op.imagesPut r.id) rfl]; simp)] at h
  simp at h

theorem saveFolderLocally_ne_error (env : Env) (hok : env.localStoreOk) {f : FolderRecord}
    {s s' : State} {e : Err} (h : saveFolderLocally env f s = (.error e, s')) : False := by
  unfold saveFolderLocally at h
  rw [if_neg (by rw [localStoreOk_fails env hok s (Op.foldersPut f.id) rfl]; simp)] at h
  simp at h

/-- When the Local Record Store works, a replay that fails has not touched the
item. -/
theorem processSyncItem_failed_item (env : Env) (hok : env.localStoreOk) (item : SyncItem)
    (s : State) (h : (processSyncItem env item s).1.toBool = false) :
    (processSyncItem env item s).2.1 = item := by
  revert h
  generalize hres : processSyncItem env item s = res
  unfold processSyncItem at hres
  split at hres
  · split at hres
    · subst hres; intro _; rfl
    · split at hres
      · subst hres; intro _; rfl
      · split at hres
        · subst hres; intro _; rfl
        · dsimp only at hres
          split at hres
          · rename_i heq2
            exact (updateImageLocally_ne_error env hok heq2).elim
          · subst hres; intro h; simp [Except.toBool] at h
  · subst hres; intro _; rfl
  · split at hres
    · subst hres; intro _; rfl
    · dsimp only at hres
      split at hres
      · rename_i heq2
        exact (saveFolderLocally_ne_error env hok heq2).elim
      · subst hres; intro h; simp [Except.toBool] at h
  · subst hres; intro _; rfl

theorem removeSyncItem_localOk (env : Env) (hok : env.localStoreOk) (itemId : Nat) (s : State) :
    removeSyncItem env itemId s
      = (.ok (), { s.did env (Op.queueDelete itemId) with
                   queue := storeDelete SyncItem.id itemId s.queue }) := by
  unfold removeSyncItem
  rw [if_neg (by rw [localStoreOk_fails env hok s (Op.queueDelete itemId) rfl]; simp)]

theorem updateSyncItem_localOk (env : Env) (hok : env.localStoreOk) (item : SyncItem)
    (s : State) :
    updateSyncItem env item s
      = (.ok (), { s.did env (Op.queuePut item.id) with
                   queue := storePut SyncItem.id item s.queue }) := by
  unfold updateSyncItem
  rw [if_neg (by rw [localStoreOk_fails env hok s (Op.queuePut item.id) rfl]; simp)]

/-- One iteration of the drain loop when the Local Record Store works: the replay is
recorded with its outcome, and the item is deleted from the queue store or
overwritten there with its incremented copy, as `keptAfter` says. -/
theorem processSyncStep_spec (env : Env) (hok : env.localStoreOk) (item : SyncItem)
    (s : State) :
    ∃ s', processSyncStep env item s = (.ok (), s') ∧ s.sameConfig s'
      ∧ s'.queueKey = s.queueKey
      ∧ replays s'.log = replays s.log ++ [(item.id, (processSyncItem env item s).1.toBool)]
      ∧ s'.queue = (keptAfter item (processSyncItem env item s).1.toBool).elim
          (storeDelete SyncItem.id item.id s.queue)
          (fun y => storePut SyncItem.id y s.queue) := by
  unfold processSyncStep
  have hctl := processSyncItem_ctl env item s
  have hfail := processSyncItem_failed_item env hok item s
  generalize processSyncItem env item s = res at hctl hfail ⊢
  obtain ⟨r, item1, s1⟩ := res
  obtain ⟨⟨hcfg, hq, hrep⟩, hid, -, -⟩ := hctl
  dsimp only at hcfg hq hrep hid hfail ⊢
  cases r with
  | ok u =>
    dsimp only
    rw [removeSyncItem_localOk env hok]
    refine ⟨_, rfl, ?_, ?_, ?_, ?_⟩
    · exact hcfg
    · exact hq.2
    · simp [hrep, Except.toBool]
    · simp [keptAfter, Except.toBool, hid, hq.1]
  | error e =>
    have hitem : item1 = item := hfail rfl
    subst hitem
    dsimp only
    unfold retryOrDrop
    dsimp only
    by_cases hmax : item1.retries + 1 ≥ item1.maxRetries
    · rw [if_pos hmax, removeSyncItem_localOk env hok]
      refine ⟨_, rfl, ?_, ?_, ?_, ?_⟩
      · exact hcfg
      · exact hq.2
      · simp [hrep, Except.toBool]
      · simp [keptAfter, Except.toBool, hmax, hq.1]
    · rw [if_neg hmax, updateSyncItem_localOk env hok]
      refine ⟨_, rfl, ?_, ?_, ?_, ?_⟩
      · exact hcfg
      · exact hq.2
      · simp [hrep, Except.toBool]
      · simp [keptAfter, Except.toBool, hmax, hq.1, retried]

theorem keptAfter_id (x y : SyncItem) (ok : Bool) (h : keptAfter x ok = some y) :
    y = retried x ∧ y.id = x.id := by
  unfold keptAfter at h
  split at h
  · simp at h
  · split at h
    · simp at h
    · simp only [Option.some.injEq] at h
      subst h
      exact ⟨rfl, rfl⟩

/-- The drain loop when the Local Record Store works. The loop runs to its end;
`okf` gives, for the key of each item, the outcome of its replay. -/
theorem processSyncItems_spec (env : Env) (hok : env.localStoreOk) :
    ∀ (items pre : List SyncItem) (s : State), s.queue = pre ++ items →
      ((pre ++ items).map SyncItem.id).Pairwise (fun a b => a < b) →
      ∃ (okf : Nat → Bool) (s' : State), processSyncItems env items s = (.ok (), s')
        ∧ s.sameConfig s' ∧ s'.queueKey = s.queueKey
        ∧ replays s'.log = replays s.log ++ items.map (fun x => (x.id, okf x.id))
        ∧ s'.queue = pre ++ items.filterMap (fun x => keptAfter x (okf x.id))
        ∧ ∀ x ∈ items, ∃ t, okf x.id = (processSyncItem env x t).1.toBool := by
  intro items
  induction items with
  | nil =>
    intro pre s hq _
    refine ⟨fun _ => true, s, rfl, sameConfig_refl s, rfl, by simp, by simpa using hq, ?_⟩
    intro x hx
    cases hx
  | cons x rest ih =>
    intro pre s hq hpw
    obtain ⟨s1, hstep, hcfg1, hkey1, hrep1, hq1⟩ := processSyncStep_spec env hok x s
    generalize hokx : (processSyncItem env x s).1.toBool = ok at hrep1 hq1
    have hlt : ∀ y ∈ rest, x.id < y.id := by
      intro y hy
      rw [List.map_append, List.map_cons, List.pairwise_append, List.pairwise_cons] at hpw
      exact hpw.2.1.1 y.id (List.mem_map_of_mem _ hy)
    -- the queue after the step, and the prefix for the rest of the loop
    have hnext : ∃ pre', s1.queue = pre' ++ rest
        ∧ ((pre' ++ rest).map SyncItem.id).Pairwise (fun a b => a < b)
        ∧ pre' = pre ++ (keptAfter x ok).toList := by
      cases hk : keptAfter x ok with
      | none =>
        refine ⟨pre, ?_, ?_, by simp⟩
        · rw [hq1, hk, hq]
          exact storeDelete_mid pre rest x hpw
        · refine hpw.sublist ?_
          exact (List.Sublist.map _
            (List.Sublist.append (List.Sublist.refl pre) (List.sublist_cons_self x rest)))
      | some y =>
        obtain ⟨-, hy⟩ := keptAfter_id x y ok hk
        refine ⟨pre ++ [y], ?_, ?_, by simp⟩
        · rw [hq1, hk, hq]
          simp only [Option.elim]
          rw [storePut_mid pre rest x y hy hpw]
          simp
        · simpa [hy] using hpw
    obtain ⟨pre', hq1', hpw', hpre'⟩ := hnext
    obtain ⟨okr, s', hloop, hcfg, hkey, hrep, hqueue, hsem⟩ := ih pre' s1 hq1' hpw'
    refine ⟨fun k => if k = x.id then ok else okr k, s', ?_, sameConfig_trans hcfg1 hcfg,
      hkey.trans hkey1, ?_, ?_, ?_⟩
    · unfold processSyncItems
      rw [hstep]
      exact hloop
    · rw [hrep, hrep1, List.map_cons, List.append_assoc]
      simp only [if_true, List.singleton_append, List.cons.injEq, true_and,
        List.append_cancel_left_eq]
      apply List.map_congr_left
      intro y hy
      have := hlt y hy
      rw [if_neg (by omega)]
    · rw [hqueue, hpre', List.append_assoc]
      congr 1
      rw [List.filterMap_cons]
      simp only [if_true]
      have hrest : rest.filterMap (fun y => keptAfter y (okr y.id))
          = rest.filterMap (fun y => keptAfter y (if y.id = x.id then ok else okr y.id)) := by
        apply List.filterMap_congr
        intro y hy
        have := hlt y hy
        rw [if_neg (by omega)]
      rw [hrest]
      cases keptAfter x ok <;> simp
    · intro y hy
      rcases List.mem_cons.mp hy with rfl | hy
      · exact ⟨s, by simp [hokx]⟩
      · obtain ⟨t, ht⟩ := hsem y hy
        have := hlt y hy
        exact ⟨t, by dsimp only; rw [if_neg (by omega)]; exact ht⟩

theorem getSyncQueue_localOk (env : Env) (hok : env.localStoreOk) (s : State) :
    getSyncQueue env s = (.ok s.queue, s.did env Op.queueGetAll) := by
  unfold getSyncQueue
  rw [if_neg (by rw [localStoreOk_fails env hok s Op.queueGetAll rfl]; simp)]

/-- A drain pass of an online manager whose Local Record Store works: every item of
the queue is replayed, in the order of the store, and the queue afterwards is what
`keptAfter` leaves of each item. -/
theorem processSyncQueue_spec (env : Env) (hok : env.localStoreOk) (s : State)
    (hon : s.isOnlineMode = true) (hfs : s.firestore = true) (hwf : s.WF) :
    ∃ okf : Nat → Bool, s.sameConfig (processSyncQueue env s)
      ∧ (processSyncQueue env s).queueKey = s.queueKey
      ∧ replays (processSyncQueue env s).log
          = replays s.log ++ s.queue.map (fun x => (x.id, okf x.id))
      ∧ (processSyncQueue env s).queue = s.queue.filterMap (fun x => keptAfter x (okf x.id))
      ∧ ∀ x ∈ s.queue, ∃ t, okf x.id = (processSyncItem env x t).1.toBool := by
  unfold processSyncQueue
  rw [if_neg (by simp [hon, hfs]), getSyncQueue_localOk env hok]
  dsimp only
  obtain ⟨okf, s', hloop, hcfg, hkey, hrep, hqueue, hsem⟩ :=
    processSyncItems_spec env hok s.queue [] (s.did env Op.queueGetAll) (by simp)
      (by simpa using hwf.1)
  rw [hloop]
  refine ⟨okf, ?_, ?_, ?_, ?_, hsem⟩
  · exact sameConfig_trans (by simp [State.sameConfig]) hcfg
  · simpa using hkey
  · simpa using hrep
  · simpa using hqueue

theorem zip_map_filterMap {α β γ : Type} (l : List α) (f : α → β) (g : α × β → Option γ) :
    (l.zip (l.map f)).filterMap g = l.filterMap (fun x => g (x, f x)) := by
  induction l with
  | nil => rfl
  | cons x l ih => simp [List.filterMap_cons, ih]

/-- C8. After a drain pass of an online manager whose Local Record Store requests
succeed, the replays recorded during the pass are those of the items of the queue,
and the queue consists of what `keptAfter` leaves of each item given the outcome of
its replay: nothing if the replay succeeded or the incremented `retries` reached
`maxRetries`, and otherwise the item with `retries` increased by one and nothing
else changed, in the original order. -/
theorem processSyncQueue_result (env : Env) (s : State) (hok : env.localStoreOk)
    (hon : s.isOnlineMode = true) (hfs : s.firestore = true) (hwf : s.WF) :
    ((replays (processSyncQueue env s).log).drop (replays s.log).length).map Prod.fst
        = s.queue.map SyncItem.id
      ∧ (processSyncQueue env s).queue
        = (s.queue.zip (((replays (processSyncQueue env s).log).drop
              (replays s.log).length).map Prod.snd)).filterMap
            (fun p => keptAfter p.1 p.2) := by
  obtain ⟨okf, -, -, hrep, hqueue, -⟩ := processSyncQueue_spec env hok s hon hfs hwf
  rw [hrep, List.drop_left, hqueue]
  constructor
  · simp [List.map_map, Function.comp_def]
  · rw [List.map_map]
    exact (zip_map_filterMap s.queue _ (fun p => keptAfter p.1 p.2)).symm

theorem keptAfter_key (okf : Nat → Bool) (x y : SyncItem)
    (h : keptAfter x (okf x.id) = some y) : y.id = x.id :=
  (keptAfter_id x y _ h).2

theorem storeGet_filterMap (l : List SyncItem) (f : SyncItem → Option SyncItem)
    (hf : ∀ x y, f x = some y → y.id = x.id)
    (hpw : (l.map SyncItem.id).Pairwise (fun a b => a < b)) (x : SyncItem) (hx : x ∈ l) :
    storeGet SyncItem.id x.id (l.filterMap f) = f x := by
  induction l with
  | nil => cases hx
  | cons a l ih =>
    rw [List.map_cons, List.pairwise_cons] at hpw
    rw [List.filterMap_cons]
    rcases List.mem_cons.mp hx with rfl | hx'
    · cases hfx : f x with
      | none =>
        dsimp only
        rw [storeGet_eq_none_iff]
        intro y hy
        obtain ⟨z, hz, hzy⟩ := List.mem_filterMap.mp hy
        have h1 := hf z y hzy
        have h2 := hpw.1 z.id (List.mem_map_of_mem _ hz)
        omega
      | some y =>
        dsimp only
        rw [storeGet_cons, if_pos (hf x y hfx)]
    · have hlt := hpw.1 x.id (List.mem_map_of_mem _ hx')
      cases hfa : f a with
      | none => dsimp only; exact ih hpw.2 hx'
      | some y =>
        dsimp only
        have := hf a y hfa
        rw [storeGet_cons, if_neg (by omega)]
        exact ih hpw.2 hx'

theorem map_id_filterMap_sublist (l : List SyncItem) (f : SyncItem → Option SyncItem)
    (hf : ∀ x y, f x = some y → y.id = x.id) :
    ((l.filterMap f).map SyncItem.id).Sublist (l.map SyncItem.id) := by
  induction l with
  | nil => simp
  | cons a l ih =>
    rw [List.filterMap_cons]
    cases hfa : f a with
    | none => dsimp only; exact ih.trans (by simp)
    | some y =>
      dsimp only
      rw [List.map_cons, List.map_cons, hf a y hfa]
      exact ih.cons₂ a.id

/-- A drain pass keeps the queue store well formed. -/
theorem processSyncQueue_WF (env : Env) (hok : env.localStoreOk) (s : State)
    (hon : s.isOnlineMode = true) (hfs : s.firestore = true) (hwf : s.WF) :
    (processSyncQueue env s).WF := by
  obtain ⟨okf, -, hkey, -, hqueue, -⟩ := processSyncQueue_spec env hok s hon hfs hwf
  have hsub := map_id_filterMap_sublist s.queue (fun x => keptAfter x (okf x.id))
    (keptAfter_key okf)
  constructor
  · rw [hqueue]
    exact hwf.1.sublist hsub
  · intro y hy
    rw [hqueue] at hy
    obtain ⟨z, hz, hzy⟩ := List.mem_filterMap.mp hy
    rw [hkey, keptAfter_key okf z y hzy]
    exact hwf.2 z hz

theorem mem_of_storeGet {α κ : Type} [DecidableEq κ] (key : α → κ) (k : κ) (xs : List α)
    (r : α) (h : storeGet key k xs = some r) : r ∈ xs :=
  List.mem_of_find?_eq_some h

theorem processSyncQueue_config (env : Env) (hok : env.localStoreOk) (s : State)
    (hon : s.isOnlineMode = true) (hfs : s.firestore = true) (hwf : s.WF) :
    s.sameConfig (processSyncQueue env s) := by
  obtain ⟨okf, h, -⟩ := processSyncQueue_spec env hok s hon hfs hwf
  exact h

/-- What one pass does to an item whose replay fails in every state. -/
theorem processSyncQueue_poison (env : Env) (hok : env.localStoreOk) (s : State)
    (hon : s.isOnlineMode = true) (hfs : s.firestore = true) (hwf : s.WF)
    (e : SyncItem) (he : e ∈ s.queue)
    (hpoison : ∀ t : State, (processSyncItem env e t).1.toBool = false) :
    storeGet SyncItem.id e.id (processSyncQueue env s).queue = keptAfter e false
      ∧ ∃ r, replays (processSyncQueue env s).log = replays s.log ++ r
          ∧ (r.map Prod.fst).count e.id = 1
          ∧ r.map Prod.fst = s.queue.map SyncItem.id := by
  obtain ⟨okf, -, -, hrep, hqueue, hsem⟩ := processSyncQueue_spec env hok s hon hfs hwf
  have hfalse : okf e.id = false := by
    obtain ⟨t, ht⟩ := hsem e he
    rw [ht]
    exact hpoison t
  have hids : (s.queue.map (fun x => (x.id, okf x.id))).map Prod.fst
      = s.queue.map SyncItem.id := by
    simp [List.map_map, Function.comp_def]
  refine ⟨?_, _, hrep, ?_, hids⟩
  · rw [hqueue, storeGet_filterMap s.queue _ (keptAfter_key okf) hwf.1 e he, hfalse]
  · rw [hids]
    apply List.count_eq_one_of_mem
    · exact hwf.1.imp (fun h => Nat.ne_of_lt h)
    · exact List.mem_map_of_mem _ he

/-- C9, amended. Let the requests on the Local Record Store succeed, and let `e` be
an item of the queue as `addToSyncQueue` writes it (`retries = 0`, `maxRetries = 3`)
whose `data` fails to replay in every state. Then `e` is in the queue with `retries = 1` after
one online drain pass and with `retries = 2` after two, and is gone after the third;
over the three passes it is replayed exactly three times, and each pass replays
every item that is in the queue when the pass starts. -/
theorem poison_entry_dropped_after_three (env : Env) (hok : env.localStoreOk) (s : State)
    (hon : s.isOnlineMode = true) (hfs : s.firestore = true) (hwf : s.WF)
    (e : SyncItem) (he : e ∈ s.queue) (hr : e.retries = 0) (hm : e.maxRetries = 3)
    (hpoison : ∀ (item : SyncItem) (t : State), item.data = e.data →
      (processSyncItem env item t).1.toBool = false) :
    storeGet SyncItem.id e.id (processSyncQueue env s).queue = some { e with retries := 1 }
      ∧ storeGet SyncItem.id e.id (processSyncQueue env (processSyncQueue env s)).queue
          = some { e with retries := 2 }
      ∧ storeGet SyncItem.id e.id
          (processSyncQueue env (processSyncQueue env (processSyncQueue env s))).queue = none
      ∧ (((replays (processSyncQueue env (processSyncQueue env
            (processSyncQueue env s))).log).drop (replays s.log).length).map Prod.fst).count
          e.id = 3
      ∧ ((replays (processSyncQueue env (processSyncQueue env
            (processSyncQueue env s))).log).drop (replays s.log).length).map Prod.fst
          = s.queue.map SyncItem.id ++ (processSyncQueue env s).queue.map SyncItem.id
            ++ (processSyncQueue env (processSyncQueue env s)).queue.map SyncItem.id := by
  -- first pass
  obtain ⟨hg1, r1, hrep1, hc1, hids1⟩ := processSyncQueue_poison env hok s hon hfs hwf e he (fun t => hpoison e t rfl)
  have hcfg1 := processSyncQueue_config env hok s hon hfs hwf
  have hwf1 := processSyncQueue_WF env hok s hon hfs hwf
  have hk1 : keptAfter e false = some { e with retries := 1 } := by
    simp [keptAfter, retried, hr, hm]
  rw [hk1] at hg1
  generalize processSyncQueue env s = s1 at hg1 hrep1 hcfg1 hwf1 ⊢
  have hon1 : s1.isOnlineMode = true := hcfg1.1.trans hon
  have hfs1 : s1.firestore = true := hcfg1.2.1.trans hfs
  -- second pass
  have he1 := mem_of_storeGet _ _ _ _ hg1
  obtain ⟨hg2, r2, hrep2, hc2, hids2⟩ :=
    processSyncQueue_poison env hok s1 hon1 hfs1 hwf1 { e with retries := 1 } he1
      (fun t => hpoison _ t rfl)
  have hcfg2 := processSyncQueue_config env hok s1 hon1 hfs1 hwf1
  have hwf2 := processSyncQueue_WF env hok s1 hon1 hfs1 hwf1
  have hk2 : keptAfter { e with retries := 1 } false = some { e with retries := 2 } := by
    simp [keptAfter, retried, hm]
  rw [hk2] at hg2
  generalize processSyncQueue env s1 = s2 at hg2 hrep2 hcfg2 hwf2 ⊢
  have hon2 : s2.isOnlineMode = true := hcfg2.1.trans hon1
  have hfs2 : s2.firestore = true := hcfg2.2.1.trans hfs1
  -- third pass
  have he2 := mem_of_storeGet _ _ _ _ hg2
  obtain ⟨hg3, r3, hrep3, hc3, hids3⟩ :=
    processSyncQueue_poison env hok s2 hon2 hfs2 hwf2 { e with retries := 2 } he2
      (fun t => hpoison _ t rfl)
  have hk3 : keptAfter { e with retries := 2 } false = none := by
    simp [keptAfter, hm]
  rw [hk3] at hg3
  refine ⟨hg1, hg2, hg3, ?_, ?_⟩
  · rw [hrep3, hrep2, hrep1, List.append_assoc, List.append_assoc, List.drop_left,
      List.map_append, List.map_append, List.count_append, List.count_append, hc1]
    have h2 : List.count e.id (List.map Prod.fst r2) = 1 := hc2
    have h3 : List.count e.id (List.map Prod.fst r3) = 1 := hc3
    omega
  · rw [hrep3, hrep2, hrep1, List.append_assoc, List.append_assoc, List.drop_left,
      List.map_append, List.map_append, hids1, hids2, hids3, List.append_assoc]

/-! ## Sample environments: facts -/

theorem quietEnv_allOk : quietEnv.allOk := fun _ _ => rfl

theorem quietEnv_localStoreOk : quietEnv.localStoreOk := fun _ _ _ => rfl

theorem flakyEnv_localStoreOk : flakyEnv.localStoreOk := by
  intro n op h
  cases op <;> first | rfl | cases h

theorem queuedState_WF : queuedState.WF := by
  unfold State.WF
  decide

theorem folderThenUpload_WF : folderThenUpload.WF := by
  unfold State.WF
  decide

theorem saveImageToCloud_put_rejected (env : Env) (r : ImageRecord) (b : Option Blob)
    (s : State) (h : s.fails env (Op.storagePut (storagePathOf r)) = true) :
    ∃ e s', saveImageToCloud env r b s = (.error e, s') := by
  unfold saveImageToCloud
  dsimp only
  split
  · exact ⟨_, _, rfl⟩
  · cases b with
    | none => exact ⟨_, _, rfl⟩
    | some b =>
      exact ⟨_, _, rfl⟩

theorem flakyEnv_poison (item : SyncItem) (t : State)
    (h : item.data = SyncData.upload sampleRecord) :
    (processSyncItem flakyEnv item t).1.toBool = false := by
  unfold processSyncItem
  rw [h]
  have hb : sampleRecord.imageData = some { size := 10, type := "image/png", content := 7 } :=
    rfl
  dsimp only
  rw [hb]
  dsimp only
  split
  · rfl
  · obtain ⟨e, s', hs⟩ := saveImageToCloud_put_rejected flakyEnv sampleRecord
      (some { size := 10, type := "image/png", content := 7 }) (t.did flakyEnv Op.fetchDataURL)
      rfl
    rw [hs]
    rfl

/-! ## The drain pass: claims -/

/-- C7, at an input where the claim fails: the upload of item 1 is rejected and so
is the request that stores its retry count. The pass stops there; items 2 and 3 are
not replayed. -/
theorem processSyncQueue_stops_on_store_failure :
    queuedState.isOnlineMode = true ∧ queuedState.firestore = true
      ∧ queuedState.queue.map SyncItem.id = [1, 2, 3]
      ∧ replays (processSyncQueue brokenQueueEnv queuedState).log = [(1, false)]
      ∧ ¬ ((replays (processSyncQueue brokenQueueEnv queuedState).log).map Prod.fst
            = queuedState.queue.map SyncItem.id) := by
  refine ⟨rfl, rfl, rfl, rfl, ?_⟩
  decide

/-- C7, amended. When the requests on the Local Record Store succeed, an online
drain pass replays each item that is in the queue at the start of the pass exactly
once, in the order of the queue store, which is the strictly ascending order of the
keys; whether a replay fails or succeeds, the items after it are replayed in the
same pass. -/
theorem processSyncQueue_fifo (env : Env) (s : State) (hok : env.localStoreOk)
    (hon : s.isOnlineMode = true) (hfs : s.firestore = true) (hwf : s.WF) :
    ((replays (processSyncQueue env s).log).drop (replays s.log).length).map Prod.fst
        = s.queue.map SyncItem.id
      ∧ (((replays (processSyncQueue env s).log).drop (replays s.log).length).map
          Prod.fst).Pairwise (fun a b => a < b) := by
  obtain ⟨okf, -, -, hrep, -, -⟩ := processSyncQueue_spec env hok s hon hfs hwf
  have h : ((replays (processSyncQueue env s).log).drop (replays s.log).length).map Prod.fst
      = s.queue.map SyncItem.id := by
    rw [hrep, List.drop_left]
    simp [List.map_map, Function.comp_def]
  exact ⟨h, by rw [h]; exact hwf.1⟩

/-- Witness of C7: the queue holds the creation of folder `F` and then the upload of
an image in `F`; the folder document is written before the image is uploaded. -/
theorem processSyncQueue_fifo_witness :
    (quietEnv.localStoreOk ∧ folderThenUpload.isOnlineMode = true
        ∧ folderThenUpload.firestore = true ∧ folderThenUpload.WF)
      ∧ (((replays (processSyncQueue quietEnv folderThenUpload).log).drop
            (replays folderThenUpload.log).length).map Prod.fst
          = folderThenUpload.queue.map SyncItem.id
        ∧ (((replays (processSyncQueue quietEnv folderThenUpload).log).drop
            (replays folderThenUpload.log).length).map Prod.fst).Pairwise (fun a b => a < b))
      ∧ (processSyncQueue quietEnv folderThenUpload).log
          = [Event.io Op.queueGetAll false,
             Event.io (Op.folderDocSet "F") false,
             Event.io (Op.foldersPut "F") false,
             Event.replay 1 true,
             Event.io (Op.queueDelete 1) false,
             Event.io Op.fetchDataURL false,
             Event.io (Op.storagePut "images/u1/img1.jpg") false,
             Event.io (Op.storageGetDownloadURL "images/u1/img1.jpg") false,
             Event.io (Op.imageDocSet "img1") false,
             Event.io (Op.imagesPut "img1") false,
             Event.replay 2 true,
             Event.io (Op.queueDelete 2) false] :=
  ⟨⟨quietEnv_localStoreOk, rfl, rfl, folderThenUpload_WF⟩,
    processSyncQueue_fifo quietEnv folderThenUpload quietEnv_localStoreOk rfl rfl
      folderThenUpload_WF, rfl⟩

/-- Witness of C8: of an upload that fails for the first time, a delete that
succeeds and a folder creation that fails for the third time, only the upload stays,
with `retries = 1`. -/
theorem processSyncQueue_result_witness :
    (flakyEnv.localStoreOk ∧ queuedState.isOnlineMode = true ∧ queuedState.firestore = true
        ∧ queuedState.WF)
      ∧ (((replays (processSyncQueue flakyEnv queuedState).log).drop
            (replays queuedState.log).length).map Prod.fst = queuedState.queue.map SyncItem.id
        ∧ (processSyncQueue flakyEnv queuedState).queue
          = (queuedState.queue.zip (((replays (processSyncQueue flakyEnv queuedState).log).drop
                (replays queuedState.log).length).map Prod.snd)).filterMap
              (fun p => keptAfter p.1 p.2))
      ∧ replays (processSyncQueue flakyEnv queuedState).log = [(1, false), (2, true), (3, false)]
      ∧ (processSyncQueue flakyEnv queuedState).queue
          = [{ id := 1, data := .upload sampleRecord, timestamp := 11, retries := 1,
               maxRetries := 3 }] :=
  ⟨⟨flakyEnv_localStoreOk, rfl, rfl, queuedState_WF⟩,
    processSyncQueue_result flakyEnv queuedState flakyEnv_localStoreOk rfl rfl queuedState_WF,
    rfl, rfl⟩

/-- C9, at an input where the claim fails: the upload of item 1 always fails and so
does the request that stores its retry count. After three passes the item is still
in the queue with `retries = 0`, and items 2 and 3 have never been replayed. -/
theorem poison_entry_survives_store_failure :
    (processSyncQueue brokenQueueEnv (processSyncQueue brokenQueueEnv
        (processSyncQueue brokenQueueEnv queuedState))).queue = queuedState.queue
      ∧ queuedState.queue.map (fun x => (x.id, x.retries, x.maxRetries))
          = [(1, 0, 3), (2, 0, 3), (3, 2, 3)]
      ∧ replays (processSyncQueue brokenQueueEnv (processSyncQueue brokenQueueEnv
          (processSyncQueue brokenQueueEnv queuedState))).log
          = [(1, false), (1, false), (1, false)] :=
  ⟨rfl, rfl, rfl⟩

/-- Witness of C9: the upload of `img1` is rejected in every pass while the delete
behind it goes through in the first. -/
theorem poison_entry_dropped_after_three_witness :
    (flakyEnv.localStoreOk ∧ queuedState.isOnlineMode = true ∧ queuedState.firestore = true
        ∧ queuedState.WF)
      ∧ storeGet SyncItem.id 1 (processSyncQueue flakyEnv queuedState).queue
          = some { id := 1, data := .upload sampleRecord, timestamp := 11, retries := 1,
                   maxRetries := 3 }
      ∧ storeGet SyncItem.id 1
          (processSyncQueue flakyEnv (processSyncQueue flakyEnv queuedState)).queue
          = some { id := 1, data := .upload sampleRecord, timestamp := 11, retries := 2,
                   maxRetries := 3 }
      ∧ storeGet SyncItem.id 1
          (processSyncQueue flakyEnv (processSyncQueue flakyEnv
            (processSyncQueue flakyEnv queuedState))).queue = none
      ∧ (((replays (processSyncQueue flakyEnv (processSyncQueue flakyEnv
            (processSyncQueue flakyEnv queuedState))).log).drop
              (replays queuedState.log).length).map Prod.fst).count 1 = 3
      ∧ ((replays (processSyncQueue flakyEnv (processSyncQueue flakyEnv
            (processSyncQueue flakyEnv queuedState))).log).drop
              (replays queuedState.log).length).map Prod.fst
          = queuedState.queue.map SyncItem.id
            ++ (processSyncQueue flakyEnv queuedState).queue.map SyncItem.id
            ++ (processSyncQueue flakyEnv
                (processSyncQueue flakyEnv queuedState)).queue.map SyncItem.id :=
  ⟨⟨flakyEnv_localStoreOk, rfl, rfl, queuedState_WF⟩,
    poison_entry_dropped_after_three flakyEnv flakyEnv_localStoreOk queuedState rfl rfl
      queuedState_WF
      { id := 1, data := .upload sampleRecord, timestamp := 11, retries := 0, maxRetries := 3 }
      (by decide) rfl rfl flakyEnv_poison⟩

/-! ## Enqueueing and deleting -/

theorem addToSyncQueue_ok (env : Env) (d : SyncData) (s s' : State) (u : Unit)
    (h : addToSyncQueue env d s = (.ok u, s')) :
    s'.queue = s.queue ++ [{ id := s.queueKey, data := d, timestamp := env.now s.log.length,
                              retries := 0, maxRetries := 3 }]
      ∧ s'.queueKey = s.queueKey + 1 := by
  unfold addToSyncQueue at h
  dsimp only at h
  split at h
  · simp at h
  · simp only [Prod.mk.injEq, true_and] at h
    subst h
    exact ⟨rfl, rfl⟩

theorem deleteImageLocally_ok (env : Env) (imageId : String) (s s' : State) (u : Unit)
    (h : deleteImageLocally env imageId s = (.ok u, s')) :
    s'.images = storeDelete ImageRecord.id imageId s.images ∧ s.sameCtl s' ∧ s.sameCloud s' := by
  unfold deleteImageLocally at h
  split at h
  · simp at h
  · simp only [Prod.mk.injEq, true_and] at h
    subst h
    simp [State.sameCtl, State.sameConfig, State.sameQueue, State.sameCloud]

theorem deleteImageDoc_images (env : Env) (imageId : String) (s : State) :
    (deleteImageDoc env imageId s).2.images = s.images := by
  unfold deleteImageDoc
  split <;> rfl

theorem deleteImageDoc_ok (env : Env) (imageId : String) (s s' : State) (u : Unit)
    (h : deleteImageDoc env imageId s = (.ok u, s')) :
    storeGet ImageRecord.id imageId s'.cloudImages = none := by
  unfold deleteImageDoc at h
  split at h
  · simp at h
  · simp only [Prod.mk.injEq, true_and] at h
    subst h
    exact storeGet_storeDelete_self _ _ _

theorem deleteImageFromCloud_images (env : Env) (imageId : String) (s : State) :
    (deleteImageFromCloud env imageId s).2.images = s.images := by
  unfold deleteImageFromCloud
  dsimp only
  split
  · rfl
  · split
    · rfl
    · split
      · rfl
      · split
        · exact deleteImageDoc_images env imageId _
        · split
          · exact deleteImageDoc_images env imageId _
          · split
            · rfl
            · split
              · rfl
              · exact deleteImageDoc_images env imageId _

theorem deleteImageFromCloud_ok (env : Env) (imageId : String) (s s' : State) (u : Unit)
    (h : deleteImageFromCloud env imageId s = (.ok u, s')) :
    storeGet ImageRecord.id imageId s'.cloudImages = none := by
  unfold deleteImageFromCloud at h
  dsimp only at h
  split at h
  · simp at h
  · split at h
    · simp at h
    · split at h
      · rename_i hget
        simp only [Prod.mk.injEq, true_and] at h
        subst h
        exact hget
      · split at h
        · exact deleteImageDoc_ok env imageId _ _ u h
        · split at h
          · exact deleteImageDoc_ok env imageId _ _ u h
          · split at h
            · simp at h
            · split at h
              · simp at h
              · exact deleteImageDoc_ok env imageId _ _ u h

/-- C10. When `deleteImage` returns success, the local `images` store has no record
under `imageId`. If the manager is online with a Firestore handle and the remote
delete succeeded, the Firestore collection has no document under `imageId` and the
sync queue is unchanged; in every other case (offline, no handle, or the remote
delete failed) exactly one `delete` entry for `imageId` has been appended to the
queue. -/
theorem deleteImage_post (env : Env) (imageId userId : String) (s s' : State)
    (h : deleteImage env imageId userId s = (.ok (), s')) :
    storeGet ImageRecord.id imageId s'.images = none
      ∧ (((s.isOnlineMode && s.firestore) = true
            ∧ (deleteImageFromCloud env imageId (deleteImageLocally env imageId s).2).1.toBool
                = true) →
          storeGet ImageRecord.id imageId s'.cloudImages = none ∧ s'.queue = s.queue)
      ∧ (¬ ((s.isOnlineMode && s.firestore) = true
            ∧ (deleteImageFromCloud env imageId (deleteImageLocally env imageId s).2).1.toBool
                = true) →
          ∃ item : SyncItem, s'.queue = s.queue ++ [item]
            ∧ item.data = SyncData.delete imageId userId
            ∧ item.retries = 0 ∧ item.maxRetries = 3) := by
  unfold deleteImage at h
  split at h
  · simp at h
  · rename_i u1 s1 hloc
    rw [hloc]
    obtain ⟨himg, hctl, hcloud⟩ := deleteImageLocally_ok env imageId s s1 u1 hloc
    have hmode : (s1.isOnlineMode && s1.firestore) = (s.isOnlineMode && s.firestore) := by
      rw [hctl.1.1, hctl.1.2.1]
    rw [hmode] at h
    dsimp only at h ⊢
    by_cases hon : (s.isOnlineMode && s.firestore) = true
    · rw [if_pos hon] at h
      have hci := deleteImageFromCloud_images env imageId s1
      have hcc := deleteImageFromCloud_ctl env imageId s1
      generalize hdc : deleteImageFromCloud env imageId s1 = p at h hci hcc ⊢
      obtain ⟨res, s2⟩ := p
      cases res with
      | ok u2 =>
        dsimp only at h hci hcc ⊢
        simp only [Prod.mk.injEq, true_and] at h
        subst h
        refine ⟨?_, ?_, ?_⟩
        · rw [hci, himg]; exact storeGet_storeDelete_self _ _ _
        · intro _
          exact ⟨deleteImageFromCloud_ok env imageId s1 s2 u2 hdc, hcc.2.1.1.trans hctl.2.1.1⟩
        · intro hne
          exact (hne ⟨hon, rfl⟩).elim
      | error e =>
        dsimp only at h hci hcc ⊢
        split at h
        · rename_i u3 s3 hadd
          simp only [Prod.mk.injEq, true_and] at h
          subst h
          obtain ⟨hq, -⟩ := addToSyncQueue_ok env _ _ _ u3 hadd
          have hi3 := addToSyncQueue_images env (SyncData.delete imageId userId) s2
          rw [hadd] at hi3
          refine ⟨?_, ?_, ?_⟩
          · rw [hi3, hci, himg]; exact storeGet_storeDelete_self _ _ _
          · intro hc
            simp [Except.toBool] at hc
          · intro _
            refine ⟨{ id := s2.queueKey, data := SyncData.delete imageId userId,
                      timestamp := env.now s2.log.length, retries := 0, maxRetries := 3 },
              hq.trans ?_, rfl, rfl, rfl⟩
            rw [hcc.2.1.1, hctl.2.1.1]
        · simp at h
    · rw [if_neg hon] at h
      split at h
      · rename_i u3 s3 hadd
        simp only [Prod.mk.injEq, true_and] at h
        subst h
        obtain ⟨hq, -⟩ := addToSyncQueue_ok env _ _ _ u3 hadd
        have hi3 := addToSyncQueue_images env (SyncData.delete imageId userId) s1
        rw [hadd] at hi3
        refine ⟨?_, ?_, ?_⟩
        · rw [hi3, himg]; exact storeGet_storeDelete_self _ _ _
        · intro hc
          exact (hon hc.1).elim
        · intro _
          refine ⟨{ id := s1.queueKey, data := SyncData.delete imageId userId,
                    timestamp := env.now s1.log.length, retries := 0, maxRetries := 3 },
            hq.trans ?_, rfl, rfl, rfl⟩
          rw [hctl.2.1.1]
      · simp at h

/-- Witness of C10: an online delete whose remote delete succeeds. -/
theorem deleteImage_post_witness :
    deleteImage quietEnv "img1" "u1" folderThenUpload
        = (.ok (), (deleteImage quietEnv "img1" "u1" folderThenUpload).2)
      ∧ storeGet ImageRecord.id "img1"
          (deleteImage quietEnv "img1" "u1" folderThenUpload).2.images = none
      ∧ (deleteImage quietEnv "img1" "u1" folderThenUpload).2.queue = folderThenUpload.queue :=
  ⟨rfl,
    (deleteImage_post quietEnv "img1" "u1" folderThenUpload _ rfl).1,
    ((deleteImage_post quietEnv "img1" "u1" folderThenUpload _ rfl).2.1 ⟨rfl, rfl⟩).2⟩

/-! ## Write-through -/

theorem saveImageToCloud_ok (env : Env) (r : ImageRecord) (b : Option Blob) (s s' : State)
    (url : String) (h : saveImageToCloud env r b s = (.ok url, s')) :
    storeGet ImageRecord.id r.id s'.cloudImages
        = some { r with imageData := none, cloudUrl := some url,
                        storagePath := some (storagePathOf r) }
      ∧ s.firebaseStorage = true ∧ s.firestore = true := by
  unfold saveImageToCloud at h
  dsimp only at h
  split at h
  · simp at h
  · rename_i hst
    cases b with
    | none => simp at h
    | some b =>
      dsimp only at h
      split at h
      · simp at h
      · split at h
        · simp at h
        · split at h
          · simp at h
          · rename_i hfs
            split at h
            · simp at h
            · simp only [Prod.mk.injEq, Except.ok.injEq] at h
              obtain ⟨h1, h2⟩ := h
              subst h1 h2
              refine ⟨?_, by simpa using hst, by simpa using hfs⟩
              exact storeGet_storePut_self ImageRecord.id
                { r with imageData := none,
                         cloudUrl := some (env.downloadURL _ (storagePathOf r)),
                         storagePath := some (storagePathOf r) } _

theorem updateImageLocally_cloud (env : Env) (r : ImageRecord) (s : State) :
    (updateImageLocally env r s).2.cloudImages = s.cloudImages :=
  (updateImageLocally_frame env r s).2.2.1.1

theorem addToSyncQueue_cloud (env : Env) (d : SyncData) (s : State) :
    (addToSyncQueue env d s).2.cloudImages = s.cloudImages :=
  (addToSyncQueue_frame env d s).2.1.1

/-- The write-through step of `saveImage`, when it does not raise: unless the
manager is online without a storage handle, the Firestore collection holds the image
or an `upload` entry for it has been appended to the queue. -/
theorem saveImageRemote_ok (env : Env) (r : ImageRecord) (b : Option Blob) (s s' : State)
    (h : saveImageRemote env r b s = (.ok (), s'))
    (hmode : s.isOnlineMode = false ∨ s.firebaseStorage = true) :
    (∃ d, storeGet ImageRecord.id r.id s'.cloudImages = some d)
      ∨ (∃ item ∈ s'.queue, ∃ rec, item.data = SyncData.upload rec ∧ rec.id = r.id) := by
  unfold saveImageRemote at h
  by_cases hon : (s.isOnlineMode && s.firebaseStorage) = true
  · rw [if_pos hon] at h
    split at h
    · rename_i url s1 hcloud
      obtain ⟨hdoc, -, -⟩ := saveImageToCloud_ok env r b s s1 url hcloud
      dsimp only at h
      split at h
      · rename_i x s2 hupd
        simp only [Prod.mk.injEq, true_and] at h
        subst h
        have := updateImageLocally_cloud env
          { r with cloudUrl := some url, syncStatus := .synced } s1
        rw [hupd] at this
        exact Or.inl ⟨_, by rw [this]; exact hdoc⟩
      · rename_i e s2 hupd
        have h1 := updateImageLocally_cloud env
          { r with cloudUrl := some url, syncStatus := .synced } s1
        rw [hupd] at h1
        have h2 := addToSyncQueue_cloud env
          (SyncData.upload { r with cloudUrl := some url, syncStatus := .synced }) s2
        rw [h] at h2
        exact Or.inl ⟨_, by rw [h2, h1]; exact hdoc⟩
    · rename_i e s1 hcloud
      obtain ⟨hq, -⟩ := addToSyncQueue_ok env _ _ _ () h
      refine Or.inr ⟨{ id := s1.queueKey, data := SyncData.upload r,
                       timestamp := env.now s1.log.length, retries := 0, maxRetries := 3 },
        ?_, r, rfl, rfl⟩
      rw [hq]
      simp
  · rw [if_neg hon] at h
    have hoff : s.isOnlineMode = false := by
      rcases hmode with h1 | h1
      · exact h1
      · simp [h1] at hon
        exact hon
    rw [if_pos (by simp [hoff])] at h
    obtain ⟨hq, -⟩ := addToSyncQueue_ok env _ _ _ () h
    refine Or.inr ⟨{ id := s.queueKey, data := SyncData.upload r,
                     timestamp := env.now s.log.length, retries := 0, maxRetries := 3 },
      ?_, r, rfl, rfl⟩
    rw [hq]
    simp

/-- C5, at an input where the claim fails: online mode without Firebase, an image
without a binary payload. The call returns success, the record is stored locally,
nothing is written to the Remote Mirror and nothing is queued. -/
theorem saveImage_online_unconfigured_drops_write :
    (saveImage quietEnv bareInput "u1" none onlineUnconfigured).1 = some (.ok "img_1000_k3x")
      ∧ ((saveImage quietEnv bareInput "u1" none onlineUnconfigured).2.images.map
            ImageRecord.id) = ["img_1000_k3x"]
      ∧ (saveImage quietEnv bareInput "u1" none onlineUnconfigured).2.cloudImages = []
      ∧ (saveImage quietEnv bareInput "u1" none onlineUnconfigured).2.cloudFiles = []
      ∧ (saveImage quietEnv bareInput "u1" none onlineUnconfigured).2.queue = [] :=
  ⟨rfl, rfl, rfl, rfl, rfl⟩

/-- C5, amended. After a `saveImage` call that returns success while the manager is
offline, or online with a Firebase Storage handle, either the Firestore collection
holds the image or the sync queue contains an `upload` entry for it. -/
theorem saveImage_no_lost_write (env : Env) (imageData : ImageInput) (userId : String)
    (folderId : Option String) (s s' : State) (imageId : String)
    (hmode : s.isOnlineMode = false ∨ s.firebaseStorage = true)
    (h : saveImage env imageData userId folderId s = (some (.ok imageId), s')) :
    (∃ d, storeGet ImageRecord.id imageId s'.cloudImages = some d)
      ∨ (∃ item ∈ s'.queue, ∃ rec, item.data = SyncData.upload rec ∧ rec.id = imageId) := by
  obtain ⟨rec, blob, s4, hid, -, -, -, -, -, -, -, hcfg, -, -, hrem⟩ :=
    saveImage_ok_inv env imageData userId folderId s s' imageId h
  have := saveImageRemote_ok env rec blob s4 s' hrem (by rw [hcfg.1, hcfg.2.2.1]; exact hmode)
  rw [hid] at this
  exact this

/-- Witness of C5: an online save, with Firebase configured, of an image without a
binary payload. -/
theorem saveImage_no_lost_write_witness :
    (onlineState.isOnlineMode = false ∨ onlineState.firebaseStorage = true)
      ∧ saveImage quietEnv bareInput "u1" none onlineState
          = (some (.ok "img_1000_k3x"), (saveImage quietEnv bareInput "u1" none onlineState).2)
      ∧ ((∃ d, storeGet ImageRecord.id "img_1000_k3x"
            (saveImage quietEnv bareInput "u1" none onlineState).2.cloudImages = some d)
        ∨ (∃ item ∈ (saveImage quietEnv bareInput "u1" none onlineState).2.queue,
            ∃ rec, item.data = SyncData.upload rec ∧ rec.id = "img_1000_k3x")) :=
  ⟨Or.inr rfl, rfl,
    saveImage_no_lost_write quietEnv bareInput "u1" none onlineState _ _ (Or.inr rfl) rfl⟩

/-! ## Mode switch -/

/-- The array `this.syncQueue` is empty on a new manager and no method assigns to
it, so `setMode` never starts a drain: it only stores the mode. -/
theorem setMode_syncQueue_nil (env : Env) (isOnline : Bool) (s : State)
    (h : s.syncQueue = []) : setMode env isOnline s = { s with isOnlineMode := isOnline } := by
  unfold setMode
  simp [h]

/-- C6, at the failing input: a folder is created offline on a manager with Firebase
configured, so the persisted queue holds its `createFolder` entry; `setMode(true)`
then only stores the mode. No request is issued, nothing is replayed, the entry stays
in the queue and the folder is not mirrored, whereas a call of `processSyncQueue` in
the same state mirrors the folder and empties the queue. -/
theorem setMode_online_does_not_drain :
    (createFolder quietEnv "Foxes" "u1" none none (State.init true)).2.queue.map
        (fun item => (item.id, item.data.action)) = [(1, "createFolder")]
      ∧ (createFolder quietEnv "Foxes" "u1" none none (State.init true)).2.firestore = true
      ∧ setMode quietEnv true (createFolder quietEnv "Foxes" "u1" none none (State.init true)).2
          = { (createFolder quietEnv "Foxes" "u1" none none (State.init true)).2 with
              isOnlineMode := true }
      ∧ (setMode quietEnv true
          (createFolder quietEnv "Foxes" "u1" none none (State.init true)).2).log
          = (createFolder quietEnv "Foxes" "u1" none none (State.init true)).2.log
      ∧ (setMode quietEnv true
          (createFolder quietEnv "Foxes" "u1" none none (State.init true)).2).queue.map
            (fun item => (item.id, item.data.action)) = [(1, "createFolder")]
      ∧ (setMode quietEnv true
          (createFolder quietEnv "Foxes" "u1" none none (State.init true)).2).cloudFolders = []
      ∧ (processSyncQueue quietEnv
          { (createFolder quietEnv "Foxes" "u1" none none (State.init true)).2 with
            isOnlineMode := true }).queue = []
      ∧ (processSyncQueue quietEnv
          { (createFolder quietEnv "Foxes" "u1" none none (State.init true)).2 with
            isOnlineMode := true }).cloudFolders.map FolderRecord.id = ["folder_1000_k3x"] :=
  ⟨rfl, rfl, rfl, rfl, rfl, rfl, rfl, rfl⟩

/-! ## The drain loop in general -/

theorem sameStores_refl (s : State) : s.sameStores s := ⟨rfl, rfl, sameCloud_refl s⟩

theorem sameStores_trans {s t u : State} (h1 : s.sameStores t) (h2 : t.sameStores u) :
    s.sameStores u :=
  ⟨h2.1.trans h1.1, h2.2.1.trans h1.2.1, sameCloud_trans h1.2.2 h2.2.2⟩

theorem removeSyncItem_stores (env : Env) (itemId : Nat) (s : State) :
    s.sameStores (removeSyncItem env itemId s).2
      ∧ replays (removeSyncItem env itemId s).2.log = replays s.log
      ∧ s.sameConfig (removeSyncItem env itemId s).2 := by
  unfold removeSyncItem
  split <;> simp [State.sameStores, State.sameCloud, State.sameConfig]

theorem updateSyncItem_stores (env : Env) (item : SyncItem) (s : State) :
    s.sameStores (updateSyncItem env item s).2
      ∧ replays (updateSyncItem env item s).2.log = replays s.log
      ∧ s.sameConfig (updateSyncItem env item s).2 := by
  unfold updateSyncItem
  split <;> simp [State.sameStores, State.sameCloud, State.sameConfig]

theorem retryOrDrop_stores (env : Env) (item : SyncItem) (s : State) :
    s.sameStores (retryOrDrop env item s).2
      ∧ replays (retryOrDrop env item s).2.log = replays s.log
      ∧ s.sameConfig (retryOrDrop env item s).2 := by
  unfold retryOrDrop
  dsimp only
  split
  · exact removeSyncItem_stores env _ s
  · exact updateSyncItem_stores env _ s

/-- One iteration of the drain loop, whatever the requests do: the records are those
left by the replay, and the replay is recorded with its outcome. -/
theorem processSyncStep_general (env : Env) (item : SyncItem) (s : State) :
    ((processSyncItem env item s).2.2).sameStores (processSyncStep env item s).2
      ∧ replays (processSyncStep env item s).2.log
          = replays s.log ++ [(item.id, (processSyncItem env item s).1.toBool)]
      ∧ s.sameConfig (processSyncStep env item s).2 := by
  unfold processSyncStep
  have hctl := (processSyncItem_ctl env item s).1
  generalize processSyncItem env item s = res at hctl ⊢
  obtain ⟨r, item1, s1⟩ := res
  obtain ⟨hcfg, -, hrep⟩ := hctl
  dsimp only at hcfg hrep ⊢
  cases r with
  | ok u =>
    dsimp only
    have h1 := removeSyncItem_stores env item1.id
      { s1 with log := s1.log ++ [Event.replay item.id true] }
    generalize removeSyncItem env item1.id
      { s1 with log := s1.log ++ [Event.replay item.id true] } = p at h1 ⊢
    obtain ⟨r2, s2⟩ := p
    obtain ⟨hst, hlog, hc2⟩ := h1
    dsimp only at hst hlog hc2
    cases r2 with
    | ok u2 =>
      dsimp only
      refine ⟨hst, ?_, sameConfig_trans hcfg hc2⟩
      rw [hlog]
      simp [hrep, Except.toBool]
    | error e =>
      dsimp only
      obtain ⟨hst3, hlog3, hc3⟩ := retryOrDrop_stores env item1 s2
      refine ⟨sameStores_trans hst hst3, ?_, sameConfig_trans hcfg (sameConfig_trans hc2 hc3)⟩
      rw [hlog3, hlog]
      simp [hrep, Except.toBool]
  | error e =>
    dsimp only
    obtain ⟨hst3, hlog3, hc3⟩ := retryOrDrop_stores env item1
      { s1 with log := s1.log ++ [Event.replay item.id false] }
    refine ⟨hst3, ?_, sameConfig_trans hcfg hc3⟩
    rw [hlog3]
    simp [hrep, Except.toBool]

theorem sameImage_refl (k : String) (s : State) : s.sameImage k s := ⟨rfl, rfl⟩

theorem sameImage_trans {k : String} {s t u : State} (h1 : s.sameImage k t)
    (h2 : t.sameImage k u) : s.sameImage k u :=
  ⟨h2.1.trans h1.1, h2.2.trans h1.2⟩

theorem sameImage_of_sameStores {k : String} {s t : State} (h : s.sameStores t) :
    s.sameImage k t := by
  unfold State.sameImage
  rw [h.1, h.2.2.1]
  exact ⟨rfl, rfl⟩

theorem sameImage_did (env : Env) (k : String) (s : State) (op : Op) :
    s.sameImage k (s.did env op) := ⟨rfl, rfl⟩

theorem updateImageLocally_sameImage (env : Env) (k : String) (r : ImageRecord) (s : State)
    (h : r.id ≠ k) : s.sameImage k (updateImageLocally env r s).2 := by
  unfold updateImageLocally
  split
  · exact ⟨rfl, rfl⟩
  · exact ⟨storeGet_storePut_ne _ _ _ _ (fun h1 => h h1.symm), rfl⟩

theorem saveImageToCloud_sameImage (env : Env) (k : String) (r : ImageRecord)
    (b : Option Blob) (s : State) (h : r.id ≠ k) :
    s.sameImage k (saveImageToCloud env r b s).2 := by
  unfold saveImageToCloud
  dsimp only
  split
  · exact ⟨rfl, rfl⟩
  · cases b with
    | none => exact ⟨rfl, rfl⟩
    | some b =>
      dsimp only
      split
      · exact ⟨rfl, rfl⟩
      · split
        · exact ⟨rfl, rfl⟩
        · split
          · exact ⟨rfl, rfl⟩
          · split
            · exact ⟨rfl, rfl⟩
            · exact ⟨rfl, storeGet_storePut_ne ImageRecord.id _ _ _ (fun h1 => h h1.symm)⟩

theorem deleteImageDoc_sameImage (env : Env) (k : String) (imageId : String) (s : State)
    (h : imageId ≠ k) : s.sameImage k (deleteImageDoc env imageId s).2 := by
  unfold deleteImageDoc
  split
  · exact ⟨rfl, rfl⟩
  · exact ⟨rfl, storeGet_storeDelete_ne _ _ _ _ (fun h1 => h h1.symm)⟩

theorem deleteImageFromCloud_sameImage (env : Env) (k : String) (imageId : String)
    (s : State) (h : imageId ≠ k) : s.sameImage k (deleteImageFromCloud env imageId s).2 := by
  unfold deleteImageFromCloud
  dsimp only
  split
  · exact ⟨rfl, rfl⟩
  · split
    · exact ⟨rfl, rfl⟩
    · split
      · exact ⟨rfl, rfl⟩
      · split
        · exact sameImage_trans (sameImage_did env k s _) (deleteImageDoc_sameImage env k _ _ h)
        · split
          · exact sameImage_trans (sameImage_did env k s _)
              (deleteImageDoc_sameImage env k _ _ h)
          · split
            · exact ⟨rfl, rfl⟩
            · split
              · exact ⟨rfl, rfl⟩
              · exact sameImage_trans (s := s) (t := s.did env (Op.imageDocGet imageId))
                  ⟨rfl, rfl⟩
                  (sameImage_trans (t := { (s.did env (Op.imageDocGet imageId)).did env
                        (Op.storageDelete _) with
                      cloudFiles := storeDelete Prod.fst _
                        (s.did env (Op.imageDocGet imageId)).cloudFiles })
                    ⟨rfl, rfl⟩ (deleteImageDoc_sameImage env k _ _ h))

theorem saveFolderToCloud_sameImage (env : Env) (k : String) (f : FolderRecord) (s : State) :
    s.sameImage k (saveFolderToCloud env f s).2 := by
  unfold saveFolderToCloud
  split
  · exact ⟨rfl, rfl⟩
  · split <;> exact ⟨rfl, rfl⟩

theorem saveFolderLocally_sameImage (env : Env) (k : String) (f : FolderRecord) (s : State) :
    s.sameImage k (saveFolderLocally env f s).2 := by
  unfold saveFolderLocally
  split <;> exact ⟨rfl, rfl⟩

theorem deleteFolderFromCloud_sameImage (env : Env) (k : String) (folderId : String)
    (s : State) : s.sameImage k (deleteFolderFromCloud env folderId s).2 := by
  unfold deleteFolderFromCloud
  split
  · exact ⟨rfl, rfl⟩
  · split <;> exact ⟨rfl, rfl⟩

theorem sameImage_of_eq {α : Type} {k : String} {f : Except Err α × State} {s : State}
    {res : Except Err α} {s' : State} (heq : f = (res, s')) (h : s.sameImage k f.2) :
    s.sameImage k s' := by
  rw [heq] at h; exact h

/-- The replay of an item that is not about image `k` leaves both copies of `k`
alone. -/
theorem processSyncItem_sameImage (env : Env) (k : String) (item : SyncItem) (s : State)
    (h : item.data.imageId ≠ some k) : s.sameImage k (processSyncItem env item s).2.2 := by
  unfold processSyncItem
  split
  · rename_i record hd
    have hk : record.id ≠ k := by
      intro h1
      apply h
      rw [hd]
      simp [SyncData.imageId, h1]
    split
    · exact sameImage_refl k s
    · split
      · exact ⟨rfl, rfl⟩
      · split
        · rename_i heq
          exact sameImage_trans (sameImage_did env k s _)
            (sameImage_of_eq heq (saveImageToCloud_sameImage env k _ _ _ hk))
        · rename_i heq
          have h1 := sameImage_trans (sameImage_did env k s _)
            (sameImage_of_eq heq (saveImageToCloud_sameImage env k _ _ _ hk))
          dsimp only
          split
          · rename_i heq2
            exact sameImage_trans h1
              (sameImage_of_eq heq2 (updateImageLocally_sameImage env k _ _ hk))
          · rename_i heq2
            exact sameImage_trans h1
              (sameImage_of_eq heq2 (updateImageLocally_sameImage env k _ _ hk))
  · rename_i id uid hd
    have hk : id ≠ k := by
      intro h1
      apply h
      rw [hd]
      simp [SyncData.imageId, h1]
    exact deleteImageFromCloud_sameImage env k id s hk
  · split
    · rename_i heq
      exact sameImage_of_eq heq (saveFolderToCloud_sameImage env k _ _)
    · rename_i heq
      have h1 := sameImage_of_eq heq (saveFolderToCloud_sameImage env k _ _)
      dsimp only
      unfold updateFolderLocally
      split
      · rename_i heq2
        exact sameImage_trans h1 (sameImage_of_eq heq2 (saveFolderLocally_sameImage env k _ _))
      · rename_i heq2
        exact sameImage_trans h1 (sameImage_of_eq heq2 (saveFolderLocally_sameImage env k _ _))
  · exact deleteFolderFromCloud_sameImage env k _ s

theorem processSyncStep_sameImage (env : Env) (k : String) (item : SyncItem) (s : State)
    (h : item.data.imageId ≠ some k) : s.sameImage k (processSyncStep env item s).2 :=
  sameImage_trans (processSyncItem_sameImage env k item s h)
    (sameImage_of_sameStores (processSyncStep_general env item s).1)

theorem processSyncItems_sameImage (env : Env) (k : String) :
    ∀ (items : List SyncItem) (s : State), (∀ x ∈ items, x.data.imageId ≠ some k) →
      s.sameImage k (processSyncItems env items s).2 := by
  intro items
  induction items with
  | nil => intro s _; exact sameImage_refl k s
  | cons x rest ih =>
    intro s h
    unfold processSyncItems
    have h1 := processSyncStep_sameImage env k x s (h x (List.mem_cons_self _ _))
    generalize processSyncStep env x s = p at h1 ⊢
    obtain ⟨r, s1⟩ := p
    cases r with
    | error e => exact h1
    | ok u =>
      dsimp only
      exact sameImage_trans h1 (ih s1 (fun y hy => h y (List.mem_cons_of_mem _ hy)))

/-- The replays recorded by the drain loop are replays of its items. -/
theorem processSyncItems_replays (env : Env) :
    ∀ (items : List SyncItem) (s : State),
      ∃ r, replays (processSyncItems env items s).2.log = replays s.log ++ r
        ∧ ∀ p ∈ r, p.1 ∈ items.map SyncItem.id := by
  intro items
  induction items with
  | nil => intro s; exact ⟨[], by simp [processSyncItems], by simp⟩
  | cons x rest ih =>
    intro s
    unfold processSyncItems
    have h1 := (processSyncStep_general env x s).2.1
    generalize processSyncStep env x s = p at h1 ⊢
    obtain ⟨r, s1⟩ := p
    dsimp only at h1
    cases r with
    | error e =>
      refine ⟨_, h1, ?_⟩
      intro p hp
      simp only [List.mem_singleton] at hp
      subst hp
      simp
    | ok u =>
      dsimp only
      obtain ⟨r', hr', hmem⟩ := ih s1
      refine ⟨(x.id, (processSyncItem env x s).1.toBool) :: r', ?_, ?_⟩
      · rw [hr', h1]; simp
      · intro p hp
        rcases List.mem_cons.mp hp with rfl | hp
        · simp
        · exact List.mem_cons_of_mem _ (hmem p hp)

theorem mirrored_of_sameImage {k : String} {s t : State} (h : s.sameImage k t)
    (hm : s.mirrored k) : t.mirrored k := by
  obtain ⟨c, l, hc, hl, hcl⟩ := hm
  exact ⟨c, l, h.2.trans hc, h.1.trans hl, hcl⟩

theorem updateImageLocally_cloud_of_eq {env : Env} {r : ImageRecord} {s s' : State}
    {res : Except Err ImageRecord} (h : updateImageLocally env r s = (res, s')) :
    s'.cloudImages = s.cloudImages := by
  have := updateImageLocally_cloud env r s
  rw [h] at this
  exact this

/-- A successful replay of an `upload` item with a payload: the Firestore document
is the record as it was queued, without `imageData` and with the download URL and
the storage path; the local record is the queued record with the download URL and
`syncStatus = synced`. -/
theorem processSyncItem_upload_result (env : Env) (item : SyncItem) (s : State)
    (rec : ImageRecord) (b : Blob) (hd : item.data = SyncData.upload rec)
    (hb : rec.imageData = some b) (hok : (processSyncItem env item s).1.toBool = true) :
    ∃ url, storeGet ImageRecord.id rec.id (processSyncItem env item s).2.2.cloudImages
          = some { rec with imageData := none, cloudUrl := some url,
                            storagePath := some (storagePathOf rec) }
      ∧ storeGet ImageRecord.id rec.id (processSyncItem env item s).2.2.images
          = some { rec with cloudUrl := some url, syncStatus := .synced,
                            imageData := some b } := by
  revert hok
  generalize hres : processSyncItem env item s = res
  unfold processSyncItem at hres
  rw [hd] at hres
  dsimp only at hres
  rw [hb] at hres
  dsimp only at hres
  split at hres
  · subst hres; intro h; simp [Except.toBool] at h
  · split at hres
    · subst hres; intro h; simp [Except.toBool] at h
    · rename_i url s1 heq
      split at hres
      · subst hres; intro h; simp [Except.toBool] at h
      · rename_i a s2 heq2
        subst hres
        intro _
        obtain ⟨hdoc, -, -⟩ := saveImageToCloud_ok env rec (some b) _ s1 url heq
        obtain ⟨-, himg⟩ := updateImageLocally_ok env _ _ _ _ heq2
        have hcl := updateImageLocally_cloud_of_eq heq2
        refine ⟨url, ?_, ?_⟩
        · show storeGet ImageRecord.id rec.id s2.cloudImages = _
          rw [hcl]; exact hdoc
        · show storeGet ImageRecord.id rec.id s2.images = _
          rw [himg]
          exact storeGet_storePut_self ImageRecord.id
            { rec with cloudUrl := some url, syncStatus := .synced, imageData := some b } _

theorem processSyncItem_upload_mirrored (env : Env) (item : SyncItem) (s : State)
    (rec : ImageRecord) (b : Blob) (hd : item.data = SyncData.upload rec)
    (hb : rec.imageData = some b) (hok : (processSyncItem env item s).1.toBool = true) :
    ((processSyncItem env item s).2.2).mirrored rec.id := by
  obtain ⟨url, hc, hl⟩ := processSyncItem_upload_result env item s rec b hd hb hok
  exact ⟨_, _, hc, hl, rfl, rfl, rfl, rfl, rfl, rfl, rfl, rfl⟩

/-- The drain loop, whatever the requests do: if the `upload` item `e` is recorded as
replayed with success and no other item of the loop is about the same image, both
stores hold agreeing copies of the image when the loop ends. -/
theorem processSyncItems_mirrored (env : Env) (e : SyncItem) (rec : ImageRecord) (b : Blob)
    (hd : e.data = SyncData.upload rec) (hb : rec.imageData = some b) :
    ∀ (items : List SyncItem) (s : State),
      (items.map SyncItem.id).Pairwise (fun a b => a < b) → e ∈ items →
      (∀ x ∈ items, x ≠ e → x.data.imageId ≠ some rec.id) →
      (e.id, true) ∈ (replays (processSyncItems env items s).2.log).drop (replays s.log).length →
      ((processSyncItems env items s).2).mirrored rec.id := by
  intro items
  induction items with
  | nil => intro s _ he; cases he
  | cons x rest ih =>
    intro s hpw he hother hrep
    rw [List.map_cons, List.pairwise_cons] at hpw
    obtain ⟨hstores, hrep1, -⟩ := processSyncStep_general env x s
    have hmir1 := processSyncItem_upload_mirrored env x s rec b
    have hrest := processSyncItems_replays env rest
    have hsame := processSyncItems_sameImage env rec.id rest
    unfold processSyncItems at hrep ⊢
    generalize processSyncItem env x s = pi at hstores hrep1 hmir1
    generalize processSyncStep env x s = p at hstores hrep1 hrep ⊢
    obtain ⟨r1, s1⟩ := p
    dsimp only at hstores hrep1
    rcases List.mem_cons.mp he with hex | hin
    · -- the item at hand is `e`
      subst hex
      have hrestne : ∀ y ∈ rest, y.data.imageId ≠ some rec.id := by
        intro y hy
        apply hother y (List.mem_cons_of_mem _ hy)
        intro hye
        have := hpw.1 y.id (List.mem_map_of_mem _ hy)
        rw [hye] at this
        omega
      have hok : pi.1.toBool = true := by
        cases r1 with
        | error err =>
          dsimp only at hrep
          rw [hrep1, List.drop_left] at hrep
          simp only [List.mem_singleton, Prod.mk.injEq, true_and] at hrep
          exact hrep.symm
        | ok u =>
          dsimp only at hrep
          obtain ⟨r', hr', hmem⟩ := hrest s1
          rw [hr', hrep1, List.append_assoc, List.drop_left] at hrep
          rcases List.mem_append.mp hrep with h1 | h1
          · simp only [List.mem_singleton, Prod.mk.injEq, true_and] at h1
            exact h1.symm
          · have h2 := hmem _ h1
            have h3 := hpw.1 _ h2
            dsimp only at h3
            omega
      have hm1 : s1.mirrored rec.id :=
        mirrored_of_sameImage (sameImage_of_sameStores hstores) (hmir1 hd hb hok)
      cases r1 with
      | error err => exact hm1
      | ok u => exact mirrored_of_sameImage (hsame s1 hrestne) hm1
    · -- `e` comes later
      have hlt := hpw.1 e.id (List.mem_map_of_mem _ hin)
      cases r1 with
      | error err =>
        dsimp only at hrep
        rw [hrep1, List.drop_left] at hrep
        simp only [List.mem_singleton, Prod.mk.injEq] at hrep
        omega
      | ok u =>
        dsimp only at hrep ⊢
        apply ih s1 hpw.2 hin (fun y hy => hother y (List.mem_cons_of_mem _ hy))
        obtain ⟨r', hr', -⟩ := hrest s1
        rw [hr', hrep1, List.append_assoc, List.drop_left] at hrep
        rw [hr', List.drop_left]
        rcases List.mem_append.mp hrep with h1 | h1
        · simp only [List.mem_singleton, Prod.mk.injEq] at h1
          omega
        · exact h1

/-- C4, at inputs where the claim fails. First, an image without a payload is saved
offline and the manager goes online: the pass records the replay of its `upload`
entry as successful and removes the entry although nothing is written to the Remote
Mirror. Second, the persisted queue holds the upload of `img1`, with its payload,
followed by the deletion of `img1`: both replays succeed, and after the pass the
Remote Mirror holds no copy of the image. Third, the queue holds the creation of
folder `F` and the upload of `img1`: the replay succeeds and the remote copy keeps
`syncStatus = pending` while the local copy becomes `synced`. -/
theorem upload_replay_not_mirrored :
    (replays (processSyncQueue quietEnv
        { (saveImage quietEnv bareInput "u1" none (State.init true)).2 with
          isOnlineMode := true }).log = [(1, true)]
      ∧ (saveImage quietEnv bareInput "u1" none (State.init true)).2.queue.map
          (fun item => (item.id, item.data.action)) = [(1, "upload")]
      ∧ (processSyncQueue quietEnv
        { (saveImage quietEnv bareInput "u1" none (State.init true)).2 with
          isOnlineMode := true }).queue = []
      ∧ (processSyncQueue quietEnv
        { (saveImage quietEnv bareInput "u1" none (State.init true)).2 with
          isOnlineMode := true }).cloudImages = [])
    ∧ (replays (processSyncQueue quietEnv uploadThenDelete).log = [(1, true), (2, true)]
      ∧ (processSyncQueue quietEnv uploadThenDelete).queue = []
      ∧ (processSyncQueue quietEnv uploadThenDelete).cloudImages = [])
    ∧ (replays (processSyncQueue quietEnv folderThenUpload).log = [(1, true), (2, true)]
      ∧ (storeGet ImageRecord.id "img1"
          (processSyncQueue quietEnv folderThenUpload).cloudImages).map ImageRecord.syncStatus
          = some SyncStatus.pending
      ∧ (storeGet ImageRecord.id "img1"
          (processSyncQueue quietEnv folderThenUpload).images).map ImageRecord.syncStatus
          = some SyncStatus.synced) :=
  ⟨⟨rfl, rfl, rfl, rfl⟩, ⟨rfl, rfl, rfl⟩, rfl, rfl, rfl⟩

/-- C4, amended. Let `e` be an `upload` entry of the queue whose record has a payload,
and let no other entry of the queue be about the same image. If a
`processSyncQueue` pass records the replay of `e` as successful, then after the pass
the Firestore collection holds a copy of the record and the local store holds a
copy, and the two agree on id, owner, folder, prompt, style, tags, `createdAt` and
`updatedAt`. -/
theorem upload_replay_mirrored (env : Env) (s : State) (e : SyncItem) (rec : ImageRecord)
    (b : Blob) (hwf : s.WF) (he : e ∈ s.queue) (hd : e.data = SyncData.upload rec)
    (hb : rec.imageData = some b)
    (hother : ∀ x ∈ s.queue, x ≠ e → x.data.imageId ≠ some rec.id)
    (hrep : (e.id, true)
      ∈ (replays (processSyncQueue env s).log).drop (replays s.log).length) :
    (processSyncQueue env s).mirrored rec.id := by
  unfold processSyncQueue getSyncQueue at hrep ⊢
  by_cases hg : (!s.isOnlineMode || !s.firestore) = true
  · rw [if_pos hg] at hrep
    simp at hrep
  · rw [if_neg hg] at hrep ⊢
    by_cases hf : s.fails env Op.queueGetAll = true
    · rw [if_pos hf] at hrep
      simp at hrep
    · rw [if_neg hf] at hrep ⊢
      dsimp only at hrep ⊢
      apply processSyncItems_mirrored env e rec b hd hb s.queue _ hwf.1 he hother
      simpa using hrep

/-- Witness of C4: the queue holds the creation of folder `F` and the upload of
`img1`, and every request succeeds. -/
theorem upload_replay_mirrored_witness :
    (folderThenUpload.WF
        ∧ (2, true) ∈ (replays (processSyncQueue quietEnv folderThenUpload).log).drop
            (replays folderThenUpload.log).length)
      ∧ (processSyncQueue quietEnv folderThenUpload).mirrored "img1" :=
  ⟨⟨folderThenUpload_WF, by decide⟩,
    upload_replay_mirrored quietEnv folderThenUpload
      { id := 2, data := .upload sampleRecord, timestamp := 11, retries := 0, maxRetries := 3 }
      sampleRecord { size := 10, type := "image/png", content := 7 }
      folderThenUpload_WF (by decide) rfl rfl (by decide) (by decide)⟩

/-! ## Offline save, then drain -/

theorem saveImageToCloud_succeeds (env : Env) (hrem : env.remoteOk) (r : ImageRecord)
    (b : Blob) (s : State) (hst : s.firebaseStorage = true) (hfs : s.firestore = true) :
    (saveImageToCloud env r (some b) s).1.toBool = true := by
  unfold saveImageToCloud
  have h1 : ∀ (t : State) (path : String), t.fails env (Op.storagePut path) = false :=
    fun t path => hrem _ _ rfl
  have h2 : ∀ (t : State) (path : String),
      t.fails env (Op.storageGetDownloadURL path) = false := fun t path => hrem _ _ rfl
  have h3 : ∀ (t : State) (id : String), t.fails env (Op.imageDocSet id) = false :=
    fun t id => hrem _ _ rfl
  simp [hst, hfs, h1, h2, h3, Except.toBool]

theorem allOk_localStoreOk (env : Env) (hall : env.allOk) : env.localStoreOk :=
  fun n op _ => hall n op

theorem allOk_remoteOk (env : Env) (hall : env.allOk) : env.remoteOk :=
  fun n op _ => hall n op

/-- When the Remote Mirror accepts every request, the Local Record Store works, the
payload can be decoded and both handles are present, the replay of an `upload` item
with a payload succeeds. -/
theorem processSyncItem_upload_succeeds (env : Env) (hrem : env.remoteOk)
    (hloc : env.localStoreOk) (hfetch : ∀ n, env.fails n Op.fetchDataURL = false)
    (item : SyncItem) (s : State) (rec : ImageRecord) (b : Blob)
    (hd : item.data = SyncData.upload rec) (hb : rec.imageData = some b)
    (hst : s.firebaseStorage = true) (hfs : s.firestore = true) :
    (processSyncItem env item s).1.toBool = true := by
  have h1 := saveImageToCloud_succeeds env hrem rec b (s.did env Op.fetchDataURL) hst hfs
  unfold processSyncItem
  rw [hd]
  dsimp only
  rw [hb]
  dsimp only
  rw [if_neg (by rw [show s.fails env Op.fetchDataURL = false from hfetch _]; simp)]
  generalize hcloud : saveImageToCloud env rec (some b) (s.did env Op.fetchDataURL) = p at h1
  obtain ⟨res, s1⟩ := p
  cases res with
  | error e => simp [Except.toBool] at h1
  | ok url =>
    dsimp only
    split
    · rename_i heq
      exact (updateImageLocally_ne_error env hloc heq).elim
    · rfl

/-- What a successful offline `saveImage` leaves behind: the record stored under the
new id is `pending` and has no download URL, and one `upload` entry with that record
has been appended to the queue. -/
theorem saveImage_offline (env : Env) (imageData : ImageInput) (userId : String)
    (folderId : Option String) (s s' : State) (imageId : String)
    (hoff : s.isOnlineMode = false)
    (h : saveImage env imageData userId folderId s = (some (.ok imageId), s')) :
    ∃ (rec : ImageRecord) (ts : Nat),
      storeGet ImageRecord.id imageId s'.images = some rec ∧ rec.id = imageId
        ∧ rec.syncStatus = SyncStatus.pending
        ∧ rec.imageData.isSome = imageData.file.isSome
        ∧ s'.queue = s.queue ++ [{ id := s.queueKey, data := SyncData.upload rec,
                                    timestamp := ts, retries := 0, maxRetries := 3 }]
        ∧ s'.queueKey = s.queueKey + 1
        ∧ s.sameConfig s' ∧ s.sameCloud s' := by
  obtain ⟨rec, blob, s4, hid, -, -, hstat, -, hdat, hblob, hget, hcfg, hq, hcl, hrem⟩ :=
    saveImage_ok_inv env imageData userId folderId s s' imageId h
  rw [hoff] at hstat
  have hoff4 : s4.isOnlineMode = false := hcfg.1.trans hoff
  unfold saveImageRemote at hrem
  rw [if_neg (by simp [hoff4]), if_pos (by simp [hoff4])] at hrem
  obtain ⟨hqueue, hkey⟩ := addToSyncQueue_ok env _ _ _ () hrem
  obtain ⟨hc5, hcl5, him5, -⟩ := addToSyncQueue_frame env (SyncData.upload rec) s4
  rw [hrem] at hc5 hcl5 him5
  refine ⟨rec, env.now s4.log.length, ?_, hid, by simpa using hstat, ?_, ?_, ?_,
    sameConfig_trans hcfg hc5, sameCloud_trans hcl hcl5⟩
  · rw [him5]; exact hget
  · rw [hdat]; exact hblob
  · rw [hqueue, hq.1, hq.2]
  · rw [hkey, hq.2]

/-- C3, at the failing input: an image with a binary payload is saved offline on a
fresh manager with Firebase configured, and no request rejects. The payload is read,
but the put into the `images` store is never placed: the call never returns, the
local store holds no record and the queue holds no entry. When the manager then is
online and `processSyncQueue` runs with every request accepted, nothing is replayed
and the Remote Mirror holds neither the record nor the file. -/
theorem offline_payload_save_never_returns :
    sampleInput.file = some { size := 10, type := "image/png", content := 7 }
      ∧ (State.init true).queue = [] ∧ (State.init true).isOnlineMode = false
      ∧ (saveImage quietEnv sampleInput "u1" none (State.init true)).1 = none
      ∧ (saveImage quietEnv sampleInput "u1" none (State.init true)).2.log
          = [Event.read, Event.read, Event.io Op.readAsDataURL false]
      ∧ (saveImage quietEnv sampleInput "u1" none (State.init true)).2.images = []
      ∧ (saveImage quietEnv sampleInput "u1" none (State.init true)).2.queue = []
      ∧ replays (processSyncQueue quietEnv
          { (saveImage quietEnv sampleInput "u1" none (State.init true)).2 with
            isOnlineMode := true }).log = []
      ∧ (processSyncQueue quietEnv
          { (saveImage quietEnv sampleInput "u1" none (State.init true)).2 with
            isOnlineMode := true }).cloudImages = []
      ∧ (processSyncQueue quietEnv
          { (saveImage quietEnv sampleInput "u1" none (State.init true)).2 with
            isOnlineMode := true }).cloudFiles = []
      ∧ (processSyncQueue quietEnv
          { (saveImage quietEnv sampleInput "u1" none (State.init true)).2 with
            isOnlineMode := true }).images = [] :=
  ⟨rfl, rfl, rfl, rfl, rfl, rfl, rfl, rfl, rfl, rfl, rfl⟩

/-! ## Well-formedness of the queue store -/

theorem init_WF (configured : Bool) : (State.init configured).WF := by
  unfold State.WF State.init
  simp

theorem addToSyncQueue_WF (env : Env) (d : SyncData) (s : State) (h : s.WF) :
    (addToSyncQueue env d s).2.WF := by
  unfold addToSyncQueue
  dsimp only
  split
  · exact h
  · constructor
    · show (List.map SyncItem.id (s.queue ++ [_])).Pairwise _
      rw [List.map_append, List.pairwise_append]
      refine ⟨h.1, by simp, ?_⟩
      intro a ha b hb
      obtain ⟨x, hx, rfl⟩ := List.mem_map.mp ha
      simp only [List.map_cons, List.map_nil, List.mem_singleton] at hb
      subst hb
      exact h.2 x hx
    · intro x hx
      have hx' : x ∈ s.queue ++ [_] := hx
      rcases List.mem_append.mp hx' with h1 | h1
      · exact Nat.lt_succ_of_lt (h.2 x h1)
      · simp only [List.mem_singleton] at h1
        subst h1
        exact Nat.lt_succ_self _

/-! ## Replays that write to the local store -/

/-- C14, at an input where the code departs from the claim: a folder is created and
then deleted while offline on a fresh manager, both calls returning success. The
local store then holds no folder and the queue holds the `createFolder` entry
followed by the `deleteFolder` entry. A drain pass online in which no request
rejects replays both, and the replay of the `createFolder` entry writes the folder
back: afterwards the local folders store holds the folder again, the Remote Mirror
does not, and the queue is empty. -/
theorem drain_recreates_deleted_folder :
    (createFolder quietEnv "Foxes" "u1" none none (State.init true)).1.toOption.map
        FolderRecord.id = some "folder_1000_k3x"
      ∧ (deleteFolder quietEnv "folder_1000_k3x" "u1"
          (createFolder quietEnv "Foxes" "u1" none none (State.init true)).2).1 = .ok ()
      ∧ createdThenDeleted.folders = []
      ∧ createdThenDeleted.queue.map (fun item => (item.id, item.data.action))
          = [(1, "createFolder"), (2, "deleteFolder")]
      ∧ replays (processSyncQueue quietEnv { createdThenDeleted with isOnlineMode := true }).log
          = [(1, true), (2, true)]
      ∧ (processSyncQueue quietEnv { createdThenDeleted with isOnlineMode := true }).folders.map
            (fun f => (f.id, f.syncStatus)) = [("folder_1000_k3x", SyncStatus.synced)]
      ∧ (processSyncQueue quietEnv { createdThenDeleted with isOnlineMode := true }).cloudFolders
          = []
      ∧ (processSyncQueue quietEnv { createdThenDeleted with isOnlineMode := true }).queue = [] :=
  ⟨rfl, rfl, rfl, rfl, rfl, rfl, rfl, rfl⟩

/-! ## Counterexamples for the folder and image operations -/

/-- C12, at the failing input: on a fresh manager with Firebase configured a folder is
created offline, an image without a payload is saved offline into it, and the manager
is set online. The Local Record Store holds the folder and the image of user `u1` in
it; the Remote Mirror holds no image. The query of `deleteFolder` is answered by the
Remote Mirror, so the call returns success and the folder is gone from the local
folders store while the image is still there. In the same state offline, and online
when the remote query rejects, the query is answered by the Local Record Store and
the call fails as for a folder that is not empty. -/
theorem deleteFolder_online_ignores_local_images :
    folderWithLocalImage.isOnlineMode = true ∧ folderWithLocalImage.firestore = true
      ∧ folderWithLocalImage.images.map (fun r => (r.id, r.userId, r.folderId))
          = [("img_1005_k3x", "u1", some "folder_1000_k3x")]
      ∧ folderWithLocalImage.folders.map FolderRecord.id = ["folder_1000_k3x"]
      ∧ folderWithLocalImage.cloudImages = []
      ∧ (deleteFolder quietEnv "folder_1000_k3x" "u1" folderWithLocalImage).1 = .ok ()
      ∧ (deleteFolder quietEnv "folder_1000_k3x" "u1" folderWithLocalImage).2.folders = []
      ∧ (deleteFolder quietEnv "folder_1000_k3x" "u1" folderWithLocalImage).2.images
          = folderWithLocalImage.images
      ∧ (deleteFolder quietEnv "folder_1000_k3x" "u1"
          { folderWithLocalImage with isOnlineMode := false }).1
          = .error FolderDeleteError.notEmpty
      ∧ (deleteFolder remoteDownEnv "folder_1000_k3x" "u1" folderWithLocalImage).1
          = .error FolderDeleteError.notEmpty :=
  ⟨rfl, rfl, rfl, rfl, rfl, rfl, rfl, rfl, rfl, rfl⟩

/-- C13, at an input where the claim fails: the manager is offline, the folder `F`
has no image in either store, and the request that deletes the folder from the local
store rejects. `deleteFolder` fails, the folder stays in the local folders store and
nothing is queued. -/
theorem deleteFolder_empty_local_failure :
    emptyFolderState.images = [] ∧ emptyFolderState.cloudImages = []
      ∧ (deleteFolder folderDeleteDownEnv "F" "u1" emptyFolderState).1
          = .error (FolderDeleteError.failed (Err.rejected (Op.foldersDelete "F")))
      ∧ (deleteFolder folderDeleteDownEnv "F" "u1" emptyFolderState).2.folders = [sampleFolder]
      ∧ (deleteFolder folderDeleteDownEnv "F" "u1" emptyFolderState).2.queue = [] :=
  ⟨rfl, rfl, rfl, rfl, rfl⟩

/-- C15, at inputs where the claim fails. First, the payload is above 1 MiB and the
canvas yields no blob: no request on the Local Record Store rejects (none is made),
and whatever the Remote Mirror does, `saveImage` fails with `storage/save-failed`
and nothing is stored. Second, a payload of 10 bytes with every request accepted:
the call does not return. -/
theorem saveImage_compression_failure_fatal :
    noCompressEnv.localStoreOk
      ∧ quietEnv.localStoreOk
      ∧ (saveImage quietEnv sampleInput "u1" none onlineState).1 = none
      ∧ (saveImage noCompressEnv bigInput "u1" none (State.init true)).1
          = some (.error "storage/save-failed")
      ∧ (saveImage noCompressEnv bigInput "u1" none onlineState).1
          = some (.error "storage/save-failed")
      ∧ (saveImage noCompressEnv bigInput "u1" none (State.init true)).2.images = []
      ∧ (saveImage noCompressEnv bigInput "u1" none (State.init true)).2.log
          = [Event.read, Event.read, Event.read] :=
  ⟨fun _ _ _ => rfl, quietEnv_localStoreOk, rfl, rfl, rfl, rfl, rfl⟩

/-- C17, at an input where the claim fails: the local store of a fresh offline manager
holds no image, and `deleteImage` of the id `ghost` returns success and appends a
`delete` entry to the sync queue. -/
theorem deleteImage_absent_reports_success :
    storeGet ImageRecord.id "ghost" (State.init true).images = none
      ∧ (deleteImage quietEnv "ghost" "u1" (State.init true)).1 = .ok ()
      ∧ (State.init true).queue = []
      ∧ (deleteImage quietEnv "ghost" "u1" (State.init true)).2.queue.map
            (fun item => (item.id, item.data)) = [(1, SyncData.delete "ghost" "u1")] :=
  ⟨rfl, rfl, rfl, rfl⟩

/-- C19, at an input where the claim fails: the `upload` entry of image `img1` is
replayed twice in a row, no request rejects, and the second upload is given another
download URL than the first. Both replays succeed, and after the second one the
Remote Mirror and the Local Record Store hold another `cloudUrl` than after the
first. -/
theorem upload_replay_twice_differs :
    tokenEnv.allOk
      ∧ (processSyncItem tokenEnv uploadItem pendingImageState).1 = .ok ()
      ∧ (processSyncItem tokenEnv uploadItem
          (processSyncItem tokenEnv uploadItem pendingImageState).2.2).1 = .ok ()
      ∧ (processSyncItem tokenEnv uploadItem pendingImageState).2.2.cloudImages.map
            ImageRecord.cloudUrl = [some "https://cdn/images/u1/img1.jpg?token=2"]
      ∧ (processSyncItem tokenEnv uploadItem pendingImageState).2.2.images.map
            ImageRecord.cloudUrl = [some "https://cdn/images/u1/img1.jpg?token=2"]
      ∧ (processSyncItem tokenEnv uploadItem
          (processSyncItem tokenEnv uploadItem pendingImageState).2.2).2.2.cloudImages.map
            ImageRecord.cloudUrl = [some "https://cdn/images/u1/img1.jpg?token=7"]
      ∧ (processSyncItem tokenEnv uploadItem
          (processSyncItem tokenEnv uploadItem pendingImageState).2.2).2.2.images.map
            ImageRecord.cloudUrl = [some "https://cdn/images/u1/img1.jpg?token=7"] :=
  ⟨fun _ _ => rfl, rfl, rfl, rfl, rfl, rfl, rfl⟩

/-! ## Listing images: lemmas -/

theorem filter_user_folder (userId : String) (folderId : Option String)
    (xs : List ImageRecord) :
    (match folderId with
      | none => xs.filter (fun img => decide (img.userId = userId))
      | some f => (xs.filter (fun img => decide (img.userId = userId))).filter
          (fun img => decide (img.folderId = some f)))
      = imagesOf userId folderId xs := by
  cases folderId with
  | none => simp [imagesOf]
  | some f =>
    simp only [imagesOf, List.filter_filter]
    congr 1
    funext r
    simp
    exact Bool.and_comm _ _

theorem getImagesLocally_eq (env : Env) (userId : String) (folderId : Option String)
    (limit offset : Nat) (s : State) :
    getImagesLocally env userId folderId limit offset s
      = (if s.fails env (Op.imagesGetAll userId) then
           .error (.rejected (Op.imagesGetAll userId))
         else
           .ok { images := (((imagesOf userId folderId s.images).insertionSort
                   newerFirst).drop offset).take limit
                 total := (imagesOf userId folderId s.images).length
                 hasMore := decide (offset + limit < (imagesOf userId folderId s.images).length) },
         s.did env (Op.imagesGetAll userId)) := by
  unfold getImagesLocally
  split
  · rfl
  · rw [← filter_user_folder]
    cases folderId <;> simp only [List.length_insertionSort]

theorem getImagesFromCloud_eq (env : Env) (userId : String) (folderId : Option String)
    (limit offset : Nat) (s : State) (hfs : s.firestore = true) (hl : limit ≠ 0) :
    getImagesFromCloud env userId folderId limit offset s
      = (if s.fails env (Op.imagesQuery userId) then
           .error (.rejected (Op.imagesQuery userId))
         else
           .ok { images := ((imagesOf userId folderId s.cloudImages.reverse).insertionSort
                   newerFirst).take limit
                 total := (((imagesOf userId folderId s.cloudImages.reverse).insertionSort
                   newerFirst).take limit).length
                 hasMore := decide ((((imagesOf userId folderId s.cloudImages.reverse).insertionSort
                   newerFirst).take limit).length = limit) },
         s.did env (Op.imagesQuery userId)) := by
  unfold getImagesFromCloud
  rw [if_neg (by simp [hfs]), if_neg hl]
  split
  · rfl
  · rw [← filter_user_folder]

theorem getImagesLocally_frame (env : Env) (userId : String) (folderId : Option String)
    (limit offset : Nat) (s : State) :
    s.sameStores (getImagesLocally env userId folderId limit offset s).2
      ∧ s.sameCtl (getImagesLocally env userId folderId limit offset s).2 := by
  rw [getImagesLocally_eq]
  exact ⟨⟨rfl, rfl, rfl, rfl, rfl⟩, sameCtl_did env s _⟩

theorem getImagesFromCloud_frame (env : Env) (userId : String) (folderId : Option String)
    (limit offset : Nat) (s : State) :
    s.sameStores (getImagesFromCloud env userId folderId limit offset s).2
      ∧ s.sameCtl (getImagesFromCloud env userId folderId limit offset s).2 := by
  unfold getImagesFromCloud
  split
  · exact ⟨sameStores_refl s, sameCtl_refl s⟩
  · split
    · exact ⟨sameStores_refl s, sameCtl_refl s⟩
    · split
      · exact ⟨⟨rfl, rfl, rfl, rfl, rfl⟩, sameCtl_did env s _⟩
      · exact ⟨⟨rfl, rfl, rfl, rfl, rfl⟩, sameCtl_did env s _⟩

theorem getImages_frame (env : Env) (userId : String) (folderId : Option String)
    (limit offset : Nat) (s : State) :
    s.sameStores (getImages env userId folderId limit offset s).2
      ∧ s.sameCtl (getImages env userId folderId limit offset s).2 := by
  have hl := getImagesLocally_frame env userId folderId limit offset
  have hc := getImagesFromCloud_frame env userId folderId limit offset s
  unfold getImages
  split
  · generalize getImagesFromCloud env userId folderId limit offset s = p at hc ⊢
    obtain ⟨res, s1⟩ := p
    cases res with
    | ok page => exact hc
    | error e =>
      exact ⟨sameStores_trans hc.1 (hl s1).1, sameCtl_trans hc.2 (hl s1).2⟩
  · have h0 := hl s
    generalize getImagesLocally env userId folderId limit offset s = p at h0 ⊢
    obtain ⟨res, s1⟩ := p
    cases res with
    | ok page => exact h0
    | error e =>
      exact ⟨sameStores_trans h0.1 (hl s1).1, sameCtl_trans h0.2 (hl s1).2⟩

theorem getImagesLocally_ok_inv (env : Env) (userId : String) (folderId : Option String)
    (limit offset : Nat) (s s1 : State) (page : ImagePage)
    (h : getImagesLocally env userId folderId limit offset s = (.ok page, s1)) :
    page.images = (((imagesOf userId folderId s.images).insertionSort
        newerFirst).drop offset).take limit := by
  rw [getImagesLocally_eq] at h
  split at h
  · cases h
  · cases h
    rfl

theorem getImagesLocally_localOk (env : Env) (hok : env.localStoreOk) (userId : String)
    (folderId : Option String) (limit offset : Nat) (s : State) :
    ∃ page, getImagesLocally env userId folderId limit offset s
      = (.ok page, s.did env (Op.imagesGetAll userId)) := by
  rw [getImagesLocally_eq,
    if_neg (by rw [localStoreOk_fails env hok s (Op.imagesGetAll userId) rfl]; simp)]
  exact ⟨_, rfl⟩

/-- The images that `getImages` resolves with: those of the Remote Mirror when the
manager is online with a Firestore handle and the query is made and answered, those
of the local store otherwise. -/
theorem getImages_ok_inv (env : Env) (userId : String) (folderId : Option String)
    (limit offset : Nat) (s s1 : State) (page : ImagePage)
    (h : getImages env userId folderId limit offset s = (.ok page, s1)) :
    page.images =
      if (s.isOnlineMode && s.firestore) && (decide (limit ≠ 0)
          && !s.fails env (Op.imagesQuery userId)) then
        ((imagesOf userId folderId s.cloudImages.reverse).insertionSort newerFirst).take limit
      else
        (((imagesOf userId folderId s.images).insertionSort newerFirst).drop offset).take
          limit := by
  unfold getImages at h
  by_cases hon : (s.isOnlineMode && s.firestore) = true
  · have hfs : s.firestore = true := by
      simp only [Bool.and_eq_true] at hon
      exact hon.2
    rw [if_pos hon] at h
    by_cases hl : limit = 0
    · have hc : getImagesFromCloud env userId folderId limit offset s
          = (.error (.rejected (Op.imagesQuery userId)), s) := by
        unfold getImagesFromCloud
        rw [if_neg (by simp [hfs]), if_pos hl]
      rw [hc] at h
      dsimp only at h
      rw [getImagesLocally_ok_inv env userId folderId limit offset s s1 page h]
      simp [hl]
    · rw [getImagesFromCloud_eq env userId folderId limit offset s hfs hl] at h
      by_cases hq : s.fails env (Op.imagesQuery userId) = true
      · rw [if_pos hq] at h
        dsimp only at h
        rw [getImagesLocally_ok_inv env userId folderId limit offset _ s1 page h]
        simp [hq]
      · rw [if_neg hq] at h
        dsimp only at h
        cases h
        simp [hon, hl, hq]
  · rw [if_neg hon] at h
    have hcond : ((s.isOnlineMode && s.firestore) && (decide (limit ≠ 0)
          && !s.fails env (Op.imagesQuery userId))) = false := by
      simp only [Bool.not_eq_true] at hon
      rw [hon]
      rfl
    rw [hcond]
    generalize hg : getImagesLocally env userId folderId limit offset s = p at h
    obtain ⟨res, s2⟩ := p
    cases res with
    | ok page2 =>
      simp only [Prod.mk.injEq, Except.ok.injEq] at h
      rw [← h.1]
      simpa using getImagesLocally_ok_inv env userId folderId limit offset s s2 page2 hg
    | error e =>
      dsimp only at h
      have hs2 : s2.images = s.images := by
        have := (getImagesLocally_frame env userId folderId limit offset s).1.1
        rw [hg] at this
        exact this
      simpa [hs2] using getImagesLocally_ok_inv env userId folderId limit offset s2 s1 page h

theorem getImages_localOk (env : Env) (hok : env.localStoreOk) (userId : String)
    (folderId : Option String) (limit offset : Nat) (s : State) :
    ∃ page s1, getImages env userId folderId limit offset s = (.ok page, s1) := by
  unfold getImages
  split
  · generalize getImagesFromCloud env userId folderId limit offset s = p
    obtain ⟨res, s1⟩ := p
    cases res with
    | ok page => exact ⟨page, s1, rfl⟩
    | error e =>
      obtain ⟨page, hp⟩ := getImagesLocally_localOk env hok userId folderId limit offset s1
      exact ⟨page, _, hp⟩
  · obtain ⟨page, hp⟩ := getImagesLocally_localOk env hok userId folderId limit offset s
    rw [hp]
    exact ⟨page, _, rfl⟩

theorem imagesOf_ne_nil (userId folderId : String) (xs : List ImageRecord)
    (h : ∃ r ∈ xs, r.userId = userId ∧ r.folderId = some folderId) :
    imagesOf userId (some folderId) xs ≠ [] := by
  obtain ⟨r, hr, hu, hf⟩ := h
  intro hnil
  have hmem : r ∈ imagesOf userId (some folderId) xs := by
    unfold imagesOf
    rw [List.mem_filter]
    exact ⟨hr, by simp [hu, hf]⟩
  rw [hnil] at hmem
  cases hmem

theorem imagesOf_eq_nil (userId folderId : String) (xs : List ImageRecord)
    (h : ∀ r ∈ xs, ¬ (r.userId = userId ∧ r.folderId = some folderId)) :
    imagesOf userId (some folderId) xs = [] := by
  unfold imagesOf
  rw [List.filter_eq_nil_iff]
  intro r hr
  have := h r hr
  simpa using this

theorem first_of_sorted_pos (xs : List ImageRecord) (h : xs ≠ []) :
    0 < ((xs.insertionSort newerFirst).take 1).length
      ∧ 0 < (((xs.insertionSort newerFirst).drop 0).take 1).length := by
  have hlen : 0 < xs.length := List.length_pos.mpr h
  simp only [List.drop_zero, List.length_take, List.length_insertionSort]
  omega

/-! ## Listing images: claims -/

/-- C20. `getImagesLocally(userId, folderId, limit, offset)` rejects exactly when the
`getAll` request on the index rejects. Otherwise it resolves with a page such that,
for a list `sorted` that is a permutation of the image records of the user
(restricted to those of the folder when `folderId` is not null) and is in
descending order of `createdAt`: `images` is the part of `sorted` at the positions
from `offset` up to `offset + limit` (excluded), `total` is the number of those
records, and `hasMore` is true exactly when `offset + limit < total`. -/
theorem getImagesLocally_page (env : Env) (userId : String) (folderId : Option String)
    (limit offset : Nat) (s : State) :
    (s.fails env (Op.imagesGetAll userId) = true
        ∧ (getImagesLocally env userId folderId limit offset s).1
            = .error (.rejected (Op.imagesGetAll userId)))
      ∨ (s.fails env (Op.imagesGetAll userId) = false
        ∧ ∃ (page : ImagePage) (sorted : List ImageRecord),
            (getImagesLocally env userId folderId limit offset s).1 = .ok page
              ∧ sorted.Perm (imagesOf userId folderId s.images)
              ∧ sorted.Sorted (fun a b => a.createdAt ≥ b.createdAt)
              ∧ page.images = (sorted.drop offset).take limit
              ∧ page.total = (imagesOf userId folderId s.images).length
              ∧ (page.hasMore = true ↔ offset + limit < page.total)) := by
  rw [getImagesLocally_eq]
  by_cases hf : s.fails env (Op.imagesGetAll userId) = true
  · left
    rw [if_pos hf]
    exact ⟨hf, rfl⟩
  · right
    rw [if_neg hf]
    refine ⟨by simpa using hf, _, (imagesOf userId folderId s.images).insertionSort newerFirst,
      rfl, List.perm_insertionSort _ _, ?_, rfl, rfl, by simp⟩
    haveI : IsTotal ImageRecord newerFirst :=
      ⟨fun a b => Nat.le_total b.createdAt a.createdAt⟩
    haveI : IsTrans ImageRecord newerFirst :=
      ⟨fun a b c h1 h2 => Nat.le_trans h2 h1⟩
    exact List.sorted_insertionSort newerFirst _

/-- Witness of C20: the second and third of three images, newest first. -/
theorem getImagesLocally_page_witness :
    (getImagesLocally quietEnv "u1" none 2 1 galleryState).1.toOption.map
        (fun page => (page.images.map ImageRecord.id, page.total, page.hasMore))
        = some (["img3", "img1"], 3, false)
      ∧ (getImagesLocally quietEnv "u1" (some "F") 1 0 galleryState).1.toOption.map
        (fun page => (page.images.map ImageRecord.id, page.total, page.hasMore))
        = some (["img3"], 2, true)
      ∧ (State.fails quietEnv galleryState (Op.imagesGetAll "u1") = false
        ∧ ∃ (page : ImagePage) (sorted : List ImageRecord),
            (getImagesLocally quietEnv "u1" none 2 1 galleryState).1 = .ok page
              ∧ sorted.Perm (imagesOf "u1" none galleryState.images)
              ∧ sorted.Sorted (fun a b => a.createdAt ≥ b.createdAt)
              ∧ page.images = (sorted.drop 1).take 2
              ∧ page.total = (imagesOf "u1" none galleryState.images).length
              ∧ (page.hasMore = true ↔ 1 + 2 < page.total)) :=
  ⟨rfl, rfl,
    (getImagesLocally_page quietEnv "u1" none 2 1 galleryState).resolve_left
      (fun h => Bool.noConfusion h.1)⟩

/-! ## Deleting a folder -/

theorem deleteFolderLocally_localOk (env : Env) (hok : env.localStoreOk) (folderId : String)
    (s : State) :
    deleteFolderLocally env folderId s
      = (.ok (), { s.did env (Op.foldersDelete folderId) with
                   folders := storeDelete FolderRecord.id folderId s.folders }) := by
  unfold deleteFolderLocally
  rw [if_neg (by rw [localStoreOk_fails env hok s (Op.foldersDelete folderId) rfl]; simp)]

theorem addToSyncQueue_localOk (env : Env) (hok : env.localStoreOk) (d : SyncData)
    (s : State) : ∃ s', addToSyncQueue env d s = (.ok (), s') := by
  unfold addToSyncQueue
  dsimp only
  rw [if_neg (by rw [localStoreOk_fails env hok s.tick Op.queueAdd rfl]; simp)]
  exact ⟨_, rfl⟩

theorem deleteFolderFromCloud_frame (env : Env) (folderId : String) (s : State) :
    (deleteFolderFromCloud env folderId s).2.folders = s.folders
      ∧ (deleteFolderFromCloud env folderId s).2.images = s.images := by
  unfold deleteFolderFromCloud
  split
  · exact ⟨rfl, rfl⟩
  · split <;> exact ⟨rfl, rfl⟩

theorem deleteFolderFromCloud_ok (env : Env) (folderId : String) (s s' : State) (u : Unit)
    (h : deleteFolderFromCloud env folderId s = (.ok u, s')) :
    storeGet FolderRecord.id folderId s'.cloudFolders = none := by
  unfold deleteFolderFromCloud at h
  split at h
  · cases h
  · split at h
    · cases h
    · cases h
      exact storeGet_storeDelete_self _ _ _

/-- The check of `deleteFolder` is made against the store that answers
the image query: the Remote Mirror when the manager is online with a Firestore
handle and the query is answered, the Local Record Store otherwise. For every folder
that has at least one image of the user in that store, `deleteFolder` fails with
the error `storage/folder-delete-failed` and leaves the local folders store, the
local images store and the sync queue as they were; when the requests on the Local
Record Store succeed, the failure is the one raised for a folder that is not
empty. -/
theorem deleteFolder_not_empty (env : Env) (s : State) (folderId userId : String)
    (h : ∃ r ∈ checkedStore env userId s, r.userId = userId ∧ r.folderId = some folderId) :
    ∃ e s', deleteFolder env folderId userId s = (.error e, s')
      ∧ e.error = "storage/folder-delete-failed"
      ∧ s'.folders = s.folders ∧ s'.images = s.images ∧ s'.queue = s.queue
      ∧ (env.localStoreOk → e = FolderDeleteError.notEmpty) := by
  have hframe := getImages_frame env userId (some folderId) 1 0 s
  have hinv := getImages_ok_inv env userId (some folderId) 1 0 s
  have hlocal := fun hok => getImages_localOk env hok userId (some folderId) 1 0 s
  unfold deleteFolder
  generalize getImages env userId (some folderId) 1 0 s = p at hframe hinv hlocal ⊢
  obtain ⟨res, s1⟩ := p
  cases res with
  | error e =>
    refine ⟨_, s1, rfl, rfl, hframe.1.2.1, hframe.1.1, hframe.2.2.1.1, ?_⟩
    intro hok
    obtain ⟨page, s2, hp⟩ := hlocal hok
    cases hp
  | ok page =>
    have hpos : page.images.length > 0 := by
      rw [hinv s1 page rfl]
      unfold checkedStore at h
      by_cases hc : ((s.isOnlineMode && s.firestore) && !s.fails env (Op.imagesQuery userId))
          = true
      · rw [if_pos hc] at h
        have hc2 : ((s.isOnlineMode && s.firestore) && (decide (1 ≠ 0)
            && !s.fails env (Op.imagesQuery userId))) = true := by simpa using hc
        rw [if_pos hc2]
        refine (first_of_sorted_pos _ (imagesOf_ne_nil userId folderId _ ?_)).1
        obtain ⟨r, hr, hu⟩ := h
        exact ⟨r, List.mem_reverse.mpr hr, hu⟩
      · rw [if_neg hc] at h
        have hc2 : ¬ ((s.isOnlineMode && s.firestore) && (decide (1 ≠ 0)
            && !s.fails env (Op.imagesQuery userId))) = true := by simpa using hc
        rw [if_neg hc2]
        exact (first_of_sorted_pos _ (imagesOf_ne_nil userId folderId _ h)).2
    dsimp only
    rw [if_pos hpos]
    exact ⟨_, s1, rfl, rfl, hframe.1.2.1, hframe.1.1, hframe.2.2.1.1, fun _ => rfl⟩

/-- An instance of `deleteFolder_not_empty`: offline, the local store holds the
folder `F` and an image of `u1` in it. -/
theorem deleteFolder_not_empty_witness :
    (∃ r ∈ checkedStore quietEnv "u1" { folderThenUpload with isOnlineMode := false },
        r.userId = "u1" ∧ r.folderId = some "F")
      ∧ ∃ e s', deleteFolder quietEnv "F" "u1" { folderThenUpload with isOnlineMode := false }
            = (.error e, s')
          ∧ e.error = "storage/folder-delete-failed"
          ∧ s'.folders = [sampleFolder] ∧ s'.images = [sampleRecord]
          ∧ s'.queue = folderThenUpload.queue
          ∧ (quietEnv.localStoreOk → e = FolderDeleteError.notEmpty) :=
  ⟨⟨sampleRecord, List.mem_singleton.mpr rfl, rfl, rfl⟩,
    deleteFolder_not_empty quietEnv { folderThenUpload with isOnlineMode := false } "F" "u1"
      ⟨sampleRecord, List.mem_singleton.mpr rfl, rfl, rfl⟩⟩

/-- C13, amended. For every folder that has no image of the user in either store,
`deleteFolder`, when the requests on the Local Record Store succeed, returns success;
afterwards the local folders store does not contain the folder, and either the
Remote Mirror does not contain it or exactly one `deleteFolder` entry for it has been
appended to the sync queue. -/
theorem deleteFolder_empty (env : Env) (s : State) (folderId userId : String)
    (hloc : env.localStoreOk)
    (hl : ∀ r ∈ s.images, ¬ (r.userId = userId ∧ r.folderId = some folderId))
    (hr : ∀ r ∈ s.cloudImages, ¬ (r.userId = userId ∧ r.folderId = some folderId)) :
    ∃ s', deleteFolder env folderId userId s = (.ok (), s')
      ∧ storeGet FolderRecord.id folderId s'.folders = none
      ∧ (storeGet FolderRecord.id folderId s'.cloudFolders = none
        ∨ ∃ item : SyncItem, s'.queue = s.queue ++ [item]
            ∧ item.data = SyncData.deleteFolder folderId userId
            ∧ item.retries = 0 ∧ item.maxRetries = 3) := by
  have hframe := getImages_frame env userId (some folderId) 1 0 s
  have hinv := getImages_ok_inv env userId (some folderId) 1 0 s
  obtain ⟨page, s1, hp⟩ := getImages_localOk env hloc userId (some folderId) 1 0 s
  have himgs : page.images = [] := by
    rw [hinv s1 page hp, imagesOf_eq_nil userId folderId s.images hl,
      imagesOf_eq_nil userId folderId s.cloudImages.reverse
        (fun r hmem => hr r (List.mem_reverse.mp hmem))]
    simp
  rw [hp] at hframe
  unfold deleteFolder
  rw [hp]
  dsimp only
  rw [if_neg (by rw [himgs]; simp), deleteFolderLocally_localOk env hloc]
  generalize hs2 : ({ s1.did env (Op.foldersDelete folderId) with
      folders := storeDelete FolderRecord.id folderId s1.folders } : State) = s2
  dsimp only
  have hfold : storeGet FolderRecord.id folderId s2.folders = none := by
    rw [← hs2]
    exact storeGet_storeDelete_self _ _ _
  have hq2 : s2.queue = s.queue := by
    rw [← hs2]
    exact hframe.2.2.1.1
  have hcfg2 : (s2.isOnlineMode && s2.firestore) = (s.isOnlineMode && s.firestore) := by
    rw [← hs2]
    show (s1.isOnlineMode && s1.firestore) = _
    rw [hframe.2.1.1, hframe.2.1.2.1]
  by_cases hc : (s2.isOnlineMode && s2.firestore) = true
  · rw [if_pos hc]
    have hcf := deleteFolderFromCloud_frame env folderId s2
    generalize hd : deleteFolderFromCloud env folderId s2 = p at hcf
    obtain ⟨res, s3⟩ := p
    cases res with
    | ok u =>
      refine ⟨s3, rfl, ?_, Or.inl (deleteFolderFromCloud_ok env folderId s2 s3 u hd)⟩
      rw [hcf.1]
      exact hfold
    | error e =>
      dsimp only
      obtain ⟨s4, h4⟩ := addToSyncQueue_localOk env hloc (.deleteFolder folderId userId) s3
      have hfr := addToSyncQueue_frame env (.deleteFolder folderId userId) s3
      have hq := (addToSyncQueue_ok env _ _ _ () h4).1
      have hq3 : s3.queue = s2.queue := by
        have := (deleteFolderFromCloud_ctl env folderId s2).2.1.1
        rw [hd] at this
        exact this
      rw [hq3, hq2] at hq
      rw [h4] at hfr ⊢
      refine ⟨s4, rfl, ?_, Or.inr ⟨_, hq, rfl, rfl, rfl⟩⟩
      rw [hfr.2.2.2, hcf.1]
      exact hfold
  · rw [if_neg hc]
    obtain ⟨s4, h4⟩ := addToSyncQueue_localOk env hloc (.deleteFolder folderId userId) s2
    have hfr := addToSyncQueue_frame env (.deleteFolder folderId userId) s2
    have hq := (addToSyncQueue_ok env _ _ _ () h4).1
    rw [hq2] at hq
    rw [h4] at hfr ⊢
    refine ⟨s4, rfl, ?_, Or.inr ⟨_, hq, rfl, rfl, rfl⟩⟩
    rw [hfr.2.2.2]
    exact hfold

/-- Witness of C13: the folder `F` without images is deleted offline. -/
theorem deleteFolder_empty_witness :
    (quietEnv.localStoreOk
        ∧ (∀ r ∈ emptyFolderState.images, ¬ (r.userId = "u1" ∧ r.folderId = some "F"))
        ∧ (∀ r ∈ emptyFolderState.cloudImages, ¬ (r.userId = "u1" ∧ r.folderId = some "F")))
      ∧ ∃ s', deleteFolder quietEnv "F" "u1" emptyFolderState = (.ok (), s')
          ∧ storeGet FolderRecord.id "F" s'.folders = none
          ∧ (storeGet FolderRecord.id "F" s'.cloudFolders = none
            ∨ ∃ item : SyncItem, s'.queue = emptyFolderState.queue ++ [item]
                ∧ item.data = SyncData.deleteFolder "F" "u1"
                ∧ item.retries = 0 ∧ item.maxRetries = 3) :=
  ⟨⟨quietEnv_localStoreOk, fun _ h => (List.not_mem_nil _ h).elim,
      fun _ h => (List.not_mem_nil _ h).elim⟩,
    deleteFolder_empty quietEnv emptyFolderState "F" "u1" quietEnv_localStoreOk
      (fun _ h => (List.not_mem_nil _ h).elim) (fun _ h => (List.not_mem_nil _ h).elim)⟩

/-! ## Local failures and remote failures -/

/-- The method `saveImage` in three steps: preparation, local write, remote part. -/
theorem saveImage_eq (env : Env) (imageData : ImageInput) (userId : String)
    (folderId : Option String) (s : State) :
    saveImage env imageData userId folderId s
      = match prepareImage env imageData userId folderId s with
        | (_, none, s3) => (some (.error "storage/save-failed"), s3)
        | (imageId, some (imageRecord1, imageBlob), s3) =>
          match saveImageLocally env imageRecord1 imageBlob s3 with
          | (none, s4) => (none, s4)
          | (some (.error _), s4) => (some (.error "storage/save-failed"), s4)
          | (some (.ok imageRecord2), s4) =>
            match saveImageRemote env imageRecord2 imageBlob s4 with
            | (.ok _, s5) => (some (.ok imageId), s5)
            | (.error _, s5) => (some (.error "storage/save-failed"), s5) := by
  unfold saveImage prepareImage
  dsimp only [generateImageId]
  cases imageData.file with
  | none => rfl
  | some file =>
    dsimp only
    by_cases hsz : file.size > 1024 * 1024
    · simp only [if_pos hsz]
      generalize compressImage env file _ = p
      obtain ⟨res, s3⟩ := p
      cases res <;> rfl
    · simp only [if_neg hsz]

theorem prepareImage_frame (env : Env) (imageData : ImageInput) (userId : String)
    (folderId : Option String) (s : State) :
    s.sameCloud (prepareImage env imageData userId folderId s).2.2
      ∧ s.sameQueue (prepareImage env imageData userId folderId s).2.2
      ∧ s.sameConfig (prepareImage env imageData userId folderId s).2.2
      ∧ (prepareImage env imageData userId folderId s).2.2.images = s.images
      ∧ (prepareImage env imageData userId folderId s).2.2.folders = s.folders := by
  unfold prepareImage
  dsimp only [generateImageId]
  cases imageData.file with
  | none => exact ⟨⟨rfl, rfl, rfl⟩, ⟨rfl, rfl⟩, ⟨rfl, rfl, rfl, rfl⟩, rfl, rfl⟩
  | some file =>
    dsimp only
    split
    · unfold compressImage
      generalize env.compressed _ file = c
      cases c <;> exact ⟨⟨rfl, rfl, rfl⟩, ⟨rfl, rfl⟩, ⟨rfl, rfl, rfl, rfl⟩, rfl, rfl⟩
    · exact ⟨⟨rfl, rfl, rfl⟩, ⟨rfl, rfl⟩, ⟨rfl, rfl, rfl, rfl⟩, rfl, rfl⟩

theorem prepareImage_some (env : Env) (hcomp : ∀ n b, (env.compressed n b).isSome = true)
    (imageData : ImageInput) (userId : String) (folderId : Option String) (s : State) :
    ∃ imageId rec blob s3,
      prepareImage env imageData userId folderId s = (imageId, some (rec, blob), s3) := by
  unfold prepareImage
  dsimp only [generateImageId]
  cases imageData.file with
  | none => exact ⟨_, _, _, _, rfl⟩
  | some file =>
    dsimp only
    split
    · unfold compressImage
      obtain ⟨b, hb⟩ := Option.isSome_iff_exists.mp (hcomp (s.tick.tick).log.length file)
      rw [hb]
      exact ⟨_, _, _, _, rfl⟩
    · exact ⟨_, _, _, _, rfl⟩

theorem updateImageLocally_localOk (env : Env) (hok : env.localStoreOk) (r : ImageRecord)
    (s : State) : ∃ s', updateImageLocally env r s = (.ok r, s') := by
  unfold updateImageLocally
  rw [if_neg (by rw [localStoreOk_fails env hok s (Op.imagesPut r.id) rfl]; simp)]
  exact ⟨_, rfl⟩

theorem saveImageLocally_localOk (env : Env) (hok : env.localStoreOk) (r : ImageRecord)
    (s : State) : ∃ s', saveImageLocally env r none s = (some (.ok r), s') := by
  unfold saveImageLocally
  obtain ⟨s', h⟩ := updateImageLocally_localOk env hok r s
  dsimp only
  rw [h]
  exact ⟨s', rfl⟩

/-- With a blob the promise of `saveImageLocally` never resolves: it stays pending,
or rejects when the reader fails, and the local images store is as before. -/
theorem saveImageLocally_payload (env : Env) (r : ImageRecord) (b : Blob) (s : State) :
    ((saveImageLocally env r (some b) s).1 = none
        ∨ (saveImageLocally env r (some b) s).1 = some (.error (.rejected Op.readAsDataURL)))
      ∧ (saveImageLocally env r (some b) s).2 = s.did env Op.readAsDataURL := by
  unfold saveImageLocally
  dsimp only
  split
  · exact ⟨Or.inr rfl, rfl⟩
  · exact ⟨Or.inl rfl, rfl⟩

theorem saveImageRemote_localOk (env : Env) (hok : env.localStoreOk) (r : ImageRecord)
    (b : Option Blob) (s : State) : ∃ s', saveImageRemote env r b s = (.ok (), s') := by
  unfold saveImageRemote
  split
  · generalize saveImageToCloud env r b s = p
    obtain ⟨res, s1⟩ := p
    cases res with
    | error e => exact addToSyncQueue_localOk env hok _ s1
    | ok url =>
      dsimp only
      obtain ⟨s2, h2⟩ := updateImageLocally_localOk env hok
        { r with cloudUrl := some url, syncStatus := .synced } s1
      rw [h2]
      exact ⟨s2, rfl⟩
  · split
    · exact addToSyncQueue_localOk env hok _ s
    · exact ⟨s, rfl⟩

theorem saveImageLocally_error (env : Env) (r : ImageRecord) (b : Option Blob) (s s' : State)
    (e : Err) (h : saveImageLocally env r b s = (some (.error e), s')) :
    s'.images = s.images := by
  have hfr := saveImageLocally_frame env r b s
  unfold saveImageLocally at h
  cases b with
  | none =>
    dsimp only at h
    unfold updateImageLocally at h
    split at h
    · cases h
      rfl
    · cases h
  | some blob =>
    dsimp only at h
    split at h
    · cases h
      rfl
    · cases h

theorem deleteImageLocally_localOk (env : Env) (hok : env.localStoreOk) (imageId : String)
    (s : State) :
    deleteImageLocally env imageId s
      = (.ok (), { s.did env (Op.imagesDelete imageId) with
                   images := storeDelete ImageRecord.id imageId s.images }) := by
  unfold deleteImageLocally
  rw [if_neg (by rw [localStoreOk_fails env hok s (Op.imagesDelete imageId) rfl]; simp)]

theorem deleteImageFromCloud_folders (env : Env) (imageId : String) (s : State) :
    (deleteImageFromCloud env imageId s).2.folders = s.folders := by
  have hdoc : ∀ t : State, (deleteImageDoc env imageId t).2.folders = t.folders := by
    intro t
    unfold deleteImageDoc
    split <;> rfl
  unfold deleteImageFromCloud
  split
  · rfl
  · split
    · rfl
    · dsimp only
      split
      · rfl
      · split
        · exact hdoc _
        · split
          · exact hdoc _
          · split
            · rfl
            · split
              · rfl
              · exact hdoc _

/-- When the requests on the Local Record Store succeed, `deleteImage` returns
success: the record is deleted from the local images store, and either the manager
is online with a Firestore handle, the Remote Mirror holds no record of the id and
the queue is unchanged, or one `delete` entry has been appended to the queue. -/
theorem deleteImage_localOk (env : Env) (hloc : env.localStoreOk) (imageId userId : String)
    (s : State) :
    ∃ s', deleteImage env imageId userId s = (.ok (), s')
      ∧ s'.images = storeDelete ImageRecord.id imageId s.images
      ∧ s'.folders = s.folders
      ∧ ((s'.queue = s.queue ∧ (s.isOnlineMode && s.firestore) = true
            ∧ storeGet ImageRecord.id imageId s'.cloudImages = none)
        ∨ ∃ item : SyncItem, s'.queue = s.queue ++ [item]
            ∧ item.data = SyncData.delete imageId userId
            ∧ item.retries = 0 ∧ item.maxRetries = 3) := by
  unfold deleteImage
  rw [deleteImageLocally_localOk env hloc]
  generalize hs1 : ({ s.did env (Op.imagesDelete imageId) with
      images := storeDelete ImageRecord.id imageId s.images } : State) = s1
  dsimp only
  have him : s1.images = storeDelete ImageRecord.id imageId s.images := by rw [← hs1]
  have hfo : s1.folders = s.folders := by rw [← hs1]; rfl
  have hq1 : s1.queue = s.queue := by rw [← hs1]; rfl
  have hcfg : (s1.isOnlineMode && s1.firestore) = (s.isOnlineMode && s.firestore) := by
    rw [← hs1]; rfl
  by_cases hc : (s1.isOnlineMode && s1.firestore) = true
  · rw [if_pos hc]
    have hci := deleteImageFromCloud_images env imageId s1
    have hcf := deleteImageFromCloud_folders env imageId s1
    have hcc := (deleteImageFromCloud_ctl env imageId s1).2.1.1
    generalize hd : deleteImageFromCloud env imageId s1 = p at hci hcf hcc
    obtain ⟨res, s2⟩ := p
    cases res with
    | ok u =>
      refine ⟨s2, rfl, hci.trans him, hcf.trans hfo, Or.inl ⟨hcc.trans hq1, ?_,
        deleteImageFromCloud_ok env imageId s1 s2 u hd⟩⟩
      rw [← hcfg]
      exact hc
    | error e =>
      dsimp only
      obtain ⟨s3, h3⟩ := addToSyncQueue_localOk env hloc (.delete imageId userId) s2
      have hfr := addToSyncQueue_frame env (.delete imageId userId) s2
      have hq := (addToSyncQueue_ok env _ _ _ () h3).1
      rw [show s2.queue = s.queue from hcc.trans hq1] at hq
      rw [h3] at hfr ⊢
      exact ⟨s3, rfl, (hfr.2.2.1.trans hci).trans him, (hfr.2.2.2.trans hcf).trans hfo,
        Or.inr ⟨_, hq, rfl, rfl, rfl⟩⟩
  · rw [if_neg hc]
    obtain ⟨s3, h3⟩ := addToSyncQueue_localOk env hloc (.delete imageId userId) s1
    have hfr := addToSyncQueue_frame env (.delete imageId userId) s1
    have hq := (addToSyncQueue_ok env _ _ _ () h3).1
    rw [hq1] at hq
    rw [h3] at hfr ⊢
    exact ⟨s3, rfl, hfr.2.2.1.trans him, hfr.2.2.2.trans hfo, Or.inr ⟨_, hq, rfl, rfl, rfl⟩⟩

theorem remoteDownEnv_localStoreOk : remoteDownEnv.localStoreOk := by
  intro n op h
  cases op <;> first | rfl | cases h

/-- C15, amended. Whenever every operation on the Local Record Store succeeds,
`saveImage` of an image without a binary payload and `deleteImage` return success
whatever the Remote Mirror does and whatever the mode and the Firebase handles
are. -/
theorem remote_failures_not_fatal (env : Env) (s : State) (imageData : ImageInput)
    (userId imageId : String) (folderId : Option String)
    (hloc : env.localStoreOk) (hfile : imageData.file = none) :
    (∃ newId s', saveImage env imageData userId folderId s = (some (.ok newId), s'))
      ∧ ∃ s', deleteImage env imageId userId s = (.ok (), s') := by
  constructor
  · have hprep : ∃ newId rec s3,
        prepareImage env imageData userId folderId s = (newId, some (rec, none), s3) := by
      unfold prepareImage
      dsimp only [generateImageId]
      rw [hfile]
      exact ⟨_, _, _, rfl⟩
    obtain ⟨newId, rec, s3, hprep⟩ := hprep
    obtain ⟨s4, hsave⟩ := saveImageLocally_localOk env hloc rec s3
    obtain ⟨s5, hrem⟩ := saveImageRemote_localOk env hloc rec none s4
    rw [saveImage_eq, hprep]
    dsimp only
    rw [hsave]
    dsimp only
    rw [hrem]
    exact ⟨newId, s5, rfl⟩
  · obtain ⟨s', h, -⟩ := deleteImage_localOk env hloc imageId userId s
    exact ⟨s', h⟩

/-- Witness of C15: online with both handles, every request on the Remote Mirror
rejects, and the image has no binary payload. -/
theorem remote_failures_not_fatal_witness :
    (remoteDownEnv.localStoreOk ∧ bareInput.file = none
        ∧ ∀ n op, op.isRemote = true → remoteDownEnv.fails n op = true)
      ∧ (∃ newId s', saveImage remoteDownEnv bareInput "u1" none onlineState
          = (some (.ok newId), s'))
      ∧ ∃ s', deleteImage remoteDownEnv "img1" "u1" onlineState = (.ok (), s') :=
  ⟨⟨remoteDownEnv_localStoreOk, rfl, fun _ _ h => h⟩,
    remote_failures_not_fatal remoteDownEnv onlineState bareInput "u1" "img1" none
      remoteDownEnv_localStoreOk rfl⟩

/-- A `saveImage` call with a binary payload never returns success and stores
nothing: it never returns, or it fails with `storage/save-failed` (the canvas yields
no blob, or the reader fails), and the local images store, the Remote Mirror and
the sync queue are as before the call. -/
theorem saveImage_payload (env : Env) (imageData : ImageInput) (file : Blob)
    (userId : String) (folderId : Option String) (s : State)
    (hfile : imageData.file = some file) :
    ((saveImage env imageData userId folderId s).1 = none
        ∨ (saveImage env imageData userId folderId s).1 = some (.error "storage/save-failed"))
      ∧ (saveImage env imageData userId folderId s).2.images = s.images
      ∧ s.sameCloud (saveImage env imageData userId folderId s).2
      ∧ s.sameQueue (saveImage env imageData userId folderId s).2 := by
  have hpf := prepareImage_frame env imageData userId folderId s
  have hblob : ∀ newId rec blob s3,
      prepareImage env imageData userId folderId s = (newId, some (rec, blob), s3) →
      ∃ b, blob = some b := by
    intro newId rec blob s3 h
    unfold prepareImage at h
    dsimp only [generateImageId] at h
    rw [hfile] at h
    dsimp only at h
    split at h
    · split at h
      · cases h
      · cases h
        exact ⟨_, rfl⟩
    · cases h
      exact ⟨_, rfl⟩
  rw [saveImage_eq]
  generalize hp : prepareImage env imageData userId folderId s = p at hpf hblob
  obtain ⟨newId, prepared, s3⟩ := p
  cases prepared with
  | none => exact ⟨Or.inr rfl, hpf.2.2.2.1, hpf.1, hpf.2.1⟩
  | some pair =>
    obtain ⟨rec, blob⟩ := pair
    obtain ⟨b, hb⟩ := hblob newId rec blob s3 rfl
    subst hb
    dsimp only at hpf ⊢
    obtain ⟨hres, hst⟩ := saveImageLocally_payload env rec b s3
    generalize saveImageLocally env rec (some b) s3 = q at hres hst
    obtain ⟨res, s4⟩ := q
    dsimp only at hres hst
    subst hst
    rcases hres with h1 | h1
    · subst h1
      exact ⟨Or.inl rfl, hpf.2.2.2.1, hpf.1, hpf.2.1⟩
    · subst h1
      exact ⟨Or.inr rfl, hpf.2.2.2.1, hpf.1, hpf.2.1⟩

/-- C16, at the failing input: an image with a binary payload is saved on an online
manager with Firebase configured. The reader delivers the payload, the put into the
`images` store throws inside the reader's handler and the local write has failed:
the local images store holds nothing. The call does not fail with
`storage/save-failed`; it never returns. The same happens offline, and when the
`images` store would reject the request, since the request is never placed. -/
theorem saveImage_payload_write_failure_unreported :
    (saveImage quietEnv sampleInput "u1" none onlineState).1 = none
      ∧ (saveImage quietEnv sampleInput "u1" none onlineState).1
          ≠ some (.error "storage/save-failed")
      ∧ (saveImage quietEnv sampleInput "u1" none onlineState).2.images = []
      ∧ (saveImage quietEnv sampleInput "u1" none onlineState).2.log
          = [Event.read, Event.read, Event.io Op.readAsDataURL false]
      ∧ (saveImage localPutDownEnv sampleInput "u1" none (State.init true)).1 = none
      ∧ (saveImage localPutDownEnv sampleInput "u1" none (State.init true)).2.log
          = [Event.read, Event.read, Event.io Op.readAsDataURL false]
      ∧ (saveImage localPutDownEnv bareInput "u1" none (State.init true)).1
          = some (.error "storage/save-failed")
      ∧ (deleteImage imageDeleteDownEnv "img1" "u1" pendingImageState).1
          = .error "storage/delete-failed" := by
  refine ⟨rfl, ?_, rfl, rfl, rfl, rfl, rfl, rfl⟩
  intro h
  cases h

/-- C17, amended. For every `imageId` that is not in the Local Record Store,
`deleteImage` surfaces no error for the missing record: when the requests on the
Local Record Store succeed it returns success and leaves the local images store as
it was; either the manager is online with a Firestore handle, the Remote Mirror
holds no record of the id and the sync queue is unchanged, or one `delete` entry
for the id has been appended to the sync queue. -/
theorem deleteImage_absent (env : Env) (s : State) (imageId userId : String)
    (habs : storeGet ImageRecord.id imageId s.images = none) (hloc : env.localStoreOk) :
    ∃ s', deleteImage env imageId userId s = (.ok (), s')
      ∧ s'.images = s.images
      ∧ ((s'.queue = s.queue ∧ (s.isOnlineMode && s.firestore) = true
            ∧ storeGet ImageRecord.id imageId s'.cloudImages = none)
        ∨ ∃ item : SyncItem, s'.queue = s.queue ++ [item]
            ∧ item.data = SyncData.delete imageId userId
            ∧ item.retries = 0 ∧ item.maxRetries = 3) := by
  obtain ⟨s', h, him, -, hq⟩ := deleteImage_localOk env hloc imageId userId s
  refine ⟨s', h, ?_, hq⟩
  rw [him]
  exact storeDelete_of_forall_ne _ _ _ ((storeGet_eq_none_iff _ _ _).mp habs)

/-- Witness of C17: the id `ghost` on a fresh offline manager. -/
theorem deleteImage_absent_witness :
    (storeGet ImageRecord.id "ghost" (State.init true).images = none ∧ quietEnv.localStoreOk)
      ∧ ∃ s', deleteImage quietEnv "ghost" "u1" (State.init true) = (.ok (), s')
          ∧ s'.images = (State.init true).images
          ∧ ((s'.queue = (State.init true).queue
                ∧ ((State.init true).isOnlineMode && (State.init true).firestore) = true
                ∧ storeGet ImageRecord.id "ghost" s'.cloudImages = none)
            ∨ ∃ item : SyncItem, s'.queue = (State.init true).queue ++ [item]
                ∧ item.data = SyncData.delete "ghost" "u1"
                ∧ item.retries = 0 ∧ item.maxRetries = 3) :=
  ⟨⟨rfl, quietEnv_localStoreOk⟩,
    deleteImage_absent quietEnv (State.init true) "ghost" "u1" rfl quietEnv_localStoreOk⟩

/-! ## The drain pass keeps the local records -/

theorem mem_keys_storePut {α κ : Type} [DecidableEq κ] [KeyOrd κ] (key : α → κ) (r : α)
    (k : κ) : ∀ xs : List α, k ∈ xs.map key → k ∈ (storePut key r xs).map key := by
  intro xs
  induction xs with
  | nil => intro h; cases h
  | cons x xs ih =>
    intro h
    unfold storePut
    split
    · exact List.mem_cons_of_mem _ h
    · split
      · rename_i heq
        rw [List.map_cons, List.mem_cons] at h
        rw [List.map_cons, List.mem_cons]
        rcases h with h | h
        · left
          rw [h, heq]
        · right
          exact h
      · rw [List.map_cons, List.mem_cons] at h
        rw [List.map_cons, List.mem_cons]
        rcases h with h | h
        · left
          exact h
        · right
          exact ih h

theorem keepsRecords_refl (s : State) : s.keepsRecords s := ⟨fun _ h => h, fun _ h => h⟩

theorem keepsRecords_trans {s t u : State} (h1 : s.keepsRecords t) (h2 : t.keepsRecords u) :
    s.keepsRecords u :=
  ⟨fun k h => h2.1 k (h1.1 k h), fun k h => h2.2 k (h1.2 k h)⟩

theorem keepsRecords_of_eq {s t : State} (hi : t.images = s.images)
    (hf : t.folders = s.folders) : s.keepsRecords t := by
  unfold State.keepsRecords
  rw [hi, hf]
  exact ⟨fun _ h => h, fun _ h => h⟩

theorem updateImageLocally_keeps (env : Env) (r : ImageRecord) (s : State) :
    s.keepsRecords (updateImageLocally env r s).2 := by
  refine ⟨?_, ?_⟩
  · intro k h
    rw [updateImageLocally_images]
    split
    · exact h
    · exact mem_keys_storePut ImageRecord.id r k s.images h
  · intro k h
    rw [(updateImageLocally_frame env r s).2.2.2]
    exact h

theorem saveFolderLocally_keeps (env : Env) (f : FolderRecord) (s : State) :
    s.keepsRecords (saveFolderLocally env f s).2 := by
  unfold saveFolderLocally
  split
  · exact keepsRecords_of_eq rfl rfl
  · exact ⟨fun _ h => h, fun k h => mem_keys_storePut FolderRecord.id f k s.folders h⟩

theorem saveFolderToCloud_frame (env : Env) (f : FolderRecord) (s : State) :
    (saveFolderToCloud env f s).2.images = s.images
      ∧ (saveFolderToCloud env f s).2.folders = s.folders := by
  unfold saveFolderToCloud
  split
  · exact ⟨rfl, rfl⟩
  · split <;> exact ⟨rfl, rfl⟩

theorem keepsRecords_of_pair {α : Type} {f : Except Err α × State} {s : State}
    {res : Except Err α} {s' : State} (heq : f = (res, s')) (h : s.keepsRecords f.2) :
    s.keepsRecords s' := by
  rw [heq] at h
  exact h

theorem processSyncItem_keeps (env : Env) (item : SyncItem) (s : State) :
    s.keepsRecords (processSyncItem env item s).2.2 := by
  unfold processSyncItem
  cases item.data with
  | upload record =>
    dsimp only
    cases record.imageData with
    | none => exact keepsRecords_refl s
    | some blob =>
      dsimp only
      split
      · exact keepsRecords_of_eq rfl rfl
      · have h1 := saveImageToCloud_frame env record (some blob) (s.did env Op.fetchDataURL)
        generalize saveImageToCloud env record (some blob) (s.did env Op.fetchDataURL) = p
          at h1 ⊢
        obtain ⟨res, s1⟩ := p
        have hk1 : s.keepsRecords s1 := keepsRecords_of_eq h1.2.2.1 h1.2.2.2.1
        cases res with
        | error e => exact hk1
        | ok url =>
          dsimp only
          have h2 := updateImageLocally_keeps env
            { record with cloudUrl := some url, syncStatus := .synced, imageData := some blob } s1
          generalize updateImageLocally env
            { record with cloudUrl := some url, syncStatus := .synced,
                          imageData := some blob } s1 = q at h2 ⊢
          obtain ⟨res2, s2⟩ := q
          cases res2 <;> exact keepsRecords_trans hk1 h2
  | delete id u =>
    dsimp only
    exact keepsRecords_of_eq (deleteImageFromCloud_images env id s)
      (deleteImageFromCloud_folders env id s)
  | createFolder folder =>
    dsimp only
    have h1 := saveFolderToCloud_frame env folder s
    generalize saveFolderToCloud env folder s = p at h1 ⊢
    obtain ⟨res, s1⟩ := p
    have hk1 : s.keepsRecords s1 := keepsRecords_of_eq h1.1 h1.2
    cases res with
    | error e => exact hk1
    | ok u =>
      dsimp only
      unfold updateFolderLocally
      have h2 := saveFolderLocally_keeps env { folder with syncStatus := .synced } s1
      generalize saveFolderLocally env { folder with syncStatus := .synced } s1 = q at h2 ⊢
      obtain ⟨res2, s2⟩ := q
      cases res2 <;> exact keepsRecords_trans hk1 h2
  | deleteFolder id u =>
    dsimp only
    exact keepsRecords_of_eq (deleteFolderFromCloud_frame env id s).2
      (deleteFolderFromCloud_frame env id s).1

theorem processSyncStep_keeps (env : Env) (item : SyncItem) (s : State) :
    s.keepsRecords (processSyncStep env item s).2 := by
  obtain ⟨hst, -, -⟩ := processSyncStep_general env item s
  exact keepsRecords_trans (processSyncItem_keeps env item s) (keepsRecords_of_eq hst.1 hst.2.1)

theorem processSyncItems_keeps (env : Env) :
    ∀ (items : List SyncItem) (s : State), s.keepsRecords (processSyncItems env items s).2 := by
  intro items
  induction items with
  | nil => intro s; exact keepsRecords_refl s
  | cons item rest ih =>
    intro s
    unfold processSyncItems
    have h1 := processSyncStep_keeps env item s
    generalize processSyncStep env item s = p at h1 ⊢
    obtain ⟨res, s1⟩ := p
    cases res with
    | error e => exact h1
    | ok u => exact keepsRecords_trans h1 (ih s1)

/-- C18. `processSyncQueue` never removes an image or folder record from the Local
Record Store: every id of an image record, and every id of a folder record, that is
in the local store before a pass is in it after the pass, whatever the outcome of
the replays and of the requests, and so also for a record whose entry is dropped
after `maxRetries`. -/
theorem processSyncQueue_keeps_local_records (env : Env) (s : State) :
    (∀ k, k ∈ s.images.map ImageRecord.id →
        k ∈ (processSyncQueue env s).images.map ImageRecord.id)
      ∧ ∀ k, k ∈ s.folders.map FolderRecord.id →
        k ∈ (processSyncQueue env s).folders.map FolderRecord.id := by
  show s.keepsRecords (processSyncQueue env s)
  unfold processSyncQueue
  split
  · exact keepsRecords_refl s
  · unfold getSyncQueue
    by_cases hf : s.fails env Op.queueGetAll = true
    · rw [if_pos hf]
      exact keepsRecords_of_eq rfl rfl
    · rw [if_neg hf]
      exact keepsRecords_trans (keepsRecords_of_eq rfl rfl)
        (processSyncItems_keeps env s.queue (s.did env Op.queueGetAll))

/-- Witness of C18: the third pass of `flakyEnv` over `queuedState` drops the entry
of image `img1`, whose upload has failed three times; the record stays. -/
theorem processSyncQueue_keeps_local_records_witness :
    "img1" ∈ (processSyncQueue flakyEnv (processSyncQueue flakyEnv queuedState)).images.map
        ImageRecord.id
      ∧ (processSyncQueue flakyEnv (processSyncQueue flakyEnv queuedState)).queue.map
          (fun item => (item.id, item.retries)) = [(1, 2)]
      ∧ (processSyncQueue flakyEnv (processSyncQueue flakyEnv
          (processSyncQueue flakyEnv queuedState))).queue = []
      ∧ "img1" ∈ (processSyncQueue flakyEnv (processSyncQueue flakyEnv
          (processSyncQueue flakyEnv queuedState))).images.map ImageRecord.id :=
  ⟨by decide, rfl, rfl,
    (processSyncQueue_keeps_local_records flakyEnv
      (processSyncQueue flakyEnv (processSyncQueue flakyEnv queuedState))).1 "img1"
      (by decide)⟩

/-! ## Replaying an entry twice -/

theorem keyLt_irrefl_string (k : String) : KeyOrd.lt k k = false := by
  show decide (k.data < k.data) = false
  exact decide_eq_false (lt_irrefl k.data)

theorem storePut_idem {α κ : Type} [DecidableEq κ] [KeyOrd κ] (key : α → κ)
    (hirr : ∀ k : κ, KeyOrd.lt k k = false) (r : α) :
    ∀ xs : List α, storePut key r (storePut key r xs) = storePut key r xs := by
  intro xs
  induction xs with
  | nil =>
    show storePut key r [r] = [r]
    unfold storePut
    rw [if_neg (by rw [hirr]; simp), if_pos rfl]
  | cons x xs ih =>
    by_cases h1 : KeyOrd.lt (key r) (key x) = true
    · have e1 : storePut key r (x :: xs) = r :: x :: xs := by
        rw [storePut, if_pos h1]
      rw [e1, storePut, if_neg (by rw [hirr]; simp), if_pos rfl]
    · by_cases h2 : key r = key x
      · have e1 : storePut key r (x :: xs) = r :: xs := by
          rw [storePut, if_neg h1, if_pos h2]
        rw [e1, storePut, if_neg (by rw [hirr]; simp), if_pos rfl]
      · have e1 : storePut key r (x :: xs) = x :: storePut key r xs := by
          rw [storePut, if_neg h1, if_neg h2]
        rw [e1, storePut, if_neg h1, if_neg h2, ih]

theorem saveImageToCloud_ok_state (env : Env) (r : ImageRecord) (b : Blob) (s s' : State)
    (url : String) (h : saveImageToCloud env r (some b) s = (.ok url, s')) :
    (∃ n, url = env.downloadURL n (storagePathOf r))
      ∧ s'.cloudFiles = storePut Prod.fst (storagePathOf r, b) s.cloudFiles
      ∧ s'.cloudImages = storePut ImageRecord.id
          { r with imageData := none, cloudUrl := some url,
                   storagePath := some (storagePathOf r) } s.cloudImages := by
  unfold saveImageToCloud at h
  dsimp only at h
  split at h
  · simp at h
  · split at h
    · simp at h
    · split at h
      · simp at h
      · split at h
        · simp at h
        · split at h
          · simp at h
          · simp only [Prod.mk.injEq, Except.ok.injEq] at h
            obtain ⟨h1, h2⟩ := h
            subst h1 h2
            exact ⟨⟨_, rfl⟩, rfl, rfl⟩

/-- The stores after a successful replay of an `upload` entry with a payload. -/
theorem processSyncItem_upload_state (env : Env) (item : SyncItem) (s : State)
    (rec : ImageRecord) (b : Blob) (hd : item.data = SyncData.upload rec)
    (hb : rec.imageData = some b) (hok : (processSyncItem env item s).1.toBool = true) :
    ∃ n, (processSyncItem env item s).2.2.cloudFiles
          = storePut Prod.fst (storagePathOf rec, b) s.cloudFiles
      ∧ (processSyncItem env item s).2.2.cloudImages
          = storePut ImageRecord.id
              { rec with imageData := none,
                         cloudUrl := some (env.downloadURL n (storagePathOf rec)),
                         storagePath := some (storagePathOf rec) } s.cloudImages
      ∧ (processSyncItem env item s).2.2.images
          = storePut ImageRecord.id
              { rec with cloudUrl := some (env.downloadURL n (storagePathOf rec)),
                         syncStatus := .synced, imageData := some b } s.images
      ∧ (processSyncItem env item s).2.2.folders = s.folders
      ∧ (processSyncItem env item s).2.2.cloudFolders = s.cloudFolders := by
  revert hok
  unfold processSyncItem
  rw [hd]
  dsimp only
  rw [hb]
  dsimp only
  split
  · intro hok
    simp [Except.toBool] at hok
  · have hfr := saveImageToCloud_frame env rec (some b) (s.did env Op.fetchDataURL)
    generalize hc : saveImageToCloud env rec (some b) (s.did env Op.fetchDataURL) = p at hfr
    obtain ⟨res, s1⟩ := p
    cases res with
    | error e =>
      intro hok
      simp [Except.toBool] at hok
    | ok url =>
      dsimp only
      obtain ⟨⟨n, hn⟩, hfiles, hdocs⟩ := saveImageToCloud_ok_state env rec b _ s1 url hc
      have hlf := updateImageLocally_frame env
        { rec with cloudUrl := some url, syncStatus := .synced, imageData := some b } s1
      generalize hu : updateImageLocally env
        { rec with cloudUrl := some url, syncStatus := .synced, imageData := some b } s1 = q
        at hlf
      obtain ⟨res2, s2⟩ := q
      cases res2 with
      | error e =>
        intro hok
        simp [Except.toBool] at hok
      | ok r2 =>
        intro _
        dsimp only
        obtain ⟨-, himg⟩ := updateImageLocally_ok env _ r2 s1 s2 hu
        refine ⟨n, ?_, ?_, ?_, ?_, ?_⟩
        · rw [hlf.2.2.1.2.2, hfiles]
          rfl
        · rw [hlf.2.2.1.1, hdocs, hn]
          rfl
        · rw [himg, hfr.2.2.1, hn]
          rfl
        · rw [hlf.2.2.2, hfr.2.2.2.1]
          rfl
        · rw [hlf.2.2.1.2.1, hfr.2.2.2.2]
          rfl

theorem deleteImageFromCloud_absent (env : Env) (imageId : String) (s : State)
    (h : storeGet ImageRecord.id imageId s.cloudImages = none) :
    s.sameStores (deleteImageFromCloud env imageId s).2 := by
  unfold deleteImageFromCloud
  split
  · exact sameStores_refl s
  · split
    · exact ⟨rfl, rfl, rfl, rfl, rfl⟩
    · dsimp only
      have h1 : storeGet ImageRecord.id imageId (s.did env (Op.imageDocGet imageId)).cloudImages
          = none := h
      rw [h1]
      exact ⟨rfl, rfl, rfl, rfl, rfl⟩

/-- C19, amended. Replaying the same persisted `upload` entry, or the same `delete`
entry, twice in a row with `processSyncItem`, both replays succeeding and
`getDownloadURL` resolving to the same URL for the same path each time, leaves the
Remote Mirror and the Local Record Store in the same state as replaying once. -/
theorem replay_twice_same_stores (env : Env) (item : SyncItem) (s : State)
    (hkind : (∃ rec, item.data = SyncData.upload rec)
      ∨ ∃ id userId, item.data = SyncData.delete id userId)
    (hurl : ∀ n m path, env.downloadURL n path = env.downloadURL m path)
    (h1 : (processSyncItem env item s).1.toBool = true)
    (h2 : (processSyncItem env item (processSyncItem env item s).2.2).1.toBool = true) :
    ((processSyncItem env item s).2.2).sameStores
      (processSyncItem env item (processSyncItem env item s).2.2).2.2 := by
  rcases hkind with ⟨rec, hd⟩ | ⟨id, u, hd⟩
  · cases hb : rec.imageData with
    | none =>
      have hnone : ∀ t, processSyncItem env item t = (.ok (), item, t) := by
        intro t
        unfold processSyncItem
        rw [hd]
        dsimp only
        rw [hb]
      rw [hnone s, hnone s]
      exact sameStores_refl s
    | some b =>
      obtain ⟨n, hf1, hd1, hi1, hfo1, hcf1⟩ :=
        processSyncItem_upload_state env item s rec b hd hb h1
      obtain ⟨m, hf2, hd2, hi2, hfo2, hcf2⟩ :=
        processSyncItem_upload_state env item _ rec b hd hb h2
      refine ⟨?_, hfo2, ?_, hcf2, ?_⟩
      · rw [hi2, hi1, hurl m n]
        exact storePut_idem ImageRecord.id keyLt_irrefl_string _ _
      · rw [hd2, hd1, hurl m n]
        exact storePut_idem ImageRecord.id keyLt_irrefl_string _ _
      · rw [hf2, hf1]
        exact storePut_idem Prod.fst keyLt_irrefl_string _ _
  · have e1 : ∀ t, processSyncItem env item t
        = ((deleteImageFromCloud env id t).1, item, (deleteImageFromCloud env id t).2) := by
      intro t
      unfold processSyncItem
      rw [hd]
    rw [e1 s] at h1 ⊢
    dsimp only at h1 ⊢
    rw [e1]
    dsimp only
    generalize hc : deleteImageFromCloud env id s = p at h1 ⊢
    obtain ⟨res, s1⟩ := p
    cases res with
    | error e => simp [Except.toBool] at h1
    | ok v =>
      dsimp only
      exact deleteImageFromCloud_absent env id s1 (deleteImageFromCloud_ok env id s s1 v hc)

/-- Witness of C19: the `upload` entry of image `img1` is replayed twice, no request
rejects and the download URL is a function of the path. -/
theorem replay_twice_same_stores_witness :
    ((∃ rec, uploadItem.data = SyncData.upload rec)
        ∧ (∀ n m path, quietEnv.downloadURL n path = quietEnv.downloadURL m path)
        ∧ (processSyncItem quietEnv uploadItem pendingImageState).1.toBool = true
        ∧ (processSyncItem quietEnv uploadItem
            (processSyncItem quietEnv uploadItem pendingImageState).2.2).1.toBool = true)
      ∧ ((processSyncItem quietEnv uploadItem pendingImageState).2.2).sameStores
          (processSyncItem quietEnv uploadItem
            (processSyncItem quietEnv uploadItem pendingImageState).2.2).2.2 :=
  ⟨⟨⟨sampleRecord, rfl⟩, fun _ _ _ => rfl, rfl, rfl⟩,
    replay_twice_same_stores quietEnv uploadItem pendingImageState
      (Or.inl ⟨sampleRecord, rfl⟩) (fun _ _ _ => rfl) rfl rfl⟩

/-! ## The guard of the drain pass -/

/-- C29. `processSyncQueue` called while the manager is offline, or while it has no
Firestore handle, returns the state it was called in: no replay is attempted, and
the sync queue with the `retries` of every entry, the Local Record Store and the
Remote Mirror are unchanged. -/
theorem processSyncQueue_offline_noop (env : Env) (s : State)
    (h : s.isOnlineMode = false ∨ s.firestore = false) :
    processSyncQueue env s = s
      ∧ replays (processSyncQueue env s).log = replays s.log := by
  have heq : processSyncQueue env s = s := by
    unfold processSyncQueue
    rw [if_pos]
    rcases h with h | h <;> simp [h]
  rw [heq]
  exact ⟨rfl, rfl⟩

/-- Witness of C29: the three queued entries of `queuedState`, offline. -/
theorem processSyncQueue_offline_noop_witness :
    (({ queuedState with isOnlineMode := false } : State).isOnlineMode = false
        ∨ ({ queuedState with isOnlineMode := false } : State).firestore = false)
      ∧ (processSyncQueue remoteDownEnv { queuedState with isOnlineMode := false }
            = { queuedState with isOnlineMode := false }
        ∧ replays (processSyncQueue remoteDownEnv
            { queuedState with isOnlineMode := false }).log
          = replays ({ queuedState with isOnlineMode := false } : State).log)
      ∧ (processSyncQueue remoteDownEnv { queuedState with isOnlineMode := false }).queue.map
          (fun item => (item.id, item.retries)) = [(1, 0), (2, 0), (3, 2)] :=
  ⟨Or.inl rfl,
    processSyncQueue_offline_noop remoteDownEnv { queuedState with isOnlineMode := false }
      (Or.inl rfl), rfl⟩

/-! ## Tags -/

/-- C22, at an input where the claim fails: the prompt `Red red fox` gives the tag
`red` twice. -/
theorem extractTags_repeats_word :
    extractTags "Red red fox" = ["red", "red", "fox"]
      ∧ ¬ (extractTags "Red red fox").Nodup :=
  ⟨rfl, by decide⟩

/-- C22, amended. The tags that `saveImage` stores are a list: the first ten key
words of the prompt (the words of the lower-cased prompt that are longer than two
characters and are not common words), in the order and with the repetitions of the
prompt. They contain no string twice when no key word occurs twice in the prompt. -/
theorem extractTags_keywords (prompt : String) :
    extractTags prompt = (keywords prompt).take 10
      ∧ ((keywords prompt).Nodup → (extractTags prompt).Nodup) := by
  have h : extractTags prompt = (keywords prompt).take 10 := rfl
  refine ⟨h, fun hn => ?_⟩
  rw [h]
  exact hn.sublist (List.take_sublist _ _)

/-- Witness of C22: the prompt `a red fox`. -/
theorem extractTags_keywords_witness :
    (keywords "a red fox").Nodup
      ∧ extractTags "a red fox" = ["red", "fox"]
      ∧ (extractTags "a red fox").Nodup :=
  ⟨by decide, rfl, (extractTags_keywords "a red fox").2 (by decide)⟩

/-! ## The resize rule -/

/-- C26. For every image of positive width `w` and height `h`, the dimensions at which
`compressImage` redraws it, in exact arithmetic, are at most 1024 and keep the aspect
ratio; they are the dimensions of the image when both are at most 1024, and
otherwise the larger of them is 1024. -/
theorem resizeDimensions_spec (w h : ℕ) (hw : 0 < w) (hh : 0 < h) :
    max (resizeDimensions w h).1 (resizeDimensions w h).2 ≤ 1024
      ∧ (resizeDimensions w h).1 * h = w * (resizeDimensions w h).2
      ∧ (max w h ≤ 1024 → resizeDimensions w h = ((w : ℚ), (h : ℚ)))
      ∧ (1024 < max w h →
          max (resizeDimensions w h).1 (resizeDimensions w h).2 = 1024) := by
  have hwq : (0 : ℚ) < w := by exact_mod_cast hw
  have hhq : (0 : ℚ) < h := by exact_mod_cast hh
  unfold resizeDimensions
  dsimp only
  by_cases h1 : (w : ℚ) > h ∧ (w : ℚ) > 1024
  · rw [if_pos h1]
    obtain ⟨hgt, hbig⟩ := h1
    have hle : (h : ℚ) * 1024 / w ≤ 1024 := by
      rw [div_le_iff₀ hwq]
      nlinarith
    have hbign : 1024 < w := by exact_mod_cast hbig
    refine ⟨max_le (le_refl _) hle, ?_, ?_, ?_⟩
    · field_simp
      ring
    · intro hmax
      have := le_trans (le_max_left w h) hmax
      omega
    · intro _
      exact max_eq_left hle
  · rw [if_neg h1]
    by_cases h2 : (h : ℚ) > 1024
    · rw [if_pos h2]
      have hwh : (w : ℚ) ≤ h := by
        by_contra hc
        push_neg at hc
        exact h1 ⟨hc, lt_trans h2 hc⟩
      have hle : (w : ℚ) * 1024 / h ≤ 1024 := by
        rw [div_le_iff₀ hhq]
        nlinarith
      have h2n : 1024 < h := by exact_mod_cast h2
      refine ⟨max_le hle (le_refl _), ?_, ?_, ?_⟩
      · field_simp
      · intro hmax
        have := le_trans (le_max_right w h) hmax
        omega
      · intro _
        exact max_eq_right hle
    · rw [if_neg h2]
      push_neg at h2
      have hwle : (w : ℚ) ≤ 1024 := by
        by_contra hc
        push_neg at hc
        apply h1
        exact ⟨lt_of_le_of_lt h2 hc, hc⟩
      have hwn : w ≤ 1024 := by exact_mod_cast hwle
      have hhn : h ≤ 1024 := by exact_mod_cast h2
      refine ⟨max_le hwle h2, rfl, fun _ => rfl, ?_⟩
      intro hmax
      have : max w h ≤ 1024 := max_le hwn hhn
      omega

/-- Witness of C26: an image of 4000 by 3000 is redrawn at 1024 by 768. -/
theorem resizeDimensions_spec_witness :
    (0 < 4000 ∧ 0 < 3000)
      ∧ resizeDimensions 4000 3000 = (1024, 768)
      ∧ max (resizeDimensions (4000 : ℕ) (3000 : ℕ)).1 (resizeDimensions (4000 : ℕ) (3000 : ℕ)).2
          ≤ 1024 :=
  ⟨⟨by decide, by decide⟩, by norm_num [resizeDimensions],
    (resizeDimensions_spec 4000 3000 (by decide) (by decide)).1⟩

/-! ## Read-source selection -/

/-- C21. When the manager is offline or has no Firestore handle, `getImages` returns
the result of `getImagesLocally` for the same arguments (of the call in the `catch`
block when the first call throws); when it is online with a Firestore handle, it
returns the remote result if the remote call succeeds and the result of
`getImagesLocally` for the same arguments if the remote call throws. In every case
the Local Record Store, the Remote Mirror and the sync queue are as before. -/
theorem getImages_source (env : Env) (userId : String) (folderId : Option String)
    (limit offset : Nat) (s : State) :
    ((s.isOnlineMode && s.firestore) = false →
        (∀ page s1, getImagesLocally env userId folderId limit offset s = (.ok page, s1) →
            getImages env userId folderId limit offset s = (.ok page, s1))
          ∧ ∀ e s1, getImagesLocally env userId folderId limit offset s = (.error e, s1) →
            getImages env userId folderId limit offset s
              = getImagesLocally env userId folderId limit offset s1)
      ∧ ((s.isOnlineMode && s.firestore) = true →
        (∀ page s1, getImagesFromCloud env userId folderId limit offset s = (.ok page, s1) →
            getImages env userId folderId limit offset s = (.ok page, s1))
          ∧ ∀ e s1, getImagesFromCloud env userId folderId limit offset s = (.error e, s1) →
            getImages env userId folderId limit offset s
              = getImagesLocally env userId folderId limit offset s1)
      ∧ s.sameStores (getImages env userId folderId limit offset s).2
      ∧ s.sameQueue (getImages env userId folderId limit offset s).2 := by
  refine ⟨?_, ?_, (getImages_frame env userId folderId limit offset s).1,
    (getImages_frame env userId folderId limit offset s).2.2.1⟩
  · intro hoff
    have hne : ¬ (s.isOnlineMode && s.firestore) = true := by simp [hoff]
    constructor
    · intro page s1 h
      unfold getImages
      rw [if_neg hne, h]
    · intro e s1 h
      unfold getImages
      rw [if_neg hne, h]
  · intro hon
    constructor
    · intro page s1 h
      unfold getImages
      rw [if_pos hon, h]
    · intro e s1 h
      unfold getImages
      rw [if_pos hon, h]

/-- Witness of C21: offline the page is the local one; online with the query
rejected it is the local one as well; online with the query answered it is the
(empty) remote one. -/
theorem getImages_source_witness :
    (getImages quietEnv "u1" none 2 1 galleryState).1
        = (getImagesLocally quietEnv "u1" none 2 1 galleryState).1
      ∧ ((getImages remoteDownEnv "u1" none 2 1 { galleryState with isOnlineMode := true }).1
        ).toOption.map (fun page => page.images.map ImageRecord.id) = some ["img3", "img1"]
      ∧ ((getImages quietEnv "u1" none 2 1 { galleryState with isOnlineMode := true }).1
        ).toOption.map (fun page => page.images.map ImageRecord.id) = some []
      ∧ galleryState.sameStores (getImages quietEnv "u1" none 2 1 galleryState).2
      ∧ galleryState.sameQueue (getImages quietEnv "u1" none 2 1 galleryState).2 :=
  ⟨rfl, rfl, rfl, (getImages_source quietEnv "u1" none 2 1 galleryState).2.2⟩

/-! ## Remote paging -/

/-- C30. When the manager is online and the remote query succeeds, the result of
`getImages(userId, folderId, limit, offset)` is the same for every `offset`: for a
list `sorted` that is a permutation of the matching records of the Remote Mirror in
descending order of `createdAt`, `images` is the first `limit` records of `sorted`,
`total` is the number of records returned, and `hasMore` tells whether that number
is `limit`. -/
theorem getImages_remote_ignores_offset (env : Env) (userId : String)
    (folderId : Option String) (limit : Nat) (s : State)
    (hon : s.isOnlineMode = true)
    (hq : (getImagesFromCloud env userId folderId limit 0 s).1.toBool = true) :
    ∃ sorted : List ImageRecord,
      sorted.Perm (imagesOf userId folderId s.cloudImages)
        ∧ sorted.Sorted (fun a b => a.createdAt ≥ b.createdAt)
        ∧ ∀ offset, (getImages env userId folderId limit offset s).1
            = .ok { images := sorted.take limit
                    total := (sorted.take limit).length
                    hasMore := decide ((sorted.take limit).length = limit) } := by
  have hfs : s.firestore = true := by
    by_contra hc
    unfold getImagesFromCloud at hq
    rw [if_pos (by simpa using hc)] at hq
    simp [Except.toBool] at hq
  have hl : limit ≠ 0 := by
    intro hc
    unfold getImagesFromCloud at hq
    rw [if_neg (by simp [hfs]), if_pos hc] at hq
    simp [Except.toBool] at hq
  have hf : ¬ s.fails env (Op.imagesQuery userId) = true := by
    intro hc
    rw [getImagesFromCloud_eq env userId folderId limit 0 s hfs hl, if_pos hc] at hq
    simp [Except.toBool] at hq
  refine ⟨(imagesOf userId folderId s.cloudImages.reverse).insertionSort newerFirst, ?_, ?_, ?_⟩
  · refine (List.perm_insertionSort _ _).trans ?_
    unfold imagesOf
    exact (List.reverse_perm s.cloudImages).filter _
  · haveI : IsTotal ImageRecord newerFirst :=
      ⟨fun a b => Nat.le_total b.createdAt a.createdAt⟩
    haveI : IsTrans ImageRecord newerFirst :=
      ⟨fun a b c h1 h2 => Nat.le_trans h2 h1⟩
    exact List.sorted_insertionSort newerFirst _
  · intro offset
    unfold getImages
    rw [if_pos (by simp [hon, hfs]),
      getImagesFromCloud_eq env userId folderId limit offset s hfs hl, if_neg hf]

/-- Witness of C30: two images in the Remote Mirror, pages of one image. -/
theorem getImages_remote_ignores_offset_witness :
    (({ onlineState with cloudImages := galleryState.images } : State).isOnlineMode = true
        ∧ (getImagesFromCloud quietEnv "u1" (some "F") 1 0
            { onlineState with cloudImages := galleryState.images }).1.toBool = true)
      ∧ ((getImages quietEnv "u1" (some "F") 1 0
            { onlineState with cloudImages := galleryState.images }).1.toOption.map
          (fun page => (page.images.map ImageRecord.id, page.total, page.hasMore))
          = some (["img3"], 1, true)
        ∧ (getImages quietEnv "u1" (some "F") 1 1
            { onlineState with cloudImages := galleryState.images }).1.toOption.map
          (fun page => (page.images.map ImageRecord.id, page.total, page.hasMore))
          = some (["img3"], 1, true))
      ∧ ∃ sorted : List ImageRecord,
          sorted.Perm (imagesOf "u1" (some "F") galleryState.images)
            ∧ sorted.Sorted (fun a b => a.createdAt ≥ b.createdAt)
            ∧ ∀ offset, (getImages quietEnv "u1" (some "F") 1 offset
                { onlineState with cloudImages := galleryState.images }).1
                = .ok { images := sorted.take 1
                        total := (sorted.take 1).length
                        hasMore := decide ((sorted.take 1).length = 1) } :=
  ⟨⟨rfl, rfl⟩, ⟨rfl, rfl⟩,
    getImages_remote_ignores_offset quietEnv "u1" (some "F") 1
      { onlineState with cloudImages := galleryState.images } rfl rfl⟩

/-! ## Cleaning up -/

theorem cleanupCursor_spec (userId : String) (now maxAge : Nat) :
    ∀ (images : List ImageRecord) (deletedCount : Nat),
      (cleanupCursor userId ((now : Int) - (maxAge : Int)) images deletedCount).1
          = images.filter (fun r => !staleLocal userId now maxAge r)
        ∧ (cleanupCursor userId ((now : Int) - (maxAge : Int)) images deletedCount).2
          = deletedCount + (images.filter (staleLocal userId now maxAge)).length := by
  intro images
  induction images with
  | nil => intro n; exact ⟨rfl, rfl⟩
  | cons image rest ih =>
    intro n
    unfold cleanupCursor
    by_cases hu : image.userId = userId
    · rw [if_pos hu]
      by_cases hs : (decide ((image.createdAt : Int) < (now : Int) - (maxAge : Int))
          && !hasCloudUrl image) = true
      · rw [if_pos hs]
        have hst : staleLocal userId now maxAge image = true := by
          unfold staleLocal
          rw [Bool.and_assoc, hs]
          simp [hu]
        rw [List.filter_cons_of_neg (by simp [hst]), List.filter_cons_of_pos hst,
          (ih (n + 1)).1, (ih (n + 1)).2, List.length_cons]
        exact ⟨rfl, by omega⟩
      · rw [if_neg hs]
        have hst : staleLocal userId now maxAge image = false := by
          unfold staleLocal
          rw [Bool.and_assoc, Bool.not_eq_true _ |>.mp hs]
          simp
        rw [List.filter_cons_of_pos (by simp [hst]), List.filter_cons_of_neg (by simp [hst]),
          (ih n).1, (ih n).2]
        exact ⟨rfl, rfl⟩
    · rw [if_neg hu]
      have hst : staleLocal userId now maxAge image = false := by
        unfold staleLocal
        simp [hu]
      rw [List.filter_cons_of_pos (by simp [hst]), List.filter_cons_of_neg (by simp [hst]),
        (ih n).1, (ih n).2]
      exact ⟨rfl, rfl⟩

/-- C25. `cleanupStorage(userId, maxAge)` rejects when the cursor request rejects, and
then the local images store is as before. Otherwise, with `now` the time of the
call, it deletes exactly the local image records of `userId` whose `createdAt` is
earlier than `now - maxAge` and that have no cloud URL: the store afterwards holds
the other records, unchanged and in their order, and the `deletedCount` returned is
the number of records deleted. -/
theorem cleanupStorage_spec (env : Env) (userId : String) (maxAge : Nat) (s : State) :
    (s.tick.fails env (Op.imagesOpenCursor userId) = true
        ∧ (cleanupStorage env userId maxAge s).1
            = .error (.rejected (Op.imagesOpenCursor userId))
        ∧ (cleanupStorage env userId maxAge s).2.images = s.images)
      ∨ (s.tick.fails env (Op.imagesOpenCursor userId) = false
        ∧ (cleanupStorage env userId maxAge s).1
            = .ok (s.images.filter (staleLocal userId (env.now s.log.length) maxAge)).length
        ∧ (cleanupStorage env userId maxAge s).2.images
            = s.images.filter (fun r => !staleLocal userId (env.now s.log.length) maxAge r)) := by
  obtain ⟨h1, h2⟩ := cleanupCursor_spec userId (env.now s.log.length) maxAge s.images 0
  unfold cleanupStorage
  dsimp only
  by_cases hf : s.tick.fails env (Op.imagesOpenCursor userId) = true
  · left
    rw [if_pos hf]
    exact ⟨hf, rfl, rfl⟩
  · right
    rw [if_neg hf]
    refine ⟨by simpa using hf, ?_, ?_⟩
    · show Except.ok (cleanupCursor userId _ s.images 0).2 = _
      rw [h2, Nat.zero_add]
    · show (cleanupCursor userId _ s.images 0).1 = _
      rw [h1]

/-- Witness of C25: of four old or new, uploaded or not uploaded images of two users,
the old image of `u1` that was not uploaded is deleted. -/
theorem cleanupStorage_spec_witness :
    (cleanupStorage quietEnv "u1" 500 cleanupState).1 = .ok 1
      ∧ (cleanupStorage quietEnv "u1" 500 cleanupState).2.images.map ImageRecord.id
          = ["new1", "old2", "old3"]
      ∧ (State.fails quietEnv cleanupState.tick (Op.imagesOpenCursor "u1") = false
        ∧ (cleanupStorage quietEnv "u1" 500 cleanupState).1
            = .ok (cleanupState.images.filter
                (staleLocal "u1" (quietEnv.now cleanupState.log.length) 500)).length
        ∧ (cleanupStorage quietEnv "u1" 500 cleanupState).2.images
            = cleanupState.images.filter
                (fun r => !staleLocal "u1" (quietEnv.now cleanupState.log.length) 500 r)) :=
  ⟨rfl, rfl,
    (cleanupStorage_spec quietEnv "u1" 500 cleanupState).resolve_left
      (fun h => Bool.noConfusion h.1)⟩

/-! ## The retry count -/

theorem processSyncQueue_guard (env : Env) (s : State)
    (h : ¬ (s.isOnlineMode = true ∧ s.firestore = true)) : processSyncQueue env s = s := by
  unfold processSyncQueue
  rw [if_pos]
  by_cases h1 : s.isOnlineMode = true
  · have h2 : s.firestore = false := by
      by_contra hc
      exact h ⟨h1, by simpa using hc⟩
    simp [h2]
  · simp [h1]

/-- In every reachable state the queue store is well formed and every entry has
`retries < maxRetries = 3`. -/
theorem reachable_inv (env : Env) (hloc : env.localStoreOk) (s : State)
    (hr : Reachable env s) :
    s.WF ∧ ∀ x ∈ s.queue, x.retries < x.maxRetries ∧ x.maxRetries = 3 := by
  induction hr with
  | fresh s h =>
    refine ⟨?_, ?_⟩
    · unfold State.WF
      rw [h.1]
      exact ⟨List.Pairwise.nil, fun x hx => nomatch hx⟩
    · rw [h.1]
      intro x hx
      cases hx
  | mode isOnline s _ ih => exact ih
  | add data s _ ih =>
    refine ⟨addToSyncQueue_WF env data s ih.1, ?_⟩
    obtain ⟨s', hs'⟩ := addToSyncQueue_localOk env hloc data s
    have hq := (addToSyncQueue_ok env data s s' () hs').1
    rw [hs']
    intro x hx
    rw [show ((Except.ok (), s') : Except Err Unit × State).2.queue = s'.queue from rfl, hq,
      List.mem_append] at hx
    rcases hx with hx | hx
    · exact ih.2 x hx
    · rw [List.mem_singleton] at hx
      subst hx
      exact ⟨Nat.zero_lt_succ 2, rfl⟩
  | drain s _ ih =>
    by_cases hon : s.isOnlineMode = true ∧ s.firestore = true
    · refine ⟨processSyncQueue_WF env hloc s hon.1 hon.2 ih.1, ?_⟩
      obtain ⟨okf, -, -, -, hq, -⟩ := processSyncQueue_spec env hloc s hon.1 hon.2 ih.1
      rw [hq]
      intro y hy
      obtain ⟨x, hx, hk⟩ := List.mem_filterMap.mp hy
      obtain ⟨hlt, hmax⟩ := ih.2 x hx
      unfold keptAfter at hk
      split at hk
      · cases hk
      · split at hk
        · cases hk
        · rename_i hge
          cases hk
          unfold retried
          dsimp only
          exact ⟨by omega, hmax⟩
    · rw [processSyncQueue_guard env s hon]
      exact ih

/-- C28. In every state reachable through `addToSyncQueue` and `processSyncQueue`
(and changes of mode) from a manager with an empty sync queue, with the requests on
the Local Record Store succeeding, every entry of the sync queue satisfies
`0 ≤ retries < maxRetries = 3`, and a drain pass does not increase the number of
entries in the queue. -/
theorem retry_count_invariant (env : Env) (hloc : env.localStoreOk) (s : State)
    (hr : Reachable env s) :
    (∀ x ∈ s.queue, 0 ≤ x.retries ∧ x.retries < x.maxRetries ∧ x.maxRetries = 3)
      ∧ (processSyncQueue env s).queue.length ≤ s.queue.length := by
  obtain ⟨hwf, hinv⟩ := reachable_inv env hloc s hr
  refine ⟨fun x hx => ⟨Nat.zero_le _, hinv x hx⟩, ?_⟩
  by_cases hon : s.isOnlineMode = true ∧ s.firestore = true
  · obtain ⟨okf, -, -, -, hq, -⟩ := processSyncQueue_spec env hloc s hon.1 hon.2 hwf
    rw [hq]
    exact List.length_filterMap_le _ _
  · rw [processSyncQueue_guard env s hon]

/-- Witness of C28: an upload that `flakyEnv` rejects is queued offline and replayed
online once; its entry then has `retries = 1`, and a further pass keeps one entry. -/
theorem retry_count_invariant_witness :
    (flakyEnv.localStoreOk
        ∧ Reachable flakyEnv (processSyncQueue flakyEnv
            { (addToSyncQueue flakyEnv (.upload sampleRecord) (State.init true)).2 with
              isOnlineMode := true }))
      ∧ (processSyncQueue flakyEnv
            { (addToSyncQueue flakyEnv (.upload sampleRecord) (State.init true)).2 with
              isOnlineMode := true }).queue.map (fun x => (x.retries, x.maxRetries)) = [(1, 3)]
      ∧ ((∀ x ∈ (processSyncQueue flakyEnv
            { (addToSyncQueue flakyEnv (.upload sampleRecord) (State.init true)).2 with
              isOnlineMode := true }).queue,
            0 ≤ x.retries ∧ x.retries < x.maxRetries ∧ x.maxRetries = 3)
        ∧ (processSyncQueue flakyEnv (processSyncQueue flakyEnv
            { (addToSyncQueue flakyEnv (.upload sampleRecord) (State.init true)).2 with
              isOnlineMode := true })).queue.length
          ≤ (processSyncQueue flakyEnv
            { (addToSyncQueue flakyEnv (.upload sampleRecord) (State.init true)).2 with
              isOnlineMode := true }).queue.length) :=
  ⟨⟨flakyEnv_localStoreOk,
      Reachable.drain _ (Reachable.mode true _ (Reachable.add _ _
        (Reachable.fresh (State.init true) ⟨rfl, Nat.le_refl 1⟩)))⟩,
    rfl,
    retry_count_invariant flakyEnv flakyEnv_localStoreOk _
      (Reachable.drain _ (Reachable.mode true _ (Reachable.add _ _
        (Reachable.fresh (State.init true) ⟨rfl, Nat.le_refl 1⟩))))⟩

/-! ## The record that `saveImage` stores -/

theorem prepareImage_inv (env : Env) (imageData : ImageInput) (userId : String)
    (folderId : Option String) (s s3 : State) (imageId : String) (rec : ImageRecord)
    (blob : Option Blob)
    (hp : prepareImage env imageData userId folderId s = (imageId, some (rec, blob), s3)) :
    rec.id = imageId ∧ rec.userId = userId
      ∧ rec.createdAt = env.now (s.log.length + 1)
      ∧ rec.updatedAt = env.now (s.log.length + 1)
      ∧ rec.imageData = none
      ∧ ∀ file, imageData.file = some file →
          (file.size > 1048576 →
            ∃ b, (∃ n, env.compressed n file = some b) ∧ blob = some b
              ∧ rec.metadata.compressed = some true
              ∧ rec.metadata.originalSize = some file.size
              ∧ rec.metadata.size = b.size)
          ∧ (file.size ≤ 1048576 →
            blob = some file ∧ rec.metadata.compressed = none
              ∧ rec.metadata.originalSize = none ∧ rec.metadata.size = file.size) := by
  have hlen : s.tick.log.length = s.log.length + 1 := by simp
  unfold prepareImage at hp
  dsimp only [generateImageId] at hp
  rw [hlen] at hp
  cases hfile : imageData.file with
  | none =>
    rw [hfile] at hp
    simp only [Prod.mk.injEq, Option.some.injEq] at hp
    obtain ⟨h1, ⟨h2, -⟩, -⟩ := hp
    subst h1 h2
    refine ⟨rfl, rfl, rfl, rfl, rfl, ?_⟩
    intro file hf
    cases hf
  | some f =>
    rw [hfile] at hp
    dsimp only at hp
    by_cases hsz : f.size > 1024 * 1024
    · rw [if_pos hsz] at hp
      unfold compressImage at hp
      cases hc : env.compressed s.tick.tick.log.length f with
      | none =>
        rw [hc] at hp
        simp at hp
      | some b =>
        rw [hc] at hp
        simp only [Prod.mk.injEq, Option.some.injEq] at hp
        obtain ⟨h1, ⟨h2, h3⟩, -⟩ := hp
        subst h1 h2 h3
        refine ⟨rfl, rfl, rfl, rfl, rfl, ?_⟩
        intro file hf
        cases hf
        refine ⟨fun _ => ⟨b, ⟨_, hc⟩, rfl, rfl, rfl, rfl⟩, fun hle => ?_⟩
        omega
    · rw [if_neg hsz] at hp
      simp only [Prod.mk.injEq, Option.some.injEq] at hp
      obtain ⟨h1, ⟨h2, h3⟩, -⟩ := hp
      subst h1 h2 h3
      refine ⟨rfl, rfl, rfl, rfl, rfl, ?_⟩
      intro file hf
      cases hf
      refine ⟨fun hgt => ?_, fun _ => ⟨rfl, rfl, rfl, ?_⟩⟩
      · omega
      · unfold newImageRecord
        simp only [hfile]

theorem saveImageToCloud_files (env : Env) (r : ImageRecord) (b : Blob) (s : State) :
    (saveImageToCloud env r (some b) s).2.cloudFiles = s.cloudFiles
      ∨ (saveImageToCloud env r (some b) s).2.cloudFiles
          = storePut Prod.fst (storagePathOf r, b) s.cloudFiles := by
  unfold saveImageToCloud
  dsimp only
  split
  · exact Or.inl rfl
  · split
    · exact Or.inl rfl
    · split
      · exact Or.inr rfl
      · split
        · exact Or.inr rfl
        · split
          · exact Or.inr rfl
          · exact Or.inr rfl

theorem saveImageRemote_files (env : Env) (r : ImageRecord) (b : Blob) (s : State) :
    (saveImageRemote env r (some b) s).2.cloudFiles = s.cloudFiles
      ∨ (saveImageRemote env r (some b) s).2.cloudFiles
          = storePut Prod.fst (storagePathOf r, b) s.cloudFiles := by
  have hadd : ∀ d t, (addToSyncQueue env d t).2.cloudFiles = t.cloudFiles :=
    fun d t => (addToSyncQueue_frame env d t).2.1.2.2
  have hupd : ∀ r' t, (updateImageLocally env r' t).2.cloudFiles = t.cloudFiles :=
    fun r' t => (updateImageLocally_frame env r' t).2.2.1.2.2
  unfold saveImageRemote
  split
  · have hf := saveImageToCloud_files env r b s
    generalize saveImageToCloud env r (some b) s = p at hf ⊢
    obtain ⟨res, s1⟩ := p
    cases res with
    | error e =>
      dsimp only at hf ⊢
      rw [hadd]
      exact hf
    | ok url =>
      dsimp only at hf ⊢
      have h2 := hupd { r with cloudUrl := some url, syncStatus := .synced } s1
      generalize updateImageLocally env { r with cloudUrl := some url, syncStatus := .synced } s1
        = q at h2 ⊢
      obtain ⟨res2, s2⟩ := q
      cases res2 with
      | ok r2 =>
        dsimp only at h2 ⊢
        rw [h2]
        exact hf
      | error e =>
        dsimp only at h2 ⊢
        rw [hadd, h2]
        exact hf
  · split
    · rw [hadd]
      exact Or.inl rfl
    · exact Or.inl rfl

/-- What a successful `saveImage` leaves in the local store: the prepared record,
which has no payload, possibly marked `synced` with a download URL. -/
theorem saveImage_ok_record (env : Env) (imageData : ImageInput) (userId : String)
    (folderId : Option String) (s s' : State) (imageId : String)
    (h : saveImage env imageData userId folderId s = (some (.ok imageId), s')) :
    ∃ (rec : ImageRecord) (s3 : State) (r : ImageRecord),
      prepareImage env imageData userId folderId s = (imageId, some (rec, none), s3)
        ∧ storeGet ImageRecord.id imageId s'.images = some r
        ∧ r.createdAt = rec.createdAt ∧ r.updatedAt = rec.updatedAt
        ∧ r.metadata = rec.metadata ∧ r.imageData = none
        ∧ r.id = rec.id ∧ r.userId = rec.userId := by
  rw [saveImage_eq] at h
  have hpi := prepareImage_inv env imageData userId folderId s
  generalize prepareImage env imageData userId folderId s = p at h hpi
  obtain ⟨id0, opt, s3⟩ := p
  cases opt with
  | none => simp at h
  | some pr =>
    obtain ⟨rec, blob⟩ := pr
    obtain ⟨hid, -, -, -, hnone, -⟩ := hpi s3 id0 rec blob rfl
    dsimp only at h
    generalize hl : saveImageLocally env rec blob s3 = q at h
    obtain ⟨res, s4⟩ := q
    cases res with
    | none => simp at h
    | some res1 =>
      cases res1 with
      | error e => simp at h
      | ok rec2 =>
        dsimp only at h
        obtain ⟨hb, hrec2, hget⟩ := saveImageLocally_ok env rec rec2 blob s3 s4 hl
        subst hb
        subst hrec2
        obtain ⟨r1, hget1, hr1⟩ := saveImageRemote_images env rec2 rec2 none s4 hget
        generalize saveImageRemote env rec2 none s4 = w at h hget1
        obtain ⟨res3, s5⟩ := w
        cases res3 with
        | error e => simp at h
        | ok u =>
          simp only [Prod.mk.injEq, Option.some.injEq, Except.ok.injEq] at h
          obtain ⟨h1, h2⟩ := h
          subst h1 h2
          rw [hid] at hget1
          refine ⟨rec2, s3, r1, rfl, hget1, ?_⟩
          rcases hr1 with hr1 | ⟨-, url, hr1⟩
          · subst hr1
            exact ⟨rfl, rfl, rfl, hnone, rfl, rfl⟩
          · subst hr1
            exact ⟨rfl, rfl, rfl, hnone, rfl, rfl⟩

/-- C23, on the code as it is. For every `saveImage` call with a binary payload, above
the threshold of 1 MiB or not, no record and no payload is stored: the call never
returns, or fails with `storage/save-failed`, and the local images store, the files
and the documents of the Remote Mirror are as before the call. -/
theorem saveImage_payload_stores_nothing (env : Env) (imageData : ImageInput) (file : Blob)
    (userId : String) (folderId : Option String) (s : State)
    (hfile : imageData.file = some file) :
    (∀ imageId, (saveImage env imageData userId folderId s).1 ≠ some (.ok imageId))
      ∧ (saveImage env imageData userId folderId s).2.images = s.images
      ∧ (saveImage env imageData userId folderId s).2.cloudFiles = s.cloudFiles
      ∧ (saveImage env imageData userId folderId s).2.cloudImages = s.cloudImages := by
  obtain ⟨hres, him, hcl, -⟩ := saveImage_payload env imageData file userId folderId s hfile
  refine ⟨?_, him, hcl.2.2, hcl.1⟩
  intro imageId h
  rcases hres with h1 | h1
  · rw [h1] at h
    cases h
  · rw [h1] at h
    cases h

/-- Witness of C23: a payload of 2000000 bytes and one of 10 bytes, saved online with
Firebase configured and no request rejected. The first is compressed, both are read,
and neither call returns or stores anything. -/
theorem saveImage_payload_stores_nothing_witness :
    (bigInput.file = some { size := 2000000, type := "image/png", content := 7 }
        ∧ (saveImage quietEnv bigInput "u1" none onlineState).1 = none
        ∧ (saveImage quietEnv bigInput "u1" none onlineState).2.log
            = [Event.read, Event.read, Event.read, Event.io Op.readAsDataURL false]
        ∧ (saveImage quietEnv sampleInput "u1" none onlineState).1 = none
        ∧ (saveImage quietEnv sampleInput "u1" none onlineState).2.images = []
        ∧ (saveImage quietEnv sampleInput "u1" none onlineState).2.cloudFiles = [])
      ∧ (∀ imageId,
          (saveImage quietEnv bigInput "u1" none onlineState).1 ≠ some (.ok imageId))
      ∧ (saveImage quietEnv bigInput "u1" none onlineState).2.images = onlineState.images
      ∧ (saveImage quietEnv bigInput "u1" none onlineState).2.cloudFiles
          = onlineState.cloudFiles
      ∧ (saveImage quietEnv bigInput "u1" none onlineState).2.cloudImages
          = onlineState.cloudImages :=
  ⟨⟨rfl, rfl, rfl, rfl, rfl, rfl⟩,
    saveImage_payload_stores_nothing quietEnv bigInput _ "u1" none onlineState rfl⟩

/-! ## Timestamps -/

/-- C24, at an input where the claim fails: the persisted `upload` entry of image
`img1`, created at time 10, is replayed online with every request accepted. The
stored record is marked `synced` and carries the download URL, written by the
request that is event 4 of the history, at time 1004; its `updatedAt` is still the
time of creation, 10. -/
theorem replay_keeps_updatedAt :
    pendingImageState.images.map
        (fun r => (r.id, r.syncStatus, r.cloudUrl.isSome, r.createdAt, r.updatedAt))
        = [("img1", SyncStatus.pending, false, 10, 10)]
      ∧ (processSyncItem quietEnv uploadItem pendingImageState).1 = .ok ()
      ∧ (processSyncItem quietEnv uploadItem pendingImageState).2.2.images.map
        (fun r => (r.id, r.syncStatus, r.cloudUrl.isSome, r.createdAt, r.updatedAt))
        = [("img1", SyncStatus.synced, true, 10, 10)]
      ∧ (processSyncItem quietEnv uploadItem pendingImageState).2.2.log.get? 4
          = some (Event.io (Op.imagesPut "img1") false)
      ∧ quietEnv.now 4 = 1004 :=
  ⟨rfl, rfl, rfl, rfl, rfl⟩

/-- C24, amended. Neither `createdAt` nor `updatedAt` of an image record changes after
creation. The record that a successful `saveImage` leaves in the local store, with
or without write-through, has both equal to the time read at creation; and the
record that a successful replay of an `upload` entry writes back, marked `synced`
with the download URL, has the `createdAt` and the `updatedAt` of the record in the
entry. -/
theorem timestamps_fixed (env : Env) :
    (∀ (imageData : ImageInput) (userId : String) (folderId : Option String) (s s' : State)
        (imageId : String),
        saveImage env imageData userId folderId s = (some (.ok imageId), s') →
        ∃ r, storeGet ImageRecord.id imageId s'.images = some r
          ∧ r.createdAt = env.now (s.log.length + 1)
          ∧ r.updatedAt = env.now (s.log.length + 1))
      ∧ ∀ (item : SyncItem) (s : State) (rec : ImageRecord) (b : Blob),
        item.data = SyncData.upload rec → rec.imageData = some b →
        (processSyncItem env item s).1.toBool = true →
        ∃ r, storeGet ImageRecord.id rec.id (processSyncItem env item s).2.2.images = some r
          ∧ r.syncStatus = SyncStatus.synced ∧ r.cloudUrl.isSome = true
          ∧ r.createdAt = rec.createdAt ∧ r.updatedAt = rec.updatedAt := by
  constructor
  · intro imageData userId folderId s s' imageId h
    obtain ⟨rec, s3, r, hp, hget, hc, hu, -⟩ :=
      saveImage_ok_record env imageData userId folderId s s' imageId h
    obtain ⟨-, -, hc0, hu0, -⟩ := prepareImage_inv env imageData userId folderId s s3 imageId
      rec none hp
    exact ⟨r, hget, hc.trans hc0, hu.trans hu0⟩
  · intro item s rec b hd hb hok
    obtain ⟨url, -, hl⟩ := processSyncItem_upload_result env item s rec b hd hb hok
    exact ⟨_, hl, rfl, rfl, rfl, rfl⟩

/-- Witness of C24: the record of `img1`, created at 10, is replayed at a later time. -/
theorem timestamps_fixed_witness :
    (uploadItem.data = SyncData.upload sampleRecord
        ∧ sampleRecord.imageData = some { size := 10, type := "image/png", content := 7 }
        ∧ (processSyncItem quietEnv uploadItem pendingImageState).1.toBool = true)
      ∧ (processSyncItem quietEnv uploadItem pendingImageState).2.2.images.map
          (fun r => (r.syncStatus, r.createdAt, r.updatedAt)) = [(SyncStatus.synced, 10, 10)]
      ∧ ∃ r, storeGet ImageRecord.id sampleRecord.id
            (processSyncItem quietEnv uploadItem pendingImageState).2.2.images = some r
          ∧ r.syncStatus = SyncStatus.synced ∧ r.cloudUrl.isSome = true
          ∧ r.createdAt = sampleRecord.createdAt ∧ r.updatedAt = sampleRecord.updatedAt :=
  ⟨⟨rfl, rfl, rfl⟩, rfl,
    (timestamps_fixed quietEnv).2 uploadItem pendingImageState sampleRecord _ rfl rfl rfl⟩

/-! ## Queued uploads carry no payload -/

theorem mem_storePut {α κ : Type} [DecidableEq κ] [KeyOrd κ] (key : α → κ) (r x : α) :
    ∀ xs : List α, x ∈ storePut key r xs → x = r ∨ x ∈ xs := by
  intro xs
  induction xs with
  | nil =>
    intro h
    simp only [storePut, List.mem_singleton] at h
    exact Or.inl h
  | cons y ys ih =>
    intro h
    unfold storePut at h
    split at h
    · rcases List.mem_cons.mp h with h1 | h1
      · exact Or.inl h1
      · exact Or.inr h1
    · split at h
      · rcases List.mem_cons.mp h with h1 | h1
        · exact Or.inl h1
        · exact Or.inr (List.mem_cons_of_mem _ h1)
      · rcases List.mem_cons.mp h with h1 | h1
        · exact Or.inr (h1 ▸ List.mem_cons_self _ _)
        · rcases ih h1 with h2 | h2
          · exact Or.inl h2
          · exact Or.inr (List.mem_cons_of_mem _ h2)

theorem mem_storeDelete {α κ : Type} [DecidableEq κ] (key : α → κ) (k : κ) (x : α)
    (xs : List α) (h : x ∈ storeDelete key k xs) : x ∈ xs := by
  unfold storeDelete at h
  exact (List.mem_filter.mp h).1

theorem noPayload_of_eq {q q' : List SyncItem} (h : q' = q) (hq : noPayload q) :
    noPayload q' := by
  rw [h]; exact hq

theorem addToSyncQueue_noPayload (env : Env) (d : SyncData) (s : State)
    (hd : d.carriesPayload = false) (hq : noPayload s.queue) :
    noPayload (addToSyncQueue env d s).2.queue := by
  unfold addToSyncQueue
  dsimp only
  split
  · exact hq
  · intro x hx
    have hx' : x ∈ s.queue ++ [_] := hx
    rcases List.mem_append.mp hx' with h1 | h1
    · exact hq x h1
    · simp only [List.mem_singleton] at h1
      subst h1
      exact hd

theorem removeSyncItem_noPayload (env : Env) (itemId : Nat) (s : State)
    (hq : noPayload s.queue) : noPayload (removeSyncItem env itemId s).2.queue := by
  unfold removeSyncItem
  split
  · exact hq
  · intro x hx
    exact hq x (mem_storeDelete _ _ _ _ hx)

theorem updateSyncItem_noPayload (env : Env) (item : SyncItem) (s : State)
    (hi : item.data.carriesPayload = false) (hq : noPayload s.queue) :
    noPayload (updateSyncItem env item s).2.queue := by
  unfold updateSyncItem
  split
  · exact hq
  · intro x hx
    rcases mem_storePut _ _ _ _ hx with h1 | h1
    · subst h1
      exact hi
    · exact hq x h1

theorem retryOrDrop_noPayload (env : Env) (item : SyncItem) (s : State)
    (hi : item.data.carriesPayload = false) (hq : noPayload s.queue) :
    noPayload (retryOrDrop env item s).2.queue := by
  unfold retryOrDrop
  dsimp only
  split
  · exact removeSyncItem_noPayload env _ s hq
  · exact updateSyncItem_noPayload env _ s hi hq

theorem saveFolderLocally_images (env : Env) (f : FolderRecord) (s : State) :
    (saveFolderLocally env f s).2.images = s.images := by
  unfold saveFolderLocally
  split <;> rfl

/-- The replay of an entry that carries no payload leaves the local images store as
it is, and the entry the loop goes on with carries no payload either. -/
theorem processSyncItem_noPayload (env : Env) (item : SyncItem) (s : State)
    (hi : item.data.carriesPayload = false) :
    (processSyncItem env item s).2.2.images = s.images
      ∧ (processSyncItem env item s).2.1.data.carriesPayload = false := by
  unfold processSyncItem
  split
  · rename_i record hd
    rw [hd] at hi
    have hnone : record.imageData = none := by
      simpa [SyncData.carriesPayload] using hi
    rw [hnone]
    dsimp only
    rw [hd]
    exact ⟨rfl, hi⟩
  · rename_i id uid hd
    dsimp only
    rw [hd]
    exact ⟨deleteImageFromCloud_images env id s, rfl⟩
  · rename_i folder hd
    have h1 := (saveFolderToCloud_frame env folder s).1
    generalize saveFolderToCloud env folder s = p at h1 ⊢
    obtain ⟨res, s1⟩ := p
    cases res with
    | error e =>
      dsimp only at h1 ⊢
      rw [hd]
      exact ⟨h1, rfl⟩
    | ok u =>
      dsimp only at h1 ⊢
      have h2 := saveFolderLocally_images env { folder with syncStatus := .synced } s1
      unfold updateFolderLocally
      generalize saveFolderLocally env { folder with syncStatus := .synced } s1 = q at h2 ⊢
      obtain ⟨res2, s2⟩ := q
      cases res2 <;> exact ⟨h2.trans h1, rfl⟩
  · rename_i id uid hd
    dsimp only
    rw [hd]
    exact ⟨(deleteFolderFromCloud_frame env id s).2, rfl⟩

theorem processSyncStep_noPayload (env : Env) (item : SyncItem) (s : State)
    (hi : item.data.carriesPayload = false) (hq : noPayload s.queue) :
    (processSyncStep env item s).2.images = s.images
      ∧ noPayload (processSyncStep env item s).2.queue := by
  obtain ⟨hst, -, -⟩ := processSyncStep_general env item s
  obtain ⟨him, hi1⟩ := processSyncItem_noPayload env item s hi
  refine ⟨hst.1.trans him, ?_⟩
  have hq1 : noPayload (processSyncItem env item s).2.2.queue :=
    noPayload_of_eq (processSyncItem_ctl env item s).1.2.1.1 hq
  unfold processSyncStep
  generalize processSyncItem env item s = res at hi1 hq1 ⊢
  obtain ⟨r, item1, s1⟩ := res
  dsimp only at hi1 hq1
  cases r with
  | ok u =>
    dsimp only
    have h2 := removeSyncItem_noPayload env item1.id
      { s1 with log := s1.log ++ [Event.replay item.id true] } hq1
    generalize removeSyncItem env item1.id
      { s1 with log := s1.log ++ [Event.replay item.id true] } = p at h2 ⊢
    obtain ⟨r2, s2⟩ := p
    cases r2 with
    | ok u2 => exact h2
    | error e => exact retryOrDrop_noPayload env item1 s2 hi1 h2
  | error e =>
    dsimp only
    exact retryOrDrop_noPayload env item1 _ hi1 hq1

theorem processSyncItems_noPayload (env : Env) :
    ∀ (items : List SyncItem) (s : State), noPayload items → noPayload s.queue →
      (processSyncItems env items s).2.images = s.images
        ∧ noPayload (processSyncItems env items s).2.queue := by
  intro items
  induction items with
  | nil => intro s _ hq; exact ⟨rfl, hq⟩
  | cons x rest ih =>
    intro s hitems hq
    unfold processSyncItems
    have h1 := processSyncStep_noPayload env x s (hitems x (List.mem_cons_self _ _)) hq
    generalize processSyncStep env x s = p at h1 ⊢
    obtain ⟨r, s1⟩ := p
    cases r with
    | error e => exact h1
    | ok u =>
      dsimp only at h1 ⊢
      obtain ⟨h2, h3⟩ := ih s1 (fun y hy => hitems y (List.mem_cons_of_mem _ hy)) h1.2
      exact ⟨h2.trans h1.1, h3⟩

/-- A drain pass over a queue whose uploads carry no payload leaves the local images
store as it is, and the queue it leaves has the same property. -/
theorem processSyncQueue_noPayload (env : Env) (s : State) (hq : noPayload s.queue) :
    (processSyncQueue env s).images = s.images
      ∧ noPayload (processSyncQueue env s).queue := by
  unfold processSyncQueue getSyncQueue
  by_cases hg : (!s.isOnlineMode || !s.firestore) = true
  · rw [if_pos hg]
    exact ⟨rfl, hq⟩
  · rw [if_neg hg]
    by_cases hf : s.fails env Op.queueGetAll = true
    · rw [if_pos hf]
      exact ⟨rfl, hq⟩
    · rw [if_neg hf]
      dsimp only
      exact processSyncItems_noPayload env s.queue (s.did env Op.queueGetAll) hq hq

theorem setMode_noPayload (env : Env) (isOnline : Bool) (s : State) (hq : noPayload s.queue) :
    noPayload (setMode env isOnline s).queue := by
  unfold setMode
  dsimp only
  split
  · exact (processSyncQueue_noPayload env { s with isOnlineMode := isOnline } hq).2
  · exact hq
theorem saveImageRemote_noPayload (env : Env) (r : ImageRecord) (b : Option Blob) (s : State)
    (hr : r.imageData = none) (hq : noPayload s.queue) :
    noPayload (saveImageRemote env r b s).2.queue := by
  have hup : (SyncData.upload r).carriesPayload = false := by
    simp [SyncData.carriesPayload, hr]
  unfold saveImageRemote
  split
  · have h1 := (saveImageToCloud_frame env r b s).2.1.1
    generalize saveImageToCloud env r b s = p at h1 ⊢
    obtain ⟨res, s1⟩ := p
    dsimp only at h1
    have hq1 : noPayload s1.queue := noPayload_of_eq h1 hq
    cases res with
    | error e => exact addToSyncQueue_noPayload env _ s1 hup hq1
    | ok url =>
      dsimp only
      have h2 := (updateImageLocally_frame env
        { r with cloudUrl := some url, syncStatus := .synced } s1).2.1.1
      generalize updateImageLocally env
        { r with cloudUrl := some url, syncStatus := .synced } s1 = q at h2 ⊢
      obtain ⟨res2, s2⟩ := q
      dsimp only at h2
      have hq2 : noPayload s2.queue := noPayload_of_eq h2 hq1
      cases res2 with
      | ok u => exact hq2
      | error e =>
        refine addToSyncQueue_noPayload env _ s2 ?_ hq2
        simp [SyncData.carriesPayload, hr]
  · split
    · exact addToSyncQueue_noPayload env _ s hup hq
    · exact hq

theorem saveImage_noPayload (env : Env) (imageData : ImageInput) (userId : String)
    (folderId : Option String) (s : State) (hq : noPayload s.queue) :
    noPayload (saveImage env imageData userId folderId s).2.queue := by
  rw [saveImage_eq]
  have hpf := (prepareImage_frame env imageData userId folderId s).2.1.1
  have hpi := prepareImage_inv env imageData userId folderId s
  generalize prepareImage env imageData userId folderId s = p at hpf hpi ⊢
  obtain ⟨id0, opt, s3⟩ := p
  dsimp only at hpf
  have hq3 : noPayload s3.queue := noPayload_of_eq hpf hq
  cases opt with
  | none => exact hq3
  | some pr =>
    obtain ⟨rec, blob⟩ := pr
    obtain ⟨-, -, -, -, hnone, -⟩ := hpi s3 id0 rec blob rfl
    dsimp only
    have hlf := (saveImageLocally_frame env rec blob s3).2.1.1
    generalize hl : saveImageLocally env rec blob s3 = q at hlf ⊢
    obtain ⟨res, s4⟩ := q
    dsimp only at hlf
    have hq4 : noPayload s4.queue := noPayload_of_eq hlf hq3
    cases res with
    | none => exact hq4
    | some res1 =>
      cases res1 with
      | error e => exact hq4
      | ok rec2 =>
        dsimp only
        obtain ⟨-, hrec2, -⟩ := saveImageLocally_ok env rec rec2 blob s3 s4 hl
        subst hrec2
        have h5 := saveImageRemote_noPayload env rec2 blob s4 hnone hq4
        generalize saveImageRemote env rec2 blob s4 = w at h5 ⊢
        obtain ⟨res3, s5⟩ := w
        cases res3 <;> exact h5

theorem deleteImage_noPayload (env : Env) (imageId userId : String) (s : State)
    (hq : noPayload s.queue) : noPayload (deleteImage env imageId userId s).2.queue := by
  unfold deleteImage
  have h1 : noPayload (deleteImageLocally env imageId s).2.queue := by
    unfold deleteImageLocally
    split <;> exact hq
  generalize deleteImageLocally env imageId s = p at h1 ⊢
  obtain ⟨res, s1⟩ := p
  dsimp only at h1
  cases res with
  | error e => exact h1
  | ok u =>
    dsimp only
    by_cases hc : (s1.isOnlineMode && s1.firestore) = true
    · rw [if_pos hc]
      have h2 := (deleteImageFromCloud_ctl env imageId s1).2.1.1
      generalize deleteImageFromCloud env imageId s1 = q at h2 ⊢
      obtain ⟨res2, s2⟩ := q
      dsimp only at h2
      cases res2 with
      | ok u2 => exact noPayload_of_eq h2 h1
      | error e =>
        dsimp only
        have h3 := addToSyncQueue_noPayload env (.delete imageId userId) s2 rfl
          (noPayload_of_eq h2 h1)
        generalize addToSyncQueue env (.delete imageId userId) s2 = w at h3 ⊢
        obtain ⟨res3, s3⟩ := w
        cases res3 <;> exact h3
    · rw [if_neg hc]
      have h3 := addToSyncQueue_noPayload env (.delete imageId userId) s1 rfl h1
      generalize addToSyncQueue env (.delete imageId userId) s1 = w at h3 ⊢
      obtain ⟨res3, s3⟩ := w
      cases res3 <;> exact h3
theorem saveFolderLocally_queue (env : Env) (f : FolderRecord) (s : State) :
    (saveFolderLocally env f s).2.queue = s.queue :=
  (saveFolderLocally_ctl env f s).2.1.1

theorem createFolder_core (env : Env) (fd : FolderRecord) (s2 : State)
    (hq : noPayload s2.queue) :
    noPayload (match saveFolderLocally env fd s2 with
      | (.error _, s3) =>
        ((.error "storage/folder-create-failed", s3) : Except String FolderRecord × State)
      | (.ok _, s3) =>
        match (if s3.isOnlineMode && s3.firestore then
            match saveFolderToCloud env fd s3 with
            | (.ok _, s4) =>
              match updateFolderLocally env { fd with syncStatus := .synced } s4 with
              | (.ok _, s5) => (.ok { fd with syncStatus := .synced }, s5)
              | (.error _, s5) =>
                match addToSyncQueue env (.createFolder { fd with syncStatus := .synced }) s5 with
                | (.ok _, s6) => (.ok { fd with syncStatus := .synced }, s6)
                | (.error e, s6) => (.error e, s6)
            | (.error _, s4) =>
              match addToSyncQueue env (.createFolder fd) s4 with
              | (.ok _, s5) => (.ok fd, s5)
              | (.error e, s5) => (.error e, s5)
          else
            match addToSyncQueue env (.createFolder fd) s3 with
            | (.ok _, s4) => (.ok fd, s4)
            | (.error e, s4) => (.error e, s4) : Except Err FolderRecord × State) with
        | (.ok folder, s4) => (.ok folder, s4)
        | (.error _, s4) => (.error "storage/folder-create-failed", s4)).2.queue := by
  have hadd : ∀ (f g : FolderRecord) (t : State), noPayload t.queue →
      noPayload (match (match addToSyncQueue env (.createFolder f) t with
          | (.ok _, s4) => ((.ok g, s4) : Except Err FolderRecord × State)
          | (.error e, s4) => (.error e, s4)) with
        | (.ok folder, s4) => ((.ok folder, s4) : Except String FolderRecord × State)
        | (.error _, s4) => (.error "storage/folder-create-failed", s4)).2.queue := by
    intro f g t ht
    have h3 := addToSyncQueue_noPayload env (.createFolder f) t rfl ht
    generalize addToSyncQueue env (.createFolder f) t = w at h3 ⊢
    obtain ⟨res3, s3⟩ := w
    cases res3 <;> exact h3
  have h1 := saveFolderLocally_queue env fd s2
  generalize saveFolderLocally env fd s2 = p at h1 ⊢
  obtain ⟨res, s3⟩ := p
  dsimp only at h1
  have hq3 : noPayload s3.queue := noPayload_of_eq h1 hq
  cases res with
  | error e => exact hq3
  | ok u =>
    dsimp only
    by_cases hc : (s3.isOnlineMode && s3.firestore) = true
    · rw [if_pos hc]
      have h2 := (saveFolderToCloud_ctl env fd s3).2.1.1
      generalize saveFolderToCloud env fd s3 = q at h2 ⊢
      obtain ⟨res2, s4⟩ := q
      dsimp only at h2
      have hq4 : noPayload s4.queue := noPayload_of_eq h2 hq3
      cases res2 with
      | error e => exact hadd fd fd s4 hq4
      | ok u2 =>
        dsimp only
        unfold updateFolderLocally
        have h5 := saveFolderLocally_queue env { fd with syncStatus := .synced } s4
        generalize saveFolderLocally env { fd with syncStatus := .synced } s4 = r at h5 ⊢
        obtain ⟨res5, s5⟩ := r
        dsimp only at h5
        have hq5 : noPayload s5.queue := noPayload_of_eq h5 hq4
        cases res5 with
        | ok u5 => exact hq5
        | error e => exact hadd _ _ s5 hq5
    · rw [if_neg hc]
      exact hadd fd fd s3 hq3

theorem createFolder_noPayload (env : Env) (name userId : String) (icon color : Option String)
    (s : State) (hq : noPayload s.queue) :
    noPayload (createFolder env name userId icon color s).2.queue := by
  unfold createFolder
  dsimp only [generateFolderId]
  exact createFolder_core env _ s.tick.tick hq

theorem deleteFolder_noPayload (env : Env) (folderId userId : String) (s : State)
    (hq : noPayload s.queue) : noPayload (deleteFolder env folderId userId s).2.queue := by
  have hadd : ∀ (t : State), noPayload t.queue →
      noPayload (match addToSyncQueue env (.deleteFolder folderId userId) t with
        | (.ok _, s3) => ((.ok (), s3) : Except FolderDeleteError Unit × State)
        | (.error e, s3) => (.error (.failed e), s3)).2.queue := by
    intro t ht
    have h3 := addToSyncQueue_noPayload env (.deleteFolder folderId userId) t rfl ht
    generalize addToSyncQueue env (.deleteFolder folderId userId) t = w at h3 ⊢
    obtain ⟨res3, s3⟩ := w
    cases res3 <;> exact h3
  unfold deleteFolder
  have h1 := (getImages_frame env userId (some folderId) 1 0 s).2.2.1.1
  generalize getImages env userId (some folderId) 1 0 s = p at h1 ⊢
  obtain ⟨res, s1⟩ := p
  dsimp only at h1
  have hq1 : noPayload s1.queue := noPayload_of_eq h1 hq
  cases res with
  | error e => exact hq1
  | ok page =>
    dsimp only
    split
    · exact hq1
    · have h2 : (deleteFolderLocally env folderId s1).2.queue = s1.queue := by
        unfold deleteFolderLocally
        split <;> rfl
      generalize deleteFolderLocally env folderId s1 = q at h2 ⊢
      obtain ⟨res2, s2⟩ := q
      dsimp only at h2
      have hq2 : noPayload s2.queue := noPayload_of_eq h2 hq1
      cases res2 with
      | error e => exact hq2
      | ok u =>
        dsimp only
        by_cases hc : (s2.isOnlineMode && s2.firestore) = true
        · rw [if_pos hc]
          have h4 := (deleteFolderFromCloud_ctl env folderId s2).2.1.1
          generalize deleteFolderFromCloud env folderId s2 = r at h4 ⊢
          obtain ⟨res4, s4⟩ := r
          dsimp only at h4
          cases res4 with
          | ok u4 => exact noPayload_of_eq h4 hq2
          | error e => exact hadd s4 (noPayload_of_eq h4 hq2)
        · rw [if_neg hc]
          exact hadd s2 hq2

theorem cleanupStorage_queue (env : Env) (userId : String) (maxAge : Nat) (s : State) :
    (cleanupStorage env userId maxAge s).2.queue = s.queue := by
  unfold cleanupStorage
  dsimp only
  split <;> rfl

/-- In every state that the manager reaches from an empty sync queue store, no
`upload` entry of the queue carries `imageData`. -/
theorem run_noPayload (env : Env) (s : State) (h : Run env s) : noPayload s.queue := by
  induction h with
  | fresh s h =>
    intro x hx
    rw [h] at hx
    exact (List.not_mem_nil _ hx).elim
  | setMode isOnline s _ ih => exact setMode_noPayload env isOnline s ih
  | saveImage imageData userId folderId s _ ih =>
    exact saveImage_noPayload env imageData userId folderId s ih
  | deleteImage imageId userId s _ ih => exact deleteImage_noPayload env imageId userId s ih
  | getImages userId folderId limit offset s _ ih =>
    exact noPayload_of_eq (getImages_frame env userId folderId limit offset s).2.2.1.1 ih
  | createFolder name userId icon color s _ ih =>
    exact createFolder_noPayload env name userId icon color s ih
  | deleteFolder folderId userId s _ ih => exact deleteFolder_noPayload env folderId userId s ih
  | cleanupStorage userId maxAge s _ ih =>
    exact noPayload_of_eq (cleanupStorage_queue env userId maxAge s) ih
  | processSyncQueue s _ ih => exact (processSyncQueue_noPayload env s ih).2

/-- C11. In every state that the manager reaches from an empty sync queue store
through its public methods, a drain leaves the local images store as it is: an image
that is not in the local images store, in particular one that `deleteImage` has
deleted, is not in it after `processSyncQueue` either, whatever the requests do. -/
theorem drain_keeps_deleted_image_deleted (env : Env) (s : State) (imageId : String)
    (hrun : Run env s) (habs : storeGet ImageRecord.id imageId s.images = none) :
    storeGet ImageRecord.id imageId (processSyncQueue env s).images = none
      ∧ (processSyncQueue env s).images = s.images := by
  have h := (processSyncQueue_noPayload env s (run_noPayload env s hrun)).1
  rw [h]
  exact ⟨habs, rfl⟩

/-- Witness of C11: on a fresh manager with Firebase configured an image is saved and
then deleted while offline, both calls returning success; the manager is set online
and the drain replays the `upload` entry and the `delete` entry. The local images
store stays empty. -/
theorem drain_keeps_deleted_image_deleted_witness :
    ((saveImage quietEnv bareInput "u1" none (State.init true)).1 = some (.ok "img_1000_k3x")
        ∧ (deleteImage quietEnv "img_1000_k3x" "u1"
            (saveImage quietEnv bareInput "u1" none (State.init true)).2).1 = .ok ()
        ∧ (setMode quietEnv true savedThenDeleted).queue.map
            (fun item => (item.id, item.data.action, item.data.imageId))
            = [(1, "upload", some "img_1000_k3x"), (2, "delete", some "img_1000_k3x")]
        ∧ replays (processSyncQueue quietEnv (setMode quietEnv true savedThenDeleted)).log
            = [(1, true), (2, true)]
        ∧ (processSyncQueue quietEnv (setMode quietEnv true savedThenDeleted)).queue = []
        ∧ storeGet ImageRecord.id "img_1000_k3x"
            (setMode quietEnv true savedThenDeleted).images = none)
      ∧ storeGet ImageRecord.id "img_1000_k3x"
          (processSyncQueue quietEnv (setMode quietEnv true savedThenDeleted)).images = none
      ∧ (processSyncQueue quietEnv (setMode quietEnv true savedThenDeleted)).images
          = (setMode quietEnv true savedThenDeleted).images :=
  ⟨⟨rfl, rfl, rfl, rfl, rfl, rfl⟩,
    drain_keeps_deleted_image_deleted quietEnv (setMode quietEnv true savedThenDeleted)
      "img_1000_k3x"
      (Run.setMode true _ (Run.deleteImage "img_1000_k3x" "u1" _
        (Run.saveImage bareInput "u1" none _ (Run.fresh (State.init true) rfl))))
      rfl⟩

end StorageManager

namespace AuthManager

/-! ## Login lockout -/

theorem recordLoginAttempt_failure (now : Int) (identifier : String) (m : LoginAttempts) :
    recordLoginAttempt now identifier false m identifier
      = some { count := (attemptsOf m identifier).count + 1, lastAttempt := now } := by
  simp [recordLoginAttempt]

theorem recordFailures_append (times : List Int) (now : Int) (identifier : String)
    (m : LoginAttempts) :
    recordFailures (times ++ [now]) identifier m
      = recordLoginAttempt now identifier false (recordFailures times identifier m) := by
  simp [recordFailures, List.foldl_append]

theorem recordFailures_count (identifier : String) (m : LoginAttempts) :
    ∀ times : List Int,
      (attemptsOf (recordFailures times identifier m) identifier).count
        = (attemptsOf m identifier).count + times.length := by
  intro times
  induction times using List.reverseRecOn with
  | nil => rfl
  | append_singleton times now ih =>
    rw [recordFailures_append]
    unfold attemptsOf at ih ⊢
    rw [recordLoginAttempt_failure]
    unfold attemptsOf
    simp only [Option.getD_some, List.length_append, List.length_singleton]
    omega

theorem recordFailures_entry (identifier : String) (m : LoginAttempts) (times : List Int)
    (t : Int) (hlast : times.getLast? = some t) :
    recordFailures times identifier m identifier
      = some { count := (attemptsOf m identifier).count + times.length, lastAttempt := t } := by
  induction times using List.reverseRecOn with
  | nil => simp at hlast
  | append_singleton times now _ =>
    rw [List.getLast?_concat] at hlast
    cases hlast
    rw [recordFailures_append, recordLoginAttempt_failure, recordFailures_count]
    simp only [List.length_append, List.length_singleton]
    rfl

theorem checkLoginAttempts_locked (now t : Int) (identifier : String) (m : LoginAttempts)
    (a : Attempts) (hm : m identifier = some a) (hc : 5 ≤ a.count) (ht : a.lastAttempt = t)
    (h1 : t ≤ now) (h2 : now < t + 15 * 60 * 1000) :
    (checkLoginAttempts now identifier m).1 = .error (15 * 60 * 1000 - (now - t)) := by
  have hr : ¬ (now - a.lastAttempt > lockoutDuration) := by
    unfold lockoutDuration
    omega
  unfold checkLoginAttempts attemptsOf
  rw [hm]
  simp only [Option.getD_some, decide_eq_false hr, Bool.false_and, Bool.false_eq_true,
    if_false]
  rw [if_pos (by unfold maxLoginAttempts; exact hc), if_pos (by unfold lockoutDuration; omega)]
  simp only [lockoutDuration, ht]

theorem checkLoginAttempts_expired (now t : Int) (identifier : String) (m : LoginAttempts)
    (a : Attempts) (hm : m identifier = some a) (ht : a.lastAttempt = t)
    (h1 : t + 15 * 60 * 1000 < now) :
    (checkLoginAttempts now identifier m).1 = .ok { count := 0, lastAttempt := t }
      ∧ (checkLoginAttempts now identifier m).2 identifier
          = some { count := 0, lastAttempt := t } := by
  have hr : now - a.lastAttempt > lockoutDuration := by
    unfold lockoutDuration
    omega
  unfold checkLoginAttempts attemptsOf
  rw [hm]
  simp only [Option.getD_some, decide_eq_true hr, Option.isSome_some, Bool.and_self,
    if_true]
  rw [if_neg (by unfold maxLoginAttempts; simp)]
  simp [ht]

/-- C27. Once five or more failed attempts have been recorded for an identifier by
`recordLoginAttempt`, one after the other and the most recent at time `t`,
`checkLoginAttempts(identifier)` throws at every time from `t` to less than 15
minutes after `t`; at every time more than 15 minutes after `t` it does not throw
and resets the count of the identifier to 0. `recordLoginAttempt(identifier, true)`
removes the entry of the identifier. -/
theorem login_lockout (loginAttempts : LoginAttempts) (identifier : String)
    (times : List Int) (t : Int) (hlen : 5 ≤ times.length)
    (hlast : times.getLast? = some t) :
    (∀ now, t ≤ now → now < t + 15 * 60 * 1000 →
        ∃ remainingTime,
          (checkLoginAttempts now identifier
            (recordFailures times identifier loginAttempts)).1 = .error remainingTime)
      ∧ (∀ now, t + 15 * 60 * 1000 < now →
          (∃ attempts,
            (checkLoginAttempts now identifier
              (recordFailures times identifier loginAttempts)).1 = .ok attempts)
          ∧ ((checkLoginAttempts now identifier
              (recordFailures times identifier loginAttempts)).2 identifier).map
                Attempts.count = some 0)
      ∧ ∀ now (m : LoginAttempts), recordLoginAttempt now identifier true m identifier = none := by
  have hentry := recordFailures_entry identifier loginAttempts times t hlast
  refine ⟨?_, ?_, ?_⟩
  · intro now h1 h2
    exact ⟨_, checkLoginAttempts_locked now t identifier _ _ hentry
      (by show 5 ≤ _ + times.length; omega) rfl h1 h2⟩
  · intro now h1
    obtain ⟨h3, h4⟩ := checkLoginAttempts_expired now t identifier _ _ hentry rfl h1
    exact ⟨⟨_, h3⟩, by rw [h4]; rfl⟩
  · intro now m
    simp [recordLoginAttempt]

/-- Witness of C27: five failures of `bob` at the times 10 to 50; the check throws at
time 50 and one millisecond before the end of the lockout, and not after it. -/
theorem login_lockout_witness :
    (5 ≤ [(10 : Int), 20, 30, 40, 50].length ∧ [(10 : Int), 20, 30, 40, 50].getLast? = some 50)
      ∧ (checkLoginAttempts 50 "bob"
          (recordFailures [10, 20, 30, 40, 50] "bob" (fun _ => none))).1 = .error 900000
      ∧ (checkLoginAttempts 900049 "bob"
          (recordFailures [10, 20, 30, 40, 50] "bob" (fun _ => none))).1 = .error 1
      ∧ (checkLoginAttempts 900051 "bob"
          (recordFailures [10, 20, 30, 40, 50] "bob" (fun _ => none))).1
          = .ok { count := 0, lastAttempt := 50 }
      ∧ ∀ now, (50 : Int) ≤ now → now < 50 + 15 * 60 * 1000 →
          ∃ remainingTime,
            (checkLoginAttempts now "bob"
              (recordFailures [10, 20, 30, 40, 50] "bob" (fun _ => none))).1
              = .error remainingTime :=
  ⟨⟨by decide, rfl⟩, rfl, rfl, rfl,
    (login_lockout (fun _ => none) "bob" [10, 20, 30, 40, 50] 50 (by decide) rfl).1⟩

end AuthManager
